import Mathlib

/-!
# Verification of the `geo` WKB decoder and distance entry points

This file is a shallow embedding, in Lean 4, of the WKB (Well-Known
Binary) geometry decoder of `src/geo/liblwgeom/lwin_wkb.cpp`, of the
introspection helpers of `src/geo/liblwgeom/lwgeom.cpp`, and of the
distance entry point of `src/geo/postgis/lwgeom_functions_basic.cpp`,
together with proofs settling a fixed list of claims about them.

Modelling conventions:

* A byte buffer is a `List Nat` (each entry a byte value `< 256`); the C
  pointer pair `(wkb, pos)` becomes the buffer plus a numeric `offset`.
* Machine integers are `Nat`/`Int` with explicit reductions mod `2^32`
  where the C code relies on fixed width.  IEEE-754 doubles are carried
  as their 64-bit bit patterns (`Nat < 2^64`): the decoder performs no
  floating-point arithmetic, only a bit-level NaN test.
* The host machine is modelled as little-endian (`IS_BIG_ENDIAN = 0`),
  as on x86-64; `memcpy` of a 4/8-byte field therefore reads the field
  little-endian, and the byte-swap loops of the C code become a byte
  reversal of the value.
* `lwerror` is not part of the sources under review (its definition
  lives outside `src/`).  Modelled from the spec: every format error is
  fatal, aborts the whole parse and surfaces to the caller, so `lwerror`
  is embedded as raising an exception (`Except.error`) that propagates.
  A C function that returns `NULL` *without* calling `lwerror` is
  embedded as succeeding with value `none`.
* A memory read outside the byte buffer (undefined behaviour in C) is
  embedded as the dedicated error `WkbErr.ub`, raised exactly when the
  dereferenced index is outside the list.  A parse result different
  from `WkbErr.ub` therefore certifies that no out-of-bounds byte was
  ever dereferenced.
* The C recursion of `lwgeom_from_wkb_state` becomes structural
  recursion on a `fuel : Nat` budget that is decremented exactly once
  per entry into `lwgeom_from_wkb_state`.  Running out of fuel raises
  `WkbErr.stackDepth`: a parse of an input with initial fuel `F`
  raises `WkbErr.stackDepth` iff the C call tree would enter a call of
  `lwgeom_from_wkb_state` at nesting depth `F + 1`.
-/

namespace GeoSpec

/-! ## Byte-level helpers -/

/-- Little-endian value of a byte list: `b0 + 256*b1 + 256²*b2 + ...`. -/
def bytesLE : List Nat → Nat
  | [] => 0
  | b :: bs => b + 256 * bytesLE bs

/-- The `k` little-endian bytes of `n` (low byte first). -/
def natBytesLE : Nat → Nat → List Nat
  | 0, _ => []
  | k + 1, n => (n % 256) :: natBytesLE k (n / 256)

/-- The byte-swap loop of `integer_from_wkb_state` (lwin_wkb.cpp:296-306):
on the little-endian host, reversing the in-memory bytes of a `uint32`
maps value `n` to the value of its reversed 4-byte representation. -/
def swap32 (n : Nat) : Nat := bytesLE (natBytesLE 4 n).reverse

/-- The byte-swap loop of `double_from_wkb_state` (lwin_wkb.cpp:321-331),
acting on the 8-byte bit pattern of a double. -/
def swap64 (n : Nat) : Nat := bytesLE (natBytesLE 8 n).reverse

/-- Two's-complement reading of a `uint32` value as `int32_t`. -/
def toInt32 (n : Nat) : Int :=
  if n < 2 ^ 31 then (n : Int) else (n : Int) - 2 ^ 32

/-- Bit-level NaN test on a 64-bit double pattern: biased exponent all
ones and non-zero mantissa (`std::isnan` in lwpoint_from_wkb_state). -/
def isNaN64 (bits : Nat) : Bool :=
  (bits / 2 ^ 52) % 2 ^ 11 == 0x7FF && bits % 2 ^ 52 != 0

/-! ## Geometry object model

The variant tree produced by the decoder's constructor calls
(`lwpoint_construct`, `lwline_construct`, `lwpoly_add_ring`,
`lwcollection_construct_empty`, ...).  The numeric `*TYPE` tags of the
C object model become the enumeration `LWType`. -/

/-- Geometry type tags (`POINTTYPE`, `LINETYPE`, ... of the C object
model). -/
inductive LWType where
  | point | line | polygon | circstring | compound | curvepoly
  | multipoint | multiline | multipolygon | multicurve | multisurface
  | polyhedralsurface | tin | collection | triangle
  deriving DecidableEq, Repr

/-- A `POINTARRAY`: dimension flags plus the coordinate tuples, each
tuple a list of `ndims` double bit patterns. -/
structure PtArray where
  hasZ : Bool
  hasM : Bool
  pts : List (List Nat)
  deriving DecidableEq, Repr

/-- Number of doubles per coordinate tuple. -/
def PtArray.ndims (pa : PtArray) : Nat :=
  2 + (if pa.hasZ then 1 else 0) + (if pa.hasM then 1 else 0)

/-- `pa->npoints`. -/
def PtArray.npoints (pa : PtArray) : Nat := pa.pts.length

/-- The geometry tree (`LWGEOM` and its variants `LWPOINT`, `LWLINE`,
`LWPOLY`, `LWCIRCSTRING`, `LWTRIANGLE`, `LWCURVEPOLY`,
`LWCOLLECTION`). An empty point is a point whose point array has zero
tuples, as built by `lwpoint_construct_empty`. -/
inductive Geom where
  | point (srid : Int) (pa : PtArray)
  | line (srid : Int) (pa : PtArray)
  | circstring (srid : Int) (pa : PtArray)
  | triangle (srid : Int) (pa : PtArray)
  | poly (srid : Int) (hasZ hasM : Bool) (rings : List PtArray)
  | curvepoly (srid : Int) (hasZ hasM : Bool) (rings : List Geom)
  | collection (ctype : LWType) (srid : Int) (hasZ hasM : Bool)
      (geoms : List Geom)

/-- `geom->type` of the constructed object. -/
def Geom.lwtype : Geom → LWType
  | .point _ _ => .point
  | .line _ _ => .line
  | .circstring _ _ => .circstring
  | .triangle _ _ => .triangle
  | .poly _ _ _ _ => .polygon
  | .curvepoly _ _ _ _ => .curvepoly
  | .collection t _ _ _ _ => t

/-- `geom->srid`. -/
def Geom.srid : Geom → Int
  | .point s _ => s
  | .line s _ => s
  | .circstring s _ => s
  | .triangle s _ => s
  | .poly s _ _ _ => s
  | .curvepoly s _ _ _ => s
  | .collection _ s _ _ _ => s

/-! ## Constants

`WKB_BYTE_SIZE` / `WKB_INT_SIZE` / `WKB_DOUBLE_SIZE` and the WKB type
code and parser-check constants are declared in a liblwgeom header that
is not part of the sources under review.  Modelled from the spec: §4.1
fixes the enumeration table (Point=1 ... Triangle=17), §6 fixes the
flag bits 0x80000000 = hasZ, 0x40000000 = hasM, 0x20000000 = hasSRID
and the field widths (1-byte endian, 4-byte ints, 8-byte doubles), and
the check bitmask {MINPOINTS, ODD, CLOSURE, ZCLOSURE} with the
standard PostGIS values 1, 2, 4, 8. -/

def WKB_BYTE_SIZE : Nat := 1

def WKB_INT_SIZE : Nat := 4

def WKB_DOUBLE_SIZE : Nat := 8

def WKBZOFFSET : Nat := 0x80000000

def WKBMOFFSET : Nat := 0x40000000

def WKBSRIDFLAG : Nat := 0x20000000

def WKB_POINT_TYPE : Nat := 1

def WKB_LINESTRING_TYPE : Nat := 2

def WKB_POLYGON_TYPE : Nat := 3

def WKB_MULTIPOINT_TYPE : Nat := 4

def WKB_MULTILINESTRING_TYPE : Nat := 5

def WKB_MULTIPOLYGON_TYPE : Nat := 6

def WKB_GEOMETRYCOLLECTION_TYPE : Nat := 7

def WKB_CIRCULARSTRING_TYPE : Nat := 8

def WKB_COMPOUNDCURVE_TYPE : Nat := 9

def WKB_CURVEPOLYGON_TYPE : Nat := 10

def WKB_MULTICURVE_TYPE : Nat := 11

def WKB_MULTISURFACE_TYPE : Nat := 12

def WKB_CURVE_TYPE : Nat := 13

def WKB_SURFACE_TYPE : Nat := 14

def WKB_POLYHEDRALSURFACE_TYPE : Nat := 15

def WKB_TIN_TYPE : Nat := 16

def WKB_TRIANGLE_TYPE : Nat := 17

def LW_PARSER_CHECK_MINPOINTS : Nat := 1

def LW_PARSER_CHECK_ODD : Nat := 2

def LW_PARSER_CHECK_CLOSURE : Nat := 4

def LW_PARSER_CHECK_ZCLOSURE : Nat := 8

def LW_PARSER_CHECK_NONE : Nat := 0

/-- `LW_PARSER_MAX_DEPTH` (lwin_wkb.cpp:35). -/
def LW_PARSER_MAX_DEPTH : Nat := 200

def SRID_UNKNOWN : Int := 0

def SRID_MAXIMUM : Int := 999999

def SRID_USER_MAXIMUM : Int := 998999

/-- Modelled from the spec: `clamp_srid` lives in a header outside
`src/`; §4.1 step 3 says the SRID read from the wire is clamped to the
valid SRID range.  Embedded with the standard PostGIS clamping rule:
non-positive SRIDs become `SRID_UNKNOWN`, SRIDs above the maximum are
folded into the reserved user band. -/
def clamp_srid (srid : Int) : Int :=
  if srid ≤ 0 then SRID_UNKNOWN
  else if srid > SRID_MAXIMUM then
    SRID_USER_MAXIMUM + 1 + srid % (SRID_MAXIMUM - SRID_USER_MAXIMUM - 1)
  else srid

/-- `maxpoints = UINT_MAX / WKB_DOUBLE_SIZE / 4` (lwin_wkb.cpp:347). -/
def maxpoints : Nat := (2 ^ 32 - 1) / WKB_DOUBLE_SIZE / 4

/-! ## Parse state and parser monad -/

/-- `wkb_parse_state` (lwin_wkb.cpp:40-53).  The buffer (`wkb`) and its
declared size (`wkb_size`) never change during a parse and are passed
as ambient parameters of the monad; the pointer `pos` becomes the
numeric `offset` from the start of the buffer. -/
structure PState where
  srid : Int
  swap_bytes : Bool
  check : Nat
  lwtype : Option LWType
  has_z : Bool
  has_m : Bool
  has_srid : Bool
  error : Bool
  depth : Nat
  offset : Nat
  deriving DecidableEq, Repr

/-- Fatal parse outcomes.  `ub` marks an out-of-bounds memory read
(undefined behaviour in the C program); `stackDepth` marks exhaustion
of the call-depth budget (the fuel of the embedding); every other
constructor corresponds to one `lwerror` call site of the decoder. -/
inductive WkbErr where
  | ub
  | expectedSize
  | invalidEndian
  | unknownType
  | unsupportedType
  | tooManyChained
  | minPoints
  | closure
  | zclosure
  | triangleRings
  | addGeom
  | addRing
  | stackDepth
  deriving DecidableEq, Repr

/-- The parser monad: reads the immutable buffer and declared size,
threads a `PState`, and aborts on a `WkbErr` (the embedding of a fatal
`lwerror`). -/
def ParserM (α : Type) : Type :=
  List Nat → Nat → PState → Except WkbErr (α × PState)

instance : Monad ParserM where
  pure a := fun _ _ s => .ok (a, s)
  bind m f := fun w n s =>
    match m w n s with
    | .error e => .error e
    | .ok (a, s') => f a w n s'

/-- Abort with a fatal error (an `lwerror` call). -/
def perr {α : Type} (e : WkbErr) : ParserM α := fun _ _ _ => .error e

/-- Read the current parse state. -/
def getS : ParserM PState := fun _ _ s => .ok (s, s)

/-- Replace the parse state. -/
def setS (s : PState) : ParserM Unit := fun _ _ _ => .ok ((), s)

/-- Mutate the parse state in place. -/
def modifyS (f : PState → PState) : ParserM Unit :=
  fun _ _ s => .ok ((), f s)

/-- The declared buffer size `s->wkb_size`. -/
def getWkbSize : ParserM Nat := fun _ n s => .ok (n, s)

/-- Dereference one byte of the buffer.  An index outside the buffer is
undefined behaviour in C and raises `WkbErr.ub` here. -/
def derefByte (i : Nat) : ParserM Nat := fun w _ s =>
  match w.get? i with
  | some b => .ok (b, s)
  | none => .error .ub

/-- Dereference `k` consecutive bytes starting at index `i`. -/
def derefBytes : Nat → Nat → ParserM (List Nat)
  | 0, _ => pure []
  | k + 1, i => do
    let b ← derefByte i
    let bs ← derefBytes k (i + 1)
    pure (b :: bs)

/-! ## The WKB decoder (lwin_wkb.cpp) -/

/-- `wkb_parse_state_check` (lwin_wkb.cpp:87-92): fail fatally when a
read of `next` bytes from the cursor would pass the declared buffer
end.  (The C line `s->error = LW_TRUE` after `lwerror` is unreachable
under fatal `lwerror` and has no counterpart here.) -/
def wkb_parse_state_check (next : Nat) : ParserM Unit := do
  let s ← getS
  let size ← getWkbSize
  if s.offset + next > size then perr .expectedSize

/-- `byte_from_wkb_state` (lwin_wkb.cpp:204-215). -/
def byte_from_wkb_state : ParserM Nat := do
  wkb_parse_state_check WKB_BYTE_SIZE
  let s ← getS
  if s.error then return 0
  let b ← derefByte s.offset
  setS { s with offset := s.offset + WKB_BYTE_SIZE }
  return b

/-- `integer_from_wkb_state` (lwin_wkb.cpp:287-310): `memcpy` of 4
bytes (little-endian host), then an in-place byte swap when
`swap_bytes` is set. -/
def integer_from_wkb_state : ParserM Nat := do
  wkb_parse_state_check WKB_INT_SIZE
  let s ← getS
  if s.error then return 0
  let bs ← derefBytes WKB_INT_SIZE s.offset
  let i := if s.swap_bytes then swap32 (bytesLE bs) else bytesLE bs
  setS { s with offset := s.offset + WKB_INT_SIZE }
  return i

/-- `double_from_wkb_state` (lwin_wkb.cpp:316-335): `memcpy` of 8 bytes
(no bounds check of its own!), then an in-place byte swap when
`swap_bytes` is set.  The value is the 64-bit bit pattern. -/
def double_from_wkb_state : ParserM Nat := do
  let s ← getS
  let bs ← derefBytes WKB_DOUBLE_SIZE s.offset
  let d := if s.swap_bytes then swap64 (bytesLE bs) else bytesLE bs
  setS { s with offset := s.offset + WKB_DOUBLE_SIZE }
  return d

/-- The per-double read loop of the byte-swapping branch of
`ptarray_from_wkb_state` (lwin_wkb.cpp:381-387). -/
def read_doubles : Nat → ParserM (List Nat)
  | 0 => pure []
  | k + 1 => do
    let d ← double_from_wkb_state
    let ds ← read_doubles k
    pure (d :: ds)

/-- The single `memcpy` of `ptarray_construct_copy_data` on the
no-swap fast path: `count` doubles read back-to-back from byte index
`i`, each interpreted little-endian (host order). -/
def copy_doubles : Nat → Nat → ParserM (List Nat)
  | 0, _ => pure []
  | k + 1, i => do
    let bs ← derefBytes WKB_DOUBLE_SIZE i
    let ds ← copy_doubles k (i + WKB_DOUBLE_SIZE)
    pure (bytesLE bs :: ds)

/-- Regroup a flat list of `npoints * ndims` doubles into `npoints`
coordinate tuples of `ndims` doubles (the layout of a `POINTARRAY`'s
`serialized_pointlist`). -/
def chunkPts (ndims : Nat) : Nat → List Nat → List (List Nat)
  | 0, _ => []
  | n + 1, ds => ds.take ndims :: chunkPts ndims n (ds.drop ndims)

/-- `ptarray_construct(hasZ, hasM, npoints)` for the `npoints = 0`
uses: an empty point array with the given dimension flags. -/
def ptarray_construct (hasZ hasM : Bool) : PtArray :=
  ⟨hasZ, hasM, []⟩

/-- Modelled from the spec: `ptarray_is_closed_2d` lives outside
`src/`; §4.1 says the closure check compares first and last tuple
(X and Y only) bit-for-bit. -/
def ptarray_is_closed_2d (pa : PtArray) : Bool :=
  let f := pa.pts.headD []
  let l := pa.pts.getLastD []
  f.getD 0 0 == l.getD 0 0 && f.getD 1 0 == l.getD 1 0

/-- Modelled from the spec: `ptarray_is_closed_z` lives outside
`src/`; §4.1 says the Z-closure check additionally requires the ring
to close on Z. -/
def ptarray_is_closed_z (pa : PtArray) : Bool :=
  let f := pa.pts.headD []
  let l := pa.pts.getLastD []
  f.getD 0 0 == l.getD 0 0 && f.getD 1 0 == l.getD 1 0 &&
    f.getD 2 0 == l.getD 2 0

/-- `ptarray_from_wkb_state` (lwin_wkb.cpp:342-391).  Returns `none`
exactly where the C function returns `NULL` without a fatal error (the
`npoints > maxpoints` overflow guard, which only sets `s->error`). -/
def ptarray_from_wkb_state : ParserM (Option PtArray) := do
  let npoints ← integer_from_wkb_state
  let s0 ← getS
  if s0.error then return none
  if npoints > maxpoints then
    setS { s0 with error := true }
    return none
  let ndims := 2 + (if s0.has_z then 1 else 0) + (if s0.has_m then 1 else 0)
  let pa_size := npoints * ndims * WKB_DOUBLE_SIZE
  if npoints = 0 then
    return some (ptarray_construct s0.has_z s0.has_m)
  wkb_parse_state_check pa_size
  let s1 ← getS
  if s1.error then return none
  if !s1.swap_bytes then
    let ds ← copy_doubles (npoints * ndims) s1.offset
    setS { s1 with offset := s1.offset + pa_size }
    return some ⟨s1.has_z, s1.has_m, chunkPts ndims npoints ds⟩
  else
    let ds ← read_doubles (npoints * ndims)
    let s2 ← getS
    return some ⟨s2.has_z, s2.has_m, chunkPts ndims npoints ds⟩

/-- `lwpoint_from_wkb_state` (lwin_wkb.cpp:402-445), including the
`POINT(NaN NaN) ==> POINT EMPTY` normalization. -/
def lwpoint_from_wkb_state : ParserM (Option Geom) := do
  let s ← getS
  let ndims := 2 + (if s.has_z then 1 else 0) + (if s.has_m then 1 else 0)
  let pa_size := ndims * WKB_DOUBLE_SIZE
  wkb_parse_state_check pa_size
  let s0 ← getS
  if s0.error then return none
  let pa ←
    if !s0.swap_bytes then do
      let ds ← copy_doubles ndims s0.offset
      setS { s0 with offset := s0.offset + pa_size }
      pure (⟨s0.has_z, s0.has_m, chunkPts ndims 1 ds⟩ : PtArray)
    else do
      let ds ← read_doubles ndims
      pure (⟨s0.has_z, s0.has_m, chunkPts ndims 1 ds⟩ : PtArray)
  let x := (pa.pts.headD []).getD 0 0
  let y := (pa.pts.headD []).getD 1 0
  let s1 ← getS
  if isNaN64 x && isNaN64 y then
    return some (.point s1.srid (ptarray_construct s1.has_z s1.has_m))
  else
    return some (.point s1.srid pa)

/-- `lwline_from_wkb_state` (lwin_wkb.cpp:455-473). -/
def lwline_from_wkb_state : ParserM (Option Geom) := do
  let pa? ← ptarray_from_wkb_state
  let s ← getS
  if s.error then return none
  match pa? with
  | none => return some (.line s.srid (ptarray_construct s.has_z s.has_m))
  | some pa =>
    if pa.npoints = 0 then
      return some (.line s.srid (ptarray_construct s.has_z s.has_m))
    else if s.check &&& LW_PARSER_CHECK_MINPOINTS ≠ 0 ∧ pa.npoints < 2 then
      perr .minPoints
    else
      return some (.line s.srid pa)

/-- `lwcircstring_from_wkb_state` (lwin_wkb.cpp:484-504).  Both check
failures return `NULL` without an `lwerror`, hence `none`. -/
def lwcircstring_from_wkb_state : ParserM (Option Geom) := do
  let pa? ← ptarray_from_wkb_state
  let s ← getS
  if s.error then return none
  match pa? with
  | none => return some (.circstring s.srid (ptarray_construct s.has_z s.has_m))
  | some pa =>
    if pa.npoints = 0 then
      return some (.circstring s.srid (ptarray_construct s.has_z s.has_m))
    else if s.check &&& LW_PARSER_CHECK_MINPOINTS ≠ 0 ∧ pa.npoints < 3 then
      return none
    else if s.check &&& LW_PARSER_CHECK_ODD ≠ 0 ∧ pa.npoints % 2 = 0 then
      return none
    else
      return some (.circstring s.srid pa)

/-- The ring-reading loop of `lwpoly_from_wkb_state`
(lwin_wkb.cpp:525-555).  `lwpoly_add_ring` (outside `src/`) is
modelled from the spec as appending the ring; it cannot fail on the
non-NULL rings reaching it here. -/
def lwpoly_rings : Nat → List PtArray → ParserM (Option (List PtArray))
  | 0, acc => pure (some acc)
  | k + 1, acc => do
    let pa? ← ptarray_from_wkb_state
    match pa? with
    | none => return none
    | some pa => do
      let s ← getS
      if s.check &&& LW_PARSER_CHECK_MINPOINTS ≠ 0 ∧ pa.npoints < 4 then
        perr .minPoints
      else if s.check &&& LW_PARSER_CHECK_CLOSURE ≠ 0 ∧
          ¬ptarray_is_closed_2d pa then
        perr .closure
      else
        lwpoly_rings k (acc ++ [pa])

/-- `lwpoly_from_wkb_state` (lwin_wkb.cpp:514-557). -/
def lwpoly_from_wkb_state : ParserM (Option Geom) := do
  let nrings ← integer_from_wkb_state
  let s ← getS
  if s.error then return none
  if nrings = 0 then return some (.poly s.srid s.has_z s.has_m [])
  let rings? ← lwpoly_rings nrings []
  match rings? with
  | none => return none
  | some rings => return some (.poly s.srid s.has_z s.has_m rings)

/-- `lwtriangle_from_wkb_state` (lwin_wkb.cpp:567-604).  Note that the
`pa == NULL` branch returns an *empty triangle* without consulting
`s->error`. -/
def lwtriangle_from_wkb_state : ParserM (Option Geom) := do
  let nrings ← integer_from_wkb_state
  let s ← getS
  if s.error then return none
  if nrings = 0 then
    return some (.triangle s.srid (ptarray_construct s.has_z s.has_m))
  if nrings ≠ 1 then perr .triangleRings
  let pa? ← ptarray_from_wkb_state
  let s1 ← getS
  match pa? with
  | none => return some (.triangle s1.srid (ptarray_construct s1.has_z s1.has_m))
  | some pa =>
    if s1.check &&& LW_PARSER_CHECK_MINPOINTS ≠ 0 ∧ pa.npoints < 4 then
      perr .minPoints
    else if s1.check &&& LW_PARSER_CHECK_ZCLOSURE ≠ 0 ∧
        ¬ptarray_is_closed_z pa then
      perr .zclosure
    else
      return some (.triangle s1.srid pa)

/-- Ring kinds accepted by `lwcurvepoly_add_ring`.  Modelled from the
spec: a curve polygon's rings are "each a Line or CircularString or
CompoundCurve" (§3); attaching anything else fails. -/
def curvepolyRingOk (g : Geom) : Bool :=
  g.lwtype = .line || g.lwtype = .circstring || g.lwtype = .compound

/-- The ring loop of `lwcurvepoly_from_wkb_state` (lwin_wkb.cpp:621-629):
each ring is a full sub-geometry parsed by `recur`; a `NULL` or
ill-typed ring makes `lwcurvepoly_add_ring` fail, upon which the C
code raises `lwerror("Unable to add geometry ...")`. -/
def lwcurvepoly_rings (recur : ParserM (Option Geom)) :
    Nat → List Geom → ParserM (List Geom)
  | 0, acc => pure acc
  | k + 1, acc => do
    let geom? ← recur
    match geom? with
    | none => perr .addGeom
    | some g =>
      if curvepolyRingOk g then lwcurvepoly_rings recur k (acc ++ [g])
      else perr .addGeom

/-- `lwcurvepoly_from_wkb_state` (lwin_wkb.cpp:609-632).  It neither
increments nor checks the recursion-depth counter. -/
def lwcurvepoly_from_wkb_state (recur : ParserM (Option Geom)) :
    ParserM (Option Geom) := do
  let ngeoms ← integer_from_wkb_state
  let s ← getS
  if s.error then return none
  if ngeoms = 0 then return some (.curvepoly s.srid s.has_z s.has_m [])
  let rings ← lwcurvepoly_rings recur ngeoms []
  return some (.curvepoly s.srid s.has_z s.has_m rings)

/-- The child loop of `lwcollection_from_wkb_state`
(lwin_wkb.cpp:661-669).  `lwcollection_add_lwgeom` (outside `src/`) is
modelled from the spec: it appends the child and fails only on a
`NULL` child, upon which the C code raises
`lwerror("Unable to add geometry ...")`. -/
def lwcollection_geoms (recur : ParserM (Option Geom)) :
    Nat → List Geom → ParserM (List Geom)
  | 0, acc => pure acc
  | k + 1, acc => do
    let geom? ← recur
    match geom? with
    | none => perr .addGeom
    | some g => lwcollection_geoms recur k (acc ++ [g])

/-- `lwcollection_from_wkb_state` (lwin_wkb.cpp:639-673): forces the
Z-closure check for polyhedral surfaces, then increments the depth
counter and fails at `LW_PARSER_MAX_DEPTH` before reading children. -/
def lwcollection_from_wkb_state (recur : ParserM (Option Geom)) :
    ParserM (Option Geom) := do
  let ngeoms ← integer_from_wkb_state
  let s ← getS
  if s.error then return none
  let ctype := s.lwtype.getD .collection
  if ngeoms = 0 then return some (.collection ctype s.srid s.has_z s.has_m [])
  if s.lwtype = some .polyhedralsurface then
    modifyS fun st => { st with check := st.check ||| LW_PARSER_CHECK_ZCLOSURE }
  modifyS fun st => { st with depth := st.depth + 1 }
  let s1 ← getS
  if s1.depth ≥ LW_PARSER_MAX_DEPTH then perr .tooManyChained
  let geoms ← lwcollection_geoms recur ngeoms []
  modifyS fun st => { st with depth := st.depth - 1 }
  return some (.collection ctype s.srid s.has_z s.has_m geoms)

/-- The `switch (wkb_simple_type)` statement of `lwtype_from_wkb_state`
(lwin_wkb.cpp:138-195): store the geometry kind on the state, or fail
with the unknown-type error on an unmapped code. -/
def lwtype_switch (wkb_simple_type : Nat) : ParserM Unit :=
  if wkb_simple_type = WKB_POINT_TYPE then
    modifyS fun st => { st with lwtype := some .point }
  else if wkb_simple_type = WKB_LINESTRING_TYPE then
    modifyS fun st => { st with lwtype := some .line }
  else if wkb_simple_type = WKB_POLYGON_TYPE then
    modifyS fun st => { st with lwtype := some .polygon }
  else if wkb_simple_type = WKB_CIRCULARSTRING_TYPE then
    modifyS fun st => { st with lwtype := some .circstring }
  else if wkb_simple_type = WKB_MULTIPOINT_TYPE then
    modifyS fun st => { st with lwtype := some .multipoint }
  else if wkb_simple_type = WKB_MULTILINESTRING_TYPE then
    modifyS fun st => { st with lwtype := some .multiline }
  else if wkb_simple_type = WKB_MULTIPOLYGON_TYPE then
    modifyS fun st => { st with lwtype := some .multipolygon }
  else if wkb_simple_type = WKB_TRIANGLE_TYPE then
    modifyS fun st => { st with lwtype := some .triangle }
  else if wkb_simple_type = WKB_GEOMETRYCOLLECTION_TYPE then
    modifyS fun st => { st with lwtype := some .collection }
  else if wkb_simple_type = WKB_COMPOUNDCURVE_TYPE then
    modifyS fun st => { st with lwtype := some .compound }
  else if wkb_simple_type = WKB_CURVEPOLYGON_TYPE then
    modifyS fun st => { st with lwtype := some .curvepoly }
  else if wkb_simple_type = WKB_MULTICURVE_TYPE then
    modifyS fun st => { st with lwtype := some .multicurve }
  else if wkb_simple_type = WKB_MULTISURFACE_TYPE then
    modifyS fun st => { st with lwtype := some .multisurface }
  else if wkb_simple_type = WKB_POLYHEDRALSURFACE_TYPE then
    modifyS fun st => { st with lwtype := some .polyhedralsurface }
  else if wkb_simple_type = WKB_TIN_TYPE then
    modifyS fun st => { st with lwtype := some .tin }
  else if wkb_simple_type = WKB_CURVE_TYPE then
    modifyS fun st => { st with lwtype := some .curvepoly }
  else if wkb_simple_type = WKB_SURFACE_TYPE then
    modifyS fun st => { st with lwtype := some .multicurve }
  else perr .unknownType

/-- `lwtype_from_wkb_state` (lwin_wkb.cpp:99-198): normalize a raw WKB
type number into the geometry kind plus Z/M/SRID presence flags on the
state. -/
def lwtype_from_wkb_state (wkb_type : Nat) : ParserM Unit := do
  modifyS fun st =>
    { st with has_z := false, has_m := false, has_srid := false }
  if wkb_type &&& 0xF0000000 ≠ 0 then do
    if wkb_type &&& WKBZOFFSET ≠ 0 then
      modifyS fun st => { st with has_z := true }
    if wkb_type &&& WKBMOFFSET ≠ 0 then
      modifyS fun st => { st with has_m := true }
    if wkb_type &&& WKBSRIDFLAG ≠ 0 then
      modifyS fun st => { st with has_srid := true }
  let masked := wkb_type &&& 0x0FFFFFFF
  if masked ≥ 4000 then perr .unknownType
  else do
    let wkb_simple_type := masked % 1000
    if 3000 ≤ masked ∧ masked < 4000 then
      modifyS fun st => { st with has_z := true, has_m := true }
    else if 2000 ≤ masked ∧ masked < 3000 then
      modifyS fun st => { st with has_m := true }
    else if 1000 ≤ masked ∧ masked < 2000 then
      modifyS fun st => { st with has_z := true }
    lwtype_switch wkb_simple_type

/-- `lwgeom_from_wkb_state` (lwin_wkb.cpp:682-758).  The structural
recursion is on `fuel`, decremented exactly once per entry, so an
initial budget `F` admits call depths `1..F` and raises
`WkbErr.stackDepth` iff a call at depth `F + 1` would be entered.
The host machine is little-endian, so `swap_bytes` is set exactly when
the input declares big-endian (`IS_BIG_ENDIAN` branch pair,
lwin_wkb.cpp:698-703). -/
def lwgeom_from_wkb_state : Nat → ParserM (Option Geom)
  | 0 => perr .stackDepth
  | fuel + 1 => do
    let wkb_little_endian ← byte_from_wkb_state
    let s ← getS
    if s.error then return none
    if wkb_little_endian ≠ 1 ∧ wkb_little_endian ≠ 0 then perr .invalidEndian
    modifyS fun st => { st with swap_bytes := wkb_little_endian = 0 }
    let wkb_type ← integer_from_wkb_state
    let s1 ← getS
    if s1.error then return none
    lwtype_from_wkb_state wkb_type
    let s2 ← getS
    if s2.has_srid then do
      let sr ← integer_from_wkb_state
      modifyS fun st => { st with srid := clamp_srid (toInt32 sr) }
      let s3 ← getS
      if s3.error then return none
    let s4 ← getS
    match s4.lwtype with
    | some .point => lwpoint_from_wkb_state
    | some .line => lwline_from_wkb_state
    | some .polygon => lwpoly_from_wkb_state
    | some .circstring => lwcircstring_from_wkb_state
    | some .triangle => lwtriangle_from_wkb_state
    | some .curvepoly => lwcurvepoly_from_wkb_state (lwgeom_from_wkb_state fuel)
    | some .multipoint | some .multiline | some .multipolygon
    | some .compound | some .multicurve | some .multisurface
    | some .polyhedralsurface | some .tin | some .collection =>
      lwcollection_from_wkb_state (lwgeom_from_wkb_state fuel)
    | none => perr .unsupportedType

/-- The initial parse state built by `lwgeom_from_wkb`
(lwin_wkb.cpp:263-275). -/
def initState (check : Nat) : PState :=
  { srid := SRID_UNKNOWN, swap_bytes := false, check := check,
    lwtype := none, has_z := false, has_m := false, has_srid := false,
    error := false, depth := 1, offset := 0 }

/-- `lwgeom_from_wkb` (lwin_wkb.cpp:260-281): the public entry point.
`fuel` is the call-depth budget of the embedding. -/
def lwgeom_from_wkb (wkb : List Nat) (wkb_size : Nat) (check : Nat)
    (fuel : Nat) : Except WkbErr (Option Geom) :=
  if wkb_size = 0 then .ok none
  else
    match lwgeom_from_wkb_state fuel wkb wkb_size (initState check) with
    | .error e => .error e
    | .ok (g, _) => .ok g

/-! ## Geometry introspection (lwgeom.cpp) -/

mutual

/-- Modelled from the spec: `lwgeom_is_empty` lives outside `src/`; §3
says "an 'empty' geometry (zero vertices / zero children, recursively)
must answer `is_empty = true`" (`lwgeom_all_empty` is the recursion
over a child list). -/
def lwgeom_is_empty : Geom → Bool
  | .point _ pa => pa.npoints = 0
  | .line _ pa => pa.npoints = 0
  | .circstring _ pa => pa.npoints = 0
  | .triangle _ pa => pa.npoints = 0
  | .poly _ _ _ rings => rings.all fun r => r.npoints = 0
  | .curvepoly _ _ _ rings => lwgeom_all_empty rings
  | .collection _ _ _ _ gs => lwgeom_all_empty gs

/-- All geometries of the list are empty. -/
def lwgeom_all_empty : List Geom → Bool
  | [] => true
  | g :: gs => lwgeom_is_empty g && lwgeom_all_empty gs

end

/-- Modelled from the spec: `lwline_count_vertices` (outside `src/`)
returns the length of the single point array (§4.4, "simple structural
recursion"). -/
def lwline_count_vertices (pa : PtArray) : Nat := pa.npoints

/-- Modelled from the spec: `lwpoly_count_vertices` (outside `src/`)
sums the ring lengths. -/
def lwpoly_count_vertices (rings : List PtArray) : Nat :=
  (rings.map PtArray.npoints).sum

mutual

/-- `lwgeom_count_vertices` (lwgeom.cpp:212-251): zero for empty
geometries, otherwise a type dispatch; the collection case
(`lwcollection_count_vertices`, outside `src/`, modelled from the
spec) sums over children. -/
def lwgeom_count_vertices (g : Geom) : Nat :=
  if lwgeom_is_empty g then 0
  else match g with
    | .point _ _ => 1
    | .triangle _ pa => lwline_count_vertices pa
    | .circstring _ pa => lwline_count_vertices pa
    | .line _ pa => lwline_count_vertices pa
    | .poly _ _ _ rings => lwpoly_count_vertices rings
    | .curvepoly _ _ _ gs => lwcollection_count_vertices gs
    | .collection _ _ _ _ gs => lwcollection_count_vertices gs

/-- Sum of the vertex counts of the children. -/
def lwcollection_count_vertices : List Geom → Nat
  | [] => 0
  | g :: gs => lwgeom_count_vertices g + lwcollection_count_vertices gs

end

/-- `lwgeom_needs_bbox` (lwgeom.cpp:194-206). -/
def lwgeom_needs_bbox (g : Geom) : Bool :=
  if g.lwtype = .point then false
  else if g.lwtype = .line then
    if lwgeom_count_vertices g ≤ 2 then false else true
  else true

/-! ## Distance entry point (lwgeom_functions_basic.cpp) -/

/-- `DIST_MIN` (measures.hpp:9). -/
def DIST_MIN : Int := 1

/-- `DIST_MAX` (measures.hpp:8). -/
def DIST_MAX : Int := -1

/-- The `DISTPTS` accumulator (measures.hpp:14-23), with the distance
carried as a rational (the claims under study depend only on the
sentinel mechanism, not on floating-point rounding). -/
structure DISTPTS where
  distance : ℚ
  mode : Int
  twisted : Int
  tolerance : ℚ

/-- `FLT_MAX` (the sentinel `ST_distance` compares against), exactly
`(2 - 2^-23) * 2^127`. -/
def FLT_MAX : ℚ := (2 : ℚ) ^ 128 - (2 : ℚ) ^ 104

/-- Modelled from the spec: `lwgeom_mindistance2d` lives outside
`src/`.  Per §4.2/§6/§7 it seeds the accumulator with the sentinel
(`FLT_MAX`, "undefined — no comparison yet"), leaves it untouched when
either operand is empty ("no distance defined ... without modifying
the accumulator"), and otherwise stores the minimum distance computed
by the dispatch engine.  The engine itself (a pure numeric
computation) is abstracted as the parameter `engine`. -/
def lwgeom_mindistance2d (engine : Geom → Geom → ℚ) (g1 g2 : Geom) : ℚ :=
  let dl : DISTPTS :=
    { distance := FLT_MAX, mode := DIST_MIN, twisted := -1, tolerance := 0 }
  if lwgeom_is_empty g1 || lwgeom_is_empty g2 then dl.distance
  else engine g1 g2

/-- `ST_distance` (lwgeom_functions_basic.cpp:179-196): SRID mismatch
is a fatal error (`gserialized_error_if_srid_mismatch`, outside
`src/`, modelled from §7: "mismatched spatial reference identifiers
... must be checked by every binary measurement entry point");
otherwise, a mindistance below `FLT_MAX` is returned and an untouched
sentinel becomes SQL NULL (`PG_ERROR_NULL`). -/
def ST_distance (engine : Geom → Geom → ℚ) (g1 g2 : Geom) :
    Except Unit (Option ℚ) :=
  if g1.srid ≠ g2.srid then .error ()
  else
    let mindist := lwgeom_mindistance2d engine g1 g2
    if mindist < FLT_MAX then .ok (some mindist)
    else .ok none

/-! ## A WKB encoder (specification side)

The repository only consumes WKB.  To state relational claims about
"the same logical geometry encoded in two byte orders" an encoder is
required; the following definitions transcribe the spec's wire format
(§6) and are used only on the specification side of those theorems.
`le = true` emits little-endian fields, `le = false` big-endian. -/

/-- A 4-byte field in the chosen byte order. -/
def enc32 (le : Bool) (n : Nat) : List Nat :=
  if le then natBytesLE 4 n else (natBytesLE 4 n).reverse

/-- An 8-byte field in the chosen byte order. -/
def enc64 (le : Bool) (n : Nat) : List Nat :=
  if le then natBytesLE 8 n else (natBytesLE 8 n).reverse

/-- The canonical WKB code of each geometry kind (spec §4.1). -/
def lwtypeWkbCode : LWType → Nat
  | .point => WKB_POINT_TYPE
  | .line => WKB_LINESTRING_TYPE
  | .polygon => WKB_POLYGON_TYPE
  | .multipoint => WKB_MULTIPOINT_TYPE
  | .multiline => WKB_MULTILINESTRING_TYPE
  | .multipolygon => WKB_MULTIPOLYGON_TYPE
  | .collection => WKB_GEOMETRYCOLLECTION_TYPE
  | .circstring => WKB_CIRCULARSTRING_TYPE
  | .compound => WKB_COMPOUNDCURVE_TYPE
  | .curvepoly => WKB_CURVEPOLYGON_TYPE
  | .multicurve => WKB_MULTICURVE_TYPE
  | .multisurface => WKB_MULTISURFACE_TYPE
  | .polyhedralsurface => WKB_POLYHEDRALSURFACE_TYPE
  | .tin => WKB_TIN_TYPE
  | .triangle => WKB_TRIANGLE_TYPE

/-- Extended-WKB geometry header: endian byte, flagged type word, and
an SRID word when the geometry carries one (spec §6). -/
def encHeader (le : Bool) (code : Nat) (z m : Bool) (srid : Int) :
    List Nat :=
  [if le then 1 else 0] ++
    enc32 le (code + (if z then WKBZOFFSET else 0) +
      (if m then WKBMOFFSET else 0) +
      (if srid ≠ SRID_UNKNOWN then WKBSRIDFLAG else 0)) ++
    (if srid ≠ SRID_UNKNOWN then enc32 le (srid % 2 ^ 32).toNat else [])

/-- The quiet-NaN bit pattern used for empty-point tuples (spec §8:
the canonical empty-point byte pattern is an all-NaN X/Y tuple). -/
def nanPattern : Nat := 0x7FF8000000000000

/-- Coordinate tuples flattened to bytes. -/
def encTuples (le : Bool) (pts : List (List Nat)) : List Nat :=
  (pts.map fun t => (t.map (enc64 le)).flatten).flatten

/-- Point-array payload: point count, then the coordinate doubles. -/
def encPtArrayBody (le : Bool) (pa : PtArray) : List Nat :=
  enc32 le pa.npoints ++ encTuples le pa.pts

mutual

/-- WKB encoding of a geometry (spec §6).  An empty point is encoded
as its canonical all-NaN tuple; an empty triangle as zero rings. -/
def encGeom (le : Bool) : Geom → List Nat
  | .point srid pa =>
    encHeader le WKB_POINT_TYPE pa.hasZ pa.hasM srid ++
      (if pa.npoints = 0 then
        ((List.replicate pa.ndims nanPattern).map (enc64 le)).flatten
      else ((pa.pts.headD []).map (enc64 le)).flatten)
  | .line srid pa =>
    encHeader le WKB_LINESTRING_TYPE pa.hasZ pa.hasM srid ++
      encPtArrayBody le pa
  | .circstring srid pa =>
    encHeader le WKB_CIRCULARSTRING_TYPE pa.hasZ pa.hasM srid ++
      encPtArrayBody le pa
  | .triangle srid pa =>
    encHeader le WKB_TRIANGLE_TYPE pa.hasZ pa.hasM srid ++
      (if pa.npoints = 0 then enc32 le 0
      else enc32 le 1 ++ encPtArrayBody le pa)
  | .poly srid z m rings =>
    encHeader le WKB_POLYGON_TYPE z m srid ++ enc32 le rings.length ++
      (rings.map fun r => encPtArrayBody le r).flatten
  | .curvepoly srid z m rings =>
    encHeader le WKB_CURVEPOLYGON_TYPE z m srid ++
      enc32 le rings.length ++ encGeomList le rings
  | .collection t srid z m gs =>
    encHeader le (lwtypeWkbCode t) z m srid ++ enc32 le gs.length ++
      encGeomList le gs

/-- Concatenated encodings of a child list. -/
def encGeomList (le : Bool) : List Geom → List Nat
  | [] => []
  | g :: gs => encGeom le g ++ encGeomList le gs

end

/-- Geometry kinds routed to `lwcollection_from_wkb_state`. -/
def isCollectionType : LWType → Bool
  | .multipoint => true
  | .multiline => true
  | .multipolygon => true
  | .compound => true
  | .multicurve => true
  | .multisurface => true
  | .polyhedralsurface => true
  | .tin => true
  | .collection => true
  | _ => false

/-- Dimensionality determined by a Z/M flag pair. -/
def ndimsZM (z m : Bool) : Nat :=
  2 + (if z then 1 else 0) + (if m then 1 else 0)

/-! ## Pure characterizations (specification side)

`lwtype_from_wkb_state` only transforms the parse state; the following
pure functions give its graph and are related to it by the theorem
`lwtype_from_wkb_state_eq` below. -/

/-- The enumeration table of §4.1: low-3-digit code to geometry kind. -/
def lwtypeTable (c : Nat) : Option LWType :=
  if c = WKB_POINT_TYPE then some .point
  else if c = WKB_LINESTRING_TYPE then some .line
  else if c = WKB_POLYGON_TYPE then some .polygon
  else if c = WKB_CIRCULARSTRING_TYPE then some .circstring
  else if c = WKB_MULTIPOINT_TYPE then some .multipoint
  else if c = WKB_MULTILINESTRING_TYPE then some .multiline
  else if c = WKB_MULTIPOLYGON_TYPE then some .multipolygon
  else if c = WKB_TRIANGLE_TYPE then some .triangle
  else if c = WKB_GEOMETRYCOLLECTION_TYPE then some .collection
  else if c = WKB_COMPOUNDCURVE_TYPE then some .compound
  else if c = WKB_CURVEPOLYGON_TYPE then some .curvepoly
  else if c = WKB_MULTICURVE_TYPE then some .multicurve
  else if c = WKB_MULTISURFACE_TYPE then some .multisurface
  else if c = WKB_POLYHEDRALSURFACE_TYPE then some .polyhedralsurface
  else if c = WKB_TIN_TYPE then some .tin
  else if c = WKB_CURVE_TYPE then some .curvepoly
  else if c = WKB_SURFACE_TYPE then some .multicurve
  else none

/-- The Z/M/SRID flags `lwtype_from_wkb_state` leaves on the state:
extended-flag bits, or the legacy ISO numeric ranges. -/
def flagZMS (t : Nat) (s : PState) : PState :=
  { s with
    has_z :=
      decide (t &&& 0xF0000000 ≠ 0 ∧ t &&& WKBZOFFSET ≠ 0) ||
      decide (3000 ≤ t &&& 0x0FFFFFFF ∧ t &&& 0x0FFFFFFF < 4000) ||
      decide (1000 ≤ t &&& 0x0FFFFFFF ∧ t &&& 0x0FFFFFFF < 2000)
    has_m :=
      decide (t &&& 0xF0000000 ≠ 0 ∧ t &&& WKBMOFFSET ≠ 0) ||
      decide (3000 ≤ t &&& 0x0FFFFFFF ∧ t &&& 0x0FFFFFFF < 4000) ||
      decide (2000 ≤ t &&& 0x0FFFFFFF ∧ t &&& 0x0FFFFFFF < 3000)
    has_srid := decide (t &&& 0xF0000000 ≠ 0 ∧ t &&& WKBSRIDFLAG ≠ 0) }

/-! ## Synthetic nesting families (depth-limit claims) -/

/-- `n+1` levels of nested single-child GeometryCollections in
little-endian WKB: each level is endian byte `1`, type word `7`, child
count `1`, and the innermost level has child count `0`. -/
def nestWkb : Nat → List Nat
  | 0 => [1, 7, 0, 0, 0, 0, 0, 0, 0]
  | n + 1 => [1, 7, 0, 0, 0, 1, 0, 0, 0] ++ nestWkb n

/-- The geometry tree `nestWkb n` decodes to (parametrized by the
ambient SRID of the parse state). -/
def nestGeom : Nat → Int → Geom
  | 0, sr => .collection .collection sr false false []
  | n + 1, sr => .collection .collection sr false false [nestGeom n sr]

/-- `n+1` levels of nested single-ring CurvePolygons in little-endian
WKB: each level is endian byte `1`, type word `10`, ring count `1`,
and the innermost level has ring count `0`. -/
def cpNestWkb : Nat → List Nat
  | 0 => [1, 10, 0, 0, 0, 0, 0, 0, 0]
  | n + 1 => [1, 10, 0, 0, 0, 1, 0, 0, 0] ++ cpNestWkb n

/-- The wire body of a 2-D point array: point count then back-to-back
X/Y doubles, all little-endian. -/
def ptsBody (pts : List (List Nat)) : List Nat :=
  enc32 true pts.length ++ (pts.flatten.map (enc64 true)).flatten

/-- A little-endian WKB LineString over the given 2-D points. -/
def lineWkb (pts : List (List Nat)) : List Nat :=
  1 :: (enc32 true 2 ++ ptsBody pts)

/-- A little-endian WKB CircularString over the given 2-D points. -/
def circWkb (pts : List (List Nat)) : List Nat :=
  1 :: (enc32 true 8 ++ ptsBody pts)

/-- A little-endian WKB Polygon over the given rings of 2-D points. -/
def polyWkb (rings : List (List (List Nat))) : List Nat :=
  1 :: (enc32 true 3 ++
    (enc32 true rings.length ++ (rings.map ptsBody).flatten))

/-! ## Read-span infrastructure

The two bounds-safety claims quantify over all truncations of a
buffer.  `RSpan op` captures the way every decoder operation accesses
memory: a successful run only reads the bytes between its incoming and
outgoing cursor, transfers verbatim to any buffer agreeing on that
span under any size bound covering it, and turns into the fatal
"structure does not match expected size" error whenever the size bound
is cut strictly below its outgoing cursor. -/

/-- Buffers `w` and `w'` agree on all indices in `[lo, hi)`. -/
def Agree (w w' : List Nat) (lo hi : Nat) : Prop :=
  ∀ i, lo ≤ i → i < hi → w.get? i = w'.get? i

/-- See the section comment. -/
def RSpan {α : Type} (op : ParserM α) : Prop :=
  ∀ w N s v s', op w N s = .ok (v, s') → s.error = false →
    s.offset ≤ s'.offset ∧
    (∀ w' K, Agree w w' s.offset s'.offset → s'.offset ≤ K →
      op w' K s = .ok (v, s')) ∧
    (∀ w' k, Agree w w' s.offset k → s.offset ≤ k → k < s'.offset →
      op w' k s = .error .expectedSize)

/-- `op` neither reads the buffer nor consults the declared size: its
result is the same on every buffer and bound, and a successful run
keeps the cursor and the error flag unchanged. -/
def StateOnly {α : Type} (op : ParserM α) : Prop :=
  (∀ w N w' K s, op w N s = op w' K s) ∧
  (∀ w N s v s', op w N s = .ok (v, s') →
    s'.offset = s.offset ∧ s'.error = s.error)

/-! ## Continuation views of the decoder functions

Each `*_tail` definition restates the continuation of a decoder
function after one of its sub-reads, so that the read-span proofs can
compose along `>>=` boundaries.  Each is definitionally equal to the
corresponding suffix of the original function (checked by `rfl`
equations below). -/

def lwline_tail (pa? : Option PtArray) : ParserM (Option Geom) := do
  let s ← getS
  if s.error then return none
  match pa? with
  | none => return some (.line s.srid (ptarray_construct s.has_z s.has_m))
  | some pa =>
    if pa.npoints = 0 then
      return some (.line s.srid (ptarray_construct s.has_z s.has_m))
    else if s.check &&& LW_PARSER_CHECK_MINPOINTS ≠ 0 ∧ pa.npoints < 2 then
      perr .minPoints
    else
      return some (.line s.srid pa)

def lwcirc_tail (pa? : Option PtArray) : ParserM (Option Geom) := do
  let s ← getS
  if s.error then return none
  match pa? with
  | none => return some (.circstring s.srid (ptarray_construct s.has_z s.has_m))
  | some pa =>
    if pa.npoints = 0 then
      return some (.circstring s.srid (ptarray_construct s.has_z s.has_m))
    else if s.check &&& LW_PARSER_CHECK_MINPOINTS ≠ 0 ∧ pa.npoints < 3 then
      return none
    else if s.check &&& LW_PARSER_CHECK_ODD ≠ 0 ∧ pa.npoints % 2 = 0 then
      return none
    else
      return some (.circstring s.srid pa)

def lwpoly_fin (s : PState) (rings? : Option (List PtArray)) :
    ParserM (Option Geom) :=
  match rings? with
  | none => return none
  | some rings => return some (.poly s.srid s.has_z s.has_m rings)

def lwpoly_tail (nrings : Nat) : ParserM (Option Geom) := do
  let s ← getS
  if s.error then return none
  if nrings = 0 then return some (.poly s.srid s.has_z s.has_m [])
  let rings? ← lwpoly_rings nrings []
  lwpoly_fin s rings?

def lwpoly_rings_tail (n : Nat) (acc : List PtArray)
    (pa? : Option PtArray) : ParserM (Option (List PtArray)) :=
  match pa? with
  | none => return none
  | some pa => do
    let s ← getS
    if s.check &&& LW_PARSER_CHECK_MINPOINTS ≠ 0 ∧ pa.npoints < 4 then
      perr .minPoints
    else if s.check &&& LW_PARSER_CHECK_CLOSURE ≠ 0 ∧
        ¬ptarray_is_closed_2d pa then
      perr .closure
    else
      lwpoly_rings n (acc ++ [pa])

def tri_tail2 (pa? : Option PtArray) : ParserM (Option Geom) := do
  let s1 ← getS
  match pa? with
  | none => return some (.triangle s1.srid (ptarray_construct s1.has_z s1.has_m))
  | some pa =>
    if s1.check &&& LW_PARSER_CHECK_MINPOINTS ≠ 0 ∧ pa.npoints < 4 then
      perr .minPoints
    else if s1.check &&& LW_PARSER_CHECK_ZCLOSURE ≠ 0 ∧
        ¬ptarray_is_closed_z pa then
      perr .zclosure
    else
      return some (.triangle s1.srid pa)

def tri_tail (nrings : Nat) : ParserM (Option Geom) := do
  let s ← getS
  if s.error then return none
  if nrings = 0 then
    return some (.triangle s.srid (ptarray_construct s.has_z s.has_m))
  if nrings ≠ 1 then perr .triangleRings
  let pa? ← ptarray_from_wkb_state
  tri_tail2 pa?

def coll_geoms_tail (recur : ParserM (Option Geom)) (k : Nat)
    (acc : List Geom) (geom? : Option Geom) : ParserM (List Geom) :=
  match geom? with
  | none => perr .addGeom
  | some g => lwcollection_geoms recur k (acc ++ [g])

def cp_rings_tail (recur : ParserM (Option Geom)) (k : Nat)
    (acc : List Geom) (geom? : Option Geom) : ParserM (List Geom) :=
  match geom? with
  | none => perr .addGeom
  | some g =>
    if curvepolyRingOk g then lwcurvepoly_rings recur k (acc ++ [g])
    else perr .addGeom

def coll_tail (recur : ParserM (Option Geom)) (ngeoms : Nat) :
    ParserM (Option Geom) := do
  let s ← getS
  if s.error then return none
  let ctype := s.lwtype.getD .collection
  if ngeoms = 0 then return some (.collection ctype s.srid s.has_z s.has_m [])
  if s.lwtype = some .polyhedralsurface then
    modifyS fun st => { st with check := st.check ||| LW_PARSER_CHECK_ZCLOSURE }
  modifyS fun st => { st with depth := st.depth + 1 }
  let s1 ← getS
  if s1.depth ≥ LW_PARSER_MAX_DEPTH then perr .tooManyChained
  let geoms ← lwcollection_geoms recur ngeoms []
  modifyS fun st => { st with depth := st.depth - 1 }
  return some (.collection ctype s.srid s.has_z s.has_m geoms)

def cp_tail (recur : ParserM (Option Geom)) (ngeoms : Nat) :
    ParserM (Option Geom) := do
  let s ← getS
  if s.error then return none
  if ngeoms = 0 then return some (.curvepoly s.srid s.has_z s.has_m [])
  let rings ← lwcurvepoly_rings recur ngeoms []
  return some (.curvepoly s.srid s.has_z s.has_m rings)

def geom_dispatch (recur : ParserM (Option Geom)) : ParserM (Option Geom) := do
  let s4 ← getS
  match s4.lwtype with
  | some .point => lwpoint_from_wkb_state
  | some .line => lwline_from_wkb_state
  | some .polygon => lwpoly_from_wkb_state
  | some .circstring => lwcircstring_from_wkb_state
  | some .triangle => lwtriangle_from_wkb_state
  | some .curvepoly => lwcurvepoly_from_wkb_state recur
  | some .multipoint | some .multiline | some .multipolygon
  | some .compound | some .multicurve | some .multisurface
  | some .polyhedralsurface | some .tin | some .collection =>
    lwcollection_from_wkb_state recur
  | none => perr .unsupportedType

def geom_tail4 (recur : ParserM (Option Geom)) : ParserM (Option Geom) := do
  let s2 ← getS
  if s2.has_srid then do
    let sr ← integer_from_wkb_state
    modifyS fun st => { st with srid := clamp_srid (toInt32 sr) }
    let s3 ← getS
    if s3.error then return none
  geom_dispatch recur

def geom_tail3 (recur : ParserM (Option Geom)) (wkb_type : Nat) :
    ParserM (Option Geom) := do
  let s1 ← getS
  if s1.error then return none
  lwtype_from_wkb_state wkb_type
  geom_tail4 recur

def geom_tail (recur : ParserM (Option Geom)) (wkb_little_endian : Nat) :
    ParserM (Option Geom) := do
  let s ← getS
  if s.error then return none
  if wkb_little_endian ≠ 1 ∧ wkb_little_endian ≠ 0 then perr .invalidEndian
  modifyS fun st => { st with swap_bytes := wkb_little_endian = 0 }
  let wkb_type ← integer_from_wkb_state
  geom_tail3 recur wkb_type

def geom_body (recur : ParserM (Option Geom)) : ParserM (Option Geom) := do
  let wkb_little_endian ← byte_from_wkb_state
  geom_tail recur wkb_little_endian

/-- A concrete valid 21-byte little-endian `POINT(0 0)` WKB buffer. -/
def wkbPoint21 : List Nat := [1, 1, 0, 0, 0] ++ List.replicate 16 0

/-- The geometry `wkbPoint21` decodes to. -/
def wkbPoint21Geom : Geom := .point 0 ⟨false, false, [[0, 0]]⟩

/-- The parser state after decoding `wkbPoint21`. -/
def wkbPoint21End : PState :=
  { srid := 0, swap_bytes := false, check := 0, lwtype := some .point,
    has_z := false, has_m := false, has_srid := false, error := false,
    depth := 1, offset := 21 }

/-- `wkbPoint21` followed by three junk trailing bytes. -/
def wkbPoint21Junk : List Nat := wkbPoint21 ++ [171, 205, 7]

/-- The SRID stored at a geometry's own node. -/
def gSrid : Geom → Int
  | .point sr _ => sr
  | .line sr _ => sr
  | .circstring sr _ => sr
  | .triangle sr _ => sr
  | .poly sr _ _ _ => sr
  | .curvepoly sr _ _ _ => sr
  | .collection _ sr _ _ _ => sr

mutual

/-- The SRID held by the parse state after decoding a geometry: its
own node SRID, then updated in turn by each decoded child. -/
def gFinSrid : Geom → Int
  | .point sr _ => sr
  | .line sr _ => sr
  | .circstring sr _ => sr
  | .triangle sr _ => sr
  | .poly sr _ _ _ => sr
  | .curvepoly sr _ _ rings => gListFinSrid sr rings
  | .collection _ sr _ _ gs => gListFinSrid sr gs

/-- Left fold of `gFinSrid` over a sibling list, starting from the
state SRID before the first sibling. -/
def gListFinSrid (cur : Int) : List Geom → Int
  | [] => cur
  | g :: gs => gListFinSrid (gFinSrid g) gs

end

mutual

/-- Total node count of a geometry tree (termination measure for the
encode/decode induction). -/
def gSize : Geom → Nat
  | .point _ _ => 1
  | .line _ _ => 1
  | .circstring _ _ => 1
  | .triangle _ _ => 1
  | .poly _ _ _ _ => 1
  | .curvepoly _ _ _ rings => 1 + gListSize rings
  | .collection _ _ _ _ gs => 1 + gListSize gs

def gListSize : List Geom → Nat
  | [] => 0
  | g :: gs => gSize g + gListSize gs

end

mutual

/-- Levels of sub-geometry recursion: the call budget a decode needs. -/
def gHeight : Geom → Nat
  | .point _ _ => 1
  | .line _ _ => 1
  | .circstring _ _ => 1
  | .triangle _ _ => 1
  | .poly _ _ _ _ => 1
  | .curvepoly _ _ _ rings => 1 + gListHeight rings
  | .collection _ _ _ _ gs => 1 + gListHeight gs

def gListHeight : List Geom → Nat
  | [] => 0
  | g :: gs => max (gHeight g) (gListHeight gs)

end

mutual

/-- Nested collection-class levels: only `lwcollection_from_wkb_state`
touches the parser's depth counter, so only collection nodes count. -/
def cDepth : Geom → Nat
  | .point _ _ => 0
  | .line _ _ => 0
  | .circstring _ _ => 0
  | .triangle _ _ => 0
  | .poly _ _ _ _ => 0
  | .curvepoly _ _ _ rings => cListDepth rings
  | .collection _ _ _ _ gs => 1 + cListDepth gs

def cListDepth : List Geom → Nat
  | [] => 0
  | g :: gs => max (cDepth g) (cListDepth gs)

end

/-- 2-D point-array payload constraints: every tuple is exactly an X
and a Y double pattern, each fitting 64 bits. -/
def WFPts (pts : List (List Nat)) : Prop :=
  (∀ p ∈ pts, p.length = 2) ∧ (∀ p ∈ pts, ∀ c ∈ p, c < 2 ^ 64)

/-- The SRID survives the wire roundtrip: clamping its decoded 32-bit
transport gives it back. -/
def sridRT (sr : Int) : Prop :=
  clamp_srid (toInt32 ((sr % 2 ^ 32).toNat % 2 ^ 32)) = sr

/-- SRID discipline relative to the SRID currently in the parse state:
an `SRID_UNKNOWN` node writes no SRID field and inherits the state's
value, so roundtripping needs that value to be `SRID_UNKNOWN` too; any
other node writes its own field and must survive the clamp. -/
def sridWF (cur sr : Int) : Prop :=
  (sr = SRID_UNKNOWN ∧ cur = SRID_UNKNOWN) ∨ (sr ≠ SRID_UNKNOWN ∧ sridRT sr)

mutual

/-- Geometries whose extended-WKB encoding decodes back to the same
object, relative to the SRID `cur` held by the parse state on entry:
2-D coordinates within the parser's count bounds, SRIDs obeying
`sridWF` along the tree (sibling lists thread the state SRID left to
right), curve-polygon rings of the kinds `lwcurvepoly_add_ring`
accepts, and collection kinds routed to the collection reader —
polyhedral surfaces excluded, as they mutate the check flags. -/
def WFGeom (cur : Int) : Geom → Prop
  | .point sr pa => sridWF cur sr ∧ pa.hasZ = false ∧ pa.hasM = false ∧
      (pa.pts = [] ∨ ∃ x y, pa.pts = [[x, y]] ∧ x < 2 ^ 64 ∧ y < 2 ^ 64 ∧
        ¬(isNaN64 x = true ∧ isNaN64 y = true))
  | .line sr pa => sridWF cur sr ∧ pa.hasZ = false ∧ pa.hasM = false ∧
      WFPts pa.pts ∧ pa.pts.length ≤ maxpoints
  | .circstring sr pa => sridWF cur sr ∧ pa.hasZ = false ∧ pa.hasM = false ∧
      WFPts pa.pts ∧ pa.pts.length ≤ maxpoints
  | .triangle sr pa => sridWF cur sr ∧ pa.hasZ = false ∧ pa.hasM = false ∧
      WFPts pa.pts ∧ pa.pts.length ≤ maxpoints
  | .poly sr z m rings => sridWF cur sr ∧ z = false ∧ m = false ∧
      rings.length < 2 ^ 32 ∧
      ∀ r ∈ rings, r.hasZ = false ∧ r.hasM = false ∧ WFPts r.pts ∧
        r.pts.length ≤ maxpoints
  | .curvepoly sr z m rings => sridWF cur sr ∧ rings.length < 2 ^ 32 ∧
      (∀ r ∈ rings, curvepolyRingOk r = true) ∧ WFGeomList sr rings
  | .collection t sr z m gs => sridWF cur sr ∧ gs.length < 2 ^ 32 ∧
      isCollectionType t = true ∧ t ≠ .polyhedralsurface ∧ WFGeomList sr gs

def WFGeomList (cur : Int) : List Geom → Prop
  | [] => True
  | g :: gs => WFGeom cur g ∧ WFGeomList (gFinSrid g) gs

end

/-- A concrete mixed geometry for the endianness witness: a
GeometryCollection with SRID 4326 containing a point and a two-point
line. -/
def c4geom : Geom :=
  .collection .collection 4326 false false
    [.point 4326 ⟨false, false, [[0, 0]]⟩,
     .line 4326 ⟨false, false, [[1, 2], [3, 4]]⟩]

/-! # Theorems -/

/-! ## Monad computation lemmas -/

theorem ParserM.bind_apply {α β : Type} (m : ParserM α) (f : α → ParserM β)
    (w : List Nat) (n : Nat) (s : PState) :
    (m >>= f) w n s =
      match m w n s with
      | .error e => .error e
      | .ok (a, s') => f a w n s' := rfl

theorem ParserM.pure_apply {α : Type} (a : α) (w : List Nat) (n : Nat)
    (s : PState) : (pure a : ParserM α) w n s = .ok (a, s) := rfl

theorem getS_apply (w : List Nat) (n : Nat) (s : PState) :
    getS w n s = .ok (s, s) := rfl

theorem setS_apply (t : PState) (w : List Nat) (n : Nat) (s : PState) :
    setS t w n s = .ok ((), t) := rfl

theorem modifyS_apply (f : PState → PState) (w : List Nat) (n : Nat)
    (s : PState) : modifyS f w n s = .ok ((), f s) := rfl

theorem getWkbSize_apply (w : List Nat) (n : Nat) (s : PState) :
    getWkbSize w n s = .ok (n, s) := rfl

theorem perr_apply {α : Type} (e : WkbErr) (w : List Nat) (n : Nat)
    (s : PState) : (perr e : ParserM α) w n s = .error e := rfl

theorem derefByte_apply (i : Nat) (w : List Nat) (n : Nat) (s : PState) :
    derefByte i w n s =
      match w.get? i with
      | some b => .ok (b, s)
      | none => .error .ub := rfl

/-! ## Byte-arithmetic lemmas -/

theorem bytesLE_natBytesLE (k n : Nat) :
    bytesLE (natBytesLE k n) = n % 256 ^ k := by
  induction k generalizing n with
  | zero => simp [natBytesLE, bytesLE, Nat.mod_one]
  | succ k ih =>
    simp only [natBytesLE, bytesLE, ih]
    rw [pow_succ, Nat.mul_comm (256 ^ k) 256, Nat.mod_mul]

theorem natBytesLE_length (k n : Nat) : (natBytesLE k n).length = k := by
  induction k generalizing n with
  | zero => rfl
  | succ k ih => simp [natBytesLE, ih]

theorem natBytesLE_lt (k n : Nat) : ∀ b ∈ natBytesLE k n, b < 256 := by
  induction k generalizing n with
  | zero => simp [natBytesLE]
  | succ k ih =>
    intro b hb
    simp only [natBytesLE, List.mem_cons] at hb
    rcases hb with h | h
    · exact h ▸ Nat.mod_lt _ (by norm_num)
    · exact ih _ _ h

theorem natBytesLE_bytesLE (l : List Nat) (h : ∀ b ∈ l, b < 256) :
    natBytesLE l.length (bytesLE l) = l := by
  induction l with
  | nil => rfl
  | cons b bs ih =>
    have hb : b < 256 := h b (List.mem_cons_self _ _)
    simp only [List.length_cons, natBytesLE, bytesLE]
    have h1 : (b + 256 * bytesLE bs) % 256 = b := by
      rw [Nat.add_mul_mod_self_left, Nat.mod_eq_of_lt hb]
    have h2 : (b + 256 * bytesLE bs) / 256 = bytesLE bs := by
      rw [Nat.add_mul_div_left _ _ (by norm_num : 0 < 256),
        Nat.div_eq_of_lt hb, Nat.zero_add]
    rw [h1, h2, ih fun x hx => h x (List.mem_cons_of_mem _ hx)]

theorem swap32_reverse (n : Nat) :
    swap32 (bytesLE (natBytesLE 4 n).reverse) = n % 2 ^ 32 := by
  have hlen : (natBytesLE 4 n).reverse.length = 4 := by
    simp [natBytesLE_length]
  have hlt : ∀ b ∈ (natBytesLE 4 n).reverse, b < 256 := by
    intro b hb
    exact natBytesLE_lt 4 n b (List.mem_reverse.1 hb)
  have h := natBytesLE_bytesLE (natBytesLE 4 n).reverse hlt
  rw [hlen] at h
  rw [swap32, h, List.reverse_reverse, bytesLE_natBytesLE]
  norm_num

theorem swap64_reverse (n : Nat) :
    swap64 (bytesLE (natBytesLE 8 n).reverse) = n % 2 ^ 64 := by
  have hlen : (natBytesLE 8 n).reverse.length = 8 := by
    simp [natBytesLE_length]
  have hlt : ∀ b ∈ (natBytesLE 8 n).reverse, b < 256 := by
    intro b hb
    exact natBytesLE_lt 8 n b (List.mem_reverse.1 hb)
  have h := natBytesLE_bytesLE (natBytesLE 8 n).reverse hlt
  rw [hlen] at h
  rw [swap64, h, List.reverse_reverse, bytesLE_natBytesLE]
  norm_num

/-! ## List-cursor lemmas -/

theorem drop_cons_get (w : List Nat) (i : Nat) (b : Nat) (t : List Nat)
    (h : w.drop i = b :: t) : w[i]? = some b := by
  have h0 : (w.drop i)[0]? = w[i + 0]? := List.getElem?_drop w i 0
  rw [h] at h0
  simpa using h0.symm

theorem drop_cons_drop (w : List Nat) (i : Nat) (b : Nat) (t : List Nat)
    (h : w.drop i = b :: t) : w.drop (i + 1) = t := by
  have hdd : List.drop 1 (List.drop i w) = List.drop (i + 1) w :=
    List.drop_drop 1 i w
  rw [h] at hdd
  simpa using hdd.symm

theorem drop_app_bound (w l rest : List Nat) (i : Nat)
    (h : w.drop i = l ++ rest) (hl : l ≠ []) : i + l.length ≤ w.length := by
  have hlen : w.length - i = l.length + rest.length := by
    have := congrArg List.length h
    simpa using this
  have hpos : 0 < l.length := List.length_pos.2 hl
  omega

theorem drop_app_drop (w l rest : List Nat) (i : Nat)
    (h : w.drop i = l ++ rest) : w.drop (i + l.length) = rest := by
  induction l generalizing i with
  | nil => simpa using h
  | cons b bs ih =>
    have h1 : w.drop i = b :: (bs ++ rest) := by simpa using h
    have h2 := drop_cons_drop w i b (bs ++ rest) h1
    have := ih (i + 1) h2
    simpa [Nat.add_comm, Nat.add_assoc, Nat.add_left_comm] using this

theorem derefBytes_step (w : List Nat) (N : Nat) (s : PState)
    (l rest : List Nat) (i : Nat) (h : w.drop i = l ++ rest) :
    derefBytes l.length i w N s = .ok (l, s) := by
  induction l generalizing i with
  | nil => simp [derefBytes, ParserM.pure_apply]
  | cons b bs ih =>
    have h1 : w.drop i = b :: (bs ++ rest) := by simpa using h
    have hget := drop_cons_get w i b (bs ++ rest) h1
    have hdrop := drop_cons_drop w i b (bs ++ rest) h1
    simp only [List.length_cons, derefBytes, ParserM.bind_apply,
      derefByte_apply, List.get?_eq_getElem?, hget, ih (i + 1) hdrop,
      ParserM.pure_apply]

theorem enc32_length (le : Bool) (n : Nat) : (enc32 le n).length = 4 := by
  cases le <;> simp [enc32, natBytesLE_length]

theorem enc64_length (le : Bool) (n : Nat) : (enc64 le n).length = 8 := by
  cases le <;> simp [enc64, natBytesLE_length]

/-! ## Step lemmas: primitive reads over encoded buffers -/

theorem byte_step (w : List Nat) (s : PState) (b : Nat) (rest : List Nat)
    (hw : w.drop s.offset = b :: rest) (herr : s.error = false) :
    byte_from_wkb_state w w.length s =
      .ok (b, { s with offset := s.offset + 1 }) := by
  have hbound : s.offset + 1 ≤ w.length := by
    have := drop_app_bound w [b] rest s.offset (by simpa using hw) (by simp)
    simpa using this
  have hget := drop_cons_get w s.offset b rest hw
  simp [byte_from_wkb_state, wkb_parse_state_check, ParserM.bind_apply,
    getS_apply, getWkbSize_apply, perr_apply, ParserM.pure_apply,
    setS_apply, derefByte_apply, WKB_BYTE_SIZE, hget, herr,
    Nat.not_lt.2 hbound]

theorem bytesLE_enc32 (n : Nat) : bytesLE (enc32 true n) = n % 2 ^ 32 := by
  have : bytesLE (natBytesLE 4 n) = n % 256 ^ 4 := bytesLE_natBytesLE 4 n
  simpa [enc32] using this

theorem swap32_enc32 (n : Nat) :
    swap32 (bytesLE (enc32 false n)) = n % 2 ^ 32 := by
  simpa [enc32] using swap32_reverse n

theorem bytesLE_enc64 (n : Nat) : bytesLE (enc64 true n) = n % 2 ^ 64 := by
  have : bytesLE (natBytesLE 8 n) = n % 256 ^ 8 := bytesLE_natBytesLE 8 n
  simpa [enc64] using this

theorem swap64_enc64 (n : Nat) :
    swap64 (bytesLE (enc64 false n)) = n % 2 ^ 64 := by
  simpa [enc64] using swap64_reverse n

theorem int_step (w : List Nat) (s : PState) (le : Bool) (n : Nat)
    (rest : List Nat) (hw : w.drop s.offset = enc32 le n ++ rest)
    (herr : s.error = false) (hswap : s.swap_bytes = !le) :
    integer_from_wkb_state w w.length s =
      .ok (n % 2 ^ 32, { s with offset := s.offset + 4 }) := by
  have hne : enc32 le n ≠ [] := by
    intro hc
    have := enc32_length le n
    rw [hc] at this
    simp at this
  have hbound : s.offset + 4 ≤ w.length := by
    have := drop_app_bound w (enc32 le n) rest s.offset hw hne
    rwa [enc32_length] at this
  have hbytes : derefBytes 4 s.offset w w.length s = .ok (enc32 le n, s) := by
    have := derefBytes_step w w.length s (enc32 le n) rest s.offset hw
    rwa [enc32_length] at this
  cases le with
  | true =>
    have hswap2 : s.swap_bytes = false := by simpa using hswap
    simp [integer_from_wkb_state, wkb_parse_state_check, ParserM.bind_apply,
      getS_apply, getWkbSize_apply, perr_apply, ParserM.pure_apply,
      setS_apply, WKB_INT_SIZE, herr, Nat.not_lt.2 hbound, hbytes, hswap2,
      bytesLE_enc32]
  | false =>
    have hswap2 : s.swap_bytes = true := by simpa using hswap
    simp [integer_from_wkb_state, wkb_parse_state_check, ParserM.bind_apply,
      getS_apply, getWkbSize_apply, perr_apply, ParserM.pure_apply,
      setS_apply, WKB_INT_SIZE, herr, Nat.not_lt.2 hbound, hbytes, hswap2,
      swap32_enc32]

theorem double_step (w : List Nat) (N : Nat) (s : PState) (le : Bool)
    (d : Nat) (rest : List Nat)
    (hw : w.drop s.offset = enc64 le d ++ rest) (hswap : s.swap_bytes = !le) :
    double_from_wkb_state w N s =
      .ok (d % 2 ^ 64, { s with offset := s.offset + 8 }) := by
  have hbytes : derefBytes 8 s.offset w N s = .ok (enc64 le d, s) := by
    have := derefBytes_step w N s (enc64 le d) rest s.offset hw
    rwa [enc64_length] at this
  cases le with
  | true =>
    have hswap2 : s.swap_bytes = false := by simpa using hswap
    simp [double_from_wkb_state, ParserM.bind_apply, getS_apply,
      setS_apply, ParserM.pure_apply, WKB_DOUBLE_SIZE, hbytes, hswap2,
      bytesLE_enc64]
  | false =>
    have hswap2 : s.swap_bytes = true := by simpa using hswap
    simp [double_from_wkb_state, ParserM.bind_apply, getS_apply,
      setS_apply, ParserM.pure_apply, WKB_DOUBLE_SIZE, hbytes, hswap2,
      swap64_enc64]

theorem copy_doubles_step (w : List Nat) (N : Nat) (s : PState) :
    ∀ (ds rest : List Nat) (i : Nat),
      w.drop i = (ds.map (enc64 true)).flatten ++ rest →
      copy_doubles ds.length i w N s = .ok (ds.map (· % 2 ^ 64), s) := by
  intro ds
  induction ds with
  | nil => intro rest i _; simp [copy_doubles, ParserM.pure_apply]
  | cons d ds ih =>
    intro rest i hw
    have hw1 : w.drop i = enc64 true d ++ ((ds.map (enc64 true)).flatten ++ rest) := by
      simpa [List.append_assoc] using hw
    have hbytes : derefBytes 8 i w N s = .ok (enc64 true d, s) := by
      have := derefBytes_step w N s (enc64 true d)
        ((ds.map (enc64 true)).flatten ++ rest) i hw1
      rwa [enc64_length] at this
    have hw2 : w.drop (i + 8) = (ds.map (enc64 true)).flatten ++ rest := by
      have := drop_app_drop w (enc64 true d)
        ((ds.map (enc64 true)).flatten ++ rest) i hw1
      rwa [enc64_length] at this
    simp [copy_doubles, ParserM.bind_apply, hbytes, ih _ _ hw2,
      ParserM.pure_apply, WKB_DOUBLE_SIZE, bytesLE_enc64]

theorem read_doubles_step (w : List Nat) (N : Nat) :
    ∀ (ds rest : List Nat) (s : PState),
      s.swap_bytes = true →
      w.drop s.offset = (ds.map (enc64 false)).flatten ++ rest →
      read_doubles ds.length w N s =
        .ok (ds.map (· % 2 ^ 64), { s with offset := s.offset + 8 * ds.length }) := by
  intro ds
  induction ds with
  | nil =>
    intro rest s _ _
    simp [read_doubles, ParserM.pure_apply]
  | cons d ds ih =>
    intro rest s hswap hw
    have hw1 : w.drop s.offset =
        enc64 false d ++ ((ds.map (enc64 false)).flatten ++ rest) := by
      simpa [List.append_assoc] using hw
    have hd := double_step w N s false d
      ((ds.map (enc64 false)).flatten ++ rest) hw1 (by simpa using hswap)
    have hw2 : w.drop (s.offset + 8) = (ds.map (enc64 false)).flatten ++ rest := by
      have := drop_app_drop w (enc64 false d)
        ((ds.map (enc64 false)).flatten ++ rest) s.offset hw1
      rwa [enc64_length] at this
    have hrec := ih rest { s with offset := s.offset + 8 } (by simpa using hswap)
      (by simpa using hw2)
    simp only [List.length_cons, read_doubles, ParserM.bind_apply, hd, hrec,
      ParserM.pure_apply, List.map_cons,
      show s.offset + 8 * (ds.length + 1) = s.offset + 8 + 8 * ds.length from
        by ring]

theorem lwpoint_2d_step (w : List Nat) (s : PState) (le : Bool) (x y : Nat)
    (rest : List Nat)
    (hw : w.drop s.offset = enc64 le x ++ (enc64 le y ++ rest))
    (herr : s.error = false) (hz : s.has_z = false) (hm : s.has_m = false)
    (hswap : s.swap_bytes = !le) :
    lwpoint_from_wkb_state w w.length s =
      .ok (some (if isNaN64 (x % 2 ^ 64) && isNaN64 (y % 2 ^ 64) then
          Geom.point s.srid ⟨false, false, []⟩
        else Geom.point s.srid ⟨false, false, [[x % 2 ^ 64, y % 2 ^ 64]]⟩),
        { s with offset := s.offset + 16 }) := by
  have hwflat : w.drop s.offset = ([x, y].map (enc64 le)).flatten ++ rest := by
    simpa [List.append_assoc] using hw
  have hbound : s.offset + 16 ≤ w.length := by
    have := drop_app_bound w (enc64 le x ++ enc64 le y) rest s.offset
      (by simpa [List.append_assoc] using hw)
      (by
        intro hc
        have := congrArg List.length hc
        simp [enc64_length] at this)
    simpa [enc64_length] using this
  cases le with
  | true =>
    have hswap2 : s.swap_bytes = false := by simpa using hswap
    have hcopy := copy_doubles_step w w.length s [x, y] rest s.offset hwflat
    simp only [List.length_cons, List.length_nil, List.map_cons,
      List.map_nil] at hcopy
    simp [lwpoint_from_wkb_state, ParserM.bind_apply, getS_apply,
      setS_apply, ParserM.pure_apply, perr_apply, wkb_parse_state_check,
      getWkbSize_apply, hz, hm, herr, hswap2, WKB_DOUBLE_SIZE,
      Nat.not_lt.2 hbound, hcopy, chunkPts, ptarray_construct,
      PtArray.ndims]
    split <;> simp [ParserM.pure_apply]
  | false =>
    have hswap2 : s.swap_bytes = true := by simpa using hswap
    have hread := read_doubles_step w w.length [x, y] rest s
      hswap2 (by simpa using hwflat)
    simp only [List.length_cons, List.length_nil, List.map_cons,
      List.map_nil] at hread
    simp [lwpoint_from_wkb_state, ParserM.bind_apply, getS_apply,
      setS_apply, ParserM.pure_apply, perr_apply, wkb_parse_state_check,
      getWkbSize_apply, hz, hm, herr, hswap2, WKB_DOUBLE_SIZE,
      Nat.not_lt.2 hbound, hread, chunkPts, ptarray_construct,
      PtArray.ndims]
    split <;> simp [ParserM.pure_apply]

theorem lwtype_step_point (w : List Nat) (N : Nat) (s : PState) :
    lwtype_from_wkb_state 1 w N s =
      .ok ((),
        { s with
          has_z := false
          has_m := false
          has_srid := false
          lwtype := some LWType.point }) := rfl

/-- **C7.**  Decoding a WKB Point whose X and Y doubles are both NaN
yields the canonical empty point (reporting `is_empty = true`), not a
point with NaN coordinates, in either byte order; a point with only
one NaN coordinate is not normalized.  The decode result is stated as
a single `if` on the bit-level NaN test of both coordinates. -/
theorem C7_nan_point_normalized (le : Bool) (x y : Nat)
    (hx : x < 2 ^ 64) (hy : y < 2 ^ 64) (check fuel : Nat) :
    (lwgeom_from_wkb
        ((if le then 1 else 0) :: (enc32 le 1 ++ (enc64 le x ++ enc64 le y)))
        ((if le then 1 else 0) :: (enc32 le 1 ++ (enc64 le x ++ enc64 le y))).length
        check (fuel + 1) =
      .ok (some (if isNaN64 x && isNaN64 y then
          Geom.point SRID_UNKNOWN ⟨false, false, []⟩
        else Geom.point SRID_UNKNOWN ⟨false, false, [[x, y]]⟩))) ∧
    lwgeom_is_empty (Geom.point SRID_UNKNOWN ⟨false, false, []⟩) = true ∧
    lwgeom_is_empty (Geom.point SRID_UNKNOWN ⟨false, false, [[x, y]]⟩) = false := by
  refine ⟨?_, rfl, rfl⟩
  have hxmod : x % 2 ^ 64 = x := Nat.mod_eq_of_lt hx
  have hymod : y % 2 ^ 64 = y := Nat.mod_eq_of_lt hy
  cases le with
  | true =>
    show lwgeom_from_wkb (1 :: (enc32 true 1 ++ (enc64 true x ++ enc64 true y)))
      (1 :: (enc32 true 1 ++ (enc64 true x ++ enc64 true y))).length check (fuel + 1) = _
    set w : List Nat := 1 :: (enc32 true 1 ++ (enc64 true x ++ enc64 true y))
      with hwdef
    have hlen : w.length ≠ 0 := by simp [hwdef]
    have h1 := byte_step w (initState check) 1
      (enc32 true 1 ++ (enc64 true x ++ enc64 true y)) (by simp [hwdef, initState]) rfl
    have h1' : byte_from_wkb_state w w.length (initState check) =
        .ok (1, ⟨SRID_UNKNOWN, false, check, none, false, false, false, false, 1, 1⟩) := by
      simpa [initState] using h1
    have hdrop1 : w.drop 1 = enc32 true 1 ++ (enc64 true x ++ enc64 true y) := by
      simp [hwdef]
    have h2 := int_step w
      ⟨SRID_UNKNOWN, false, check, none, false, false, false, false, 1, 1⟩
      true 1 (enc64 true x ++ enc64 true y) hdrop1 rfl rfl
    have h2' : integer_from_wkb_state w w.length
        ⟨SRID_UNKNOWN, false, check, none, false, false, false, false, 1, 1⟩ =
        .ok (1, ⟨SRID_UNKNOWN, false, check, none, false, false, false, false, 1, 5⟩) := by
      simpa using h2
    have h3 : lwtype_from_wkb_state 1 w w.length
        ⟨SRID_UNKNOWN, false, check, none, false, false, false, false, 1, 5⟩ =
        .ok ((), ⟨SRID_UNKNOWN, false, check, some .point, false, false, false, false, 1, 5⟩) := rfl
    have hdrop5 : w.drop 5 = enc64 true x ++ (enc64 true y ++ []) := by
      have := drop_app_drop w (enc32 true 1) (enc64 true x ++ enc64 true y) 1 hdrop1
      rw [enc32_length] at this
      simpa using this
    have h4 := lwpoint_2d_step w
      ⟨SRID_UNKNOWN, false, check, some .point, false, false, false, false, 1, 5⟩
      true x y [] hdrop5 rfl rfl rfl rfl
    rw [hxmod, hymod] at h4
    simp [lwgeom_from_wkb, hlen, lwgeom_from_wkb_state, ParserM.bind_apply,
      h1', h2', h3, h4, getS_apply, modifyS_apply, setS_apply,
      perr_apply, ParserM.pure_apply]
  | false =>
    show lwgeom_from_wkb (0 :: (enc32 false 1 ++ (enc64 false x ++ enc64 false y)))
      (0 :: (enc32 false 1 ++ (enc64 false x ++ enc64 false y))).length check (fuel + 1) = _
    set w : List Nat := 0 :: (enc32 false 1 ++ (enc64 false x ++ enc64 false y))
      with hwdef
    have hlen : w.length ≠ 0 := by simp [hwdef]
    have h1 := byte_step w (initState check) 0
      (enc32 false 1 ++ (enc64 false x ++ enc64 false y)) (by simp [hwdef, initState]) rfl
    have h1' : byte_from_wkb_state w w.length (initState check) =
        .ok (0, ⟨SRID_UNKNOWN, false, check, none, false, false, false, false, 1, 1⟩) := by
      simpa [initState] using h1
    have hdrop1 : w.drop 1 = enc32 false 1 ++ (enc64 false x ++ enc64 false y) := by
      simp [hwdef]
    have h2 := int_step w
      ⟨SRID_UNKNOWN, true, check, none, false, false, false, false, 1, 1⟩
      false 1 (enc64 false x ++ enc64 false y) hdrop1 rfl rfl
    have h2' : integer_from_wkb_state w w.length
        ⟨SRID_UNKNOWN, true, check, none, false, false, false, false, 1, 1⟩ =
        .ok (1, ⟨SRID_UNKNOWN, true, check, none, false, false, false, false, 1, 5⟩) := by
      simpa using h2
    have h3 : lwtype_from_wkb_state 1 w w.length
        ⟨SRID_UNKNOWN, true, check, none, false, false, false, false, 1, 5⟩ =
        .ok ((), ⟨SRID_UNKNOWN, true, check, some .point, false, false, false, false, 1, 5⟩) := rfl
    have hdrop5 : w.drop 5 = enc64 false x ++ (enc64 false y ++ []) := by
      have := drop_app_drop w (enc32 false 1) (enc64 false x ++ enc64 false y) 1 hdrop1
      rw [enc32_length] at this
      simpa using this
    have h4 := lwpoint_2d_step w
      ⟨SRID_UNKNOWN, true, check, some .point, false, false, false, false, 1, 5⟩
      false x y [] hdrop5 rfl rfl rfl rfl
    rw [hxmod, hymod] at h4
    simp [lwgeom_from_wkb, hlen, lwgeom_from_wkb_state, ParserM.bind_apply,
      h1', h2', h3, h4, getS_apply, modifyS_apply, setS_apply,
      perr_apply, ParserM.pure_apply]

/-- Witness for C7: the canonical all-NaN little-endian point WKB
decodes to the empty point, and a single-NaN point keeps its bits. -/
theorem C7_nan_point_normalized_witness :
    (lwgeom_from_wkb
        (1 :: (enc32 true 1 ++ (enc64 true 0x7FF8000000000000 ++
          enc64 true 0x7FF8000000000000)))
        (1 :: (enc32 true 1 ++ (enc64 true 0x7FF8000000000000 ++
          enc64 true 0x7FF8000000000000))).length 0 1 =
      .ok (some (Geom.point SRID_UNKNOWN ⟨false, false, []⟩))) ∧
    (lwgeom_from_wkb
        (0 :: (enc32 false 1 ++ (enc64 false 0x7FF8000000000000 ++
          enc64 false 3)))
        (0 :: (enc32 false 1 ++ (enc64 false 0x7FF8000000000000 ++
          enc64 false 3))).length 0 1 =
      .ok (some (Geom.point SRID_UNKNOWN
        ⟨false, false, [[0x7FF8000000000000, 3]]⟩))) := by
  constructor
  · have h := (C7_nan_point_normalized true 0x7FF8000000000000
      0x7FF8000000000000 (by norm_num) (by norm_num) 0 0).1
    exact h.trans (by rw [if_pos (by decide)])
  · have h := (C7_nan_point_normalized false 0x7FF8000000000000 3
      (by norm_num) (by norm_num) 0 0).1
    exact h.trans (by rw [if_neg (by decide)])

/-- The switch agrees with the enumeration table. -/
theorem lwtype_switch_eq (c : Nat) (w : List Nat) (N : Nat) (s : PState) :
    lwtype_switch c w N s =
      match lwtypeTable c with
      | some ty => .ok ((), { s with lwtype := some ty })
      | none => .error .unknownType := by
  by_cases h1 : c = 1
  · simp [lwtype_switch, lwtypeTable, WKB_POINT_TYPE, WKB_LINESTRING_TYPE, WKB_POLYGON_TYPE, WKB_CIRCULARSTRING_TYPE, WKB_MULTIPOINT_TYPE, WKB_MULTILINESTRING_TYPE, WKB_MULTIPOLYGON_TYPE, WKB_TRIANGLE_TYPE, WKB_GEOMETRYCOLLECTION_TYPE, WKB_COMPOUNDCURVE_TYPE, WKB_CURVEPOLYGON_TYPE, WKB_MULTICURVE_TYPE, WKB_MULTISURFACE_TYPE, WKB_POLYHEDRALSURFACE_TYPE, WKB_TIN_TYPE, WKB_CURVE_TYPE, WKB_SURFACE_TYPE,
      h1, modifyS_apply]
  by_cases h2 : c = 2
  · simp [lwtype_switch, lwtypeTable, WKB_POINT_TYPE, WKB_LINESTRING_TYPE, WKB_POLYGON_TYPE, WKB_CIRCULARSTRING_TYPE, WKB_MULTIPOINT_TYPE, WKB_MULTILINESTRING_TYPE, WKB_MULTIPOLYGON_TYPE, WKB_TRIANGLE_TYPE, WKB_GEOMETRYCOLLECTION_TYPE, WKB_COMPOUNDCURVE_TYPE, WKB_CURVEPOLYGON_TYPE, WKB_MULTICURVE_TYPE, WKB_MULTISURFACE_TYPE, WKB_POLYHEDRALSURFACE_TYPE, WKB_TIN_TYPE, WKB_CURVE_TYPE, WKB_SURFACE_TYPE,
      h1, h2, modifyS_apply]
  by_cases h3 : c = 3
  · simp [lwtype_switch, lwtypeTable, WKB_POINT_TYPE, WKB_LINESTRING_TYPE, WKB_POLYGON_TYPE, WKB_CIRCULARSTRING_TYPE, WKB_MULTIPOINT_TYPE, WKB_MULTILINESTRING_TYPE, WKB_MULTIPOLYGON_TYPE, WKB_TRIANGLE_TYPE, WKB_GEOMETRYCOLLECTION_TYPE, WKB_COMPOUNDCURVE_TYPE, WKB_CURVEPOLYGON_TYPE, WKB_MULTICURVE_TYPE, WKB_MULTISURFACE_TYPE, WKB_POLYHEDRALSURFACE_TYPE, WKB_TIN_TYPE, WKB_CURVE_TYPE, WKB_SURFACE_TYPE,
      h1, h2, h3, modifyS_apply]
  by_cases h4 : c = 8
  · simp [lwtype_switch, lwtypeTable, WKB_POINT_TYPE, WKB_LINESTRING_TYPE, WKB_POLYGON_TYPE, WKB_CIRCULARSTRING_TYPE, WKB_MULTIPOINT_TYPE, WKB_MULTILINESTRING_TYPE, WKB_MULTIPOLYGON_TYPE, WKB_TRIANGLE_TYPE, WKB_GEOMETRYCOLLECTION_TYPE, WKB_COMPOUNDCURVE_TYPE, WKB_CURVEPOLYGON_TYPE, WKB_MULTICURVE_TYPE, WKB_MULTISURFACE_TYPE, WKB_POLYHEDRALSURFACE_TYPE, WKB_TIN_TYPE, WKB_CURVE_TYPE, WKB_SURFACE_TYPE,
      h1, h2, h3, h4, modifyS_apply]
  by_cases h5 : c = 4
  · simp [lwtype_switch, lwtypeTable, WKB_POINT_TYPE, WKB_LINESTRING_TYPE, WKB_POLYGON_TYPE, WKB_CIRCULARSTRING_TYPE, WKB_MULTIPOINT_TYPE, WKB_MULTILINESTRING_TYPE, WKB_MULTIPOLYGON_TYPE, WKB_TRIANGLE_TYPE, WKB_GEOMETRYCOLLECTION_TYPE, WKB_COMPOUNDCURVE_TYPE, WKB_CURVEPOLYGON_TYPE, WKB_MULTICURVE_TYPE, WKB_MULTISURFACE_TYPE, WKB_POLYHEDRALSURFACE_TYPE, WKB_TIN_TYPE, WKB_CURVE_TYPE, WKB_SURFACE_TYPE,
      h1, h2, h3, h4, h5, modifyS_apply]
  by_cases h6 : c = 5
  · simp [lwtype_switch, lwtypeTable, WKB_POINT_TYPE, WKB_LINESTRING_TYPE, WKB_POLYGON_TYPE, WKB_CIRCULARSTRING_TYPE, WKB_MULTIPOINT_TYPE, WKB_MULTILINESTRING_TYPE, WKB_MULTIPOLYGON_TYPE, WKB_TRIANGLE_TYPE, WKB_GEOMETRYCOLLECTION_TYPE, WKB_COMPOUNDCURVE_TYPE, WKB_CURVEPOLYGON_TYPE, WKB_MULTICURVE_TYPE, WKB_MULTISURFACE_TYPE, WKB_POLYHEDRALSURFACE_TYPE, WKB_TIN_TYPE, WKB_CURVE_TYPE, WKB_SURFACE_TYPE,
      h1, h2, h3, h4, h5, h6, modifyS_apply]
  by_cases h7 : c = 6
  · simp [lwtype_switch, lwtypeTable, WKB_POINT_TYPE, WKB_LINESTRING_TYPE, WKB_POLYGON_TYPE, WKB_CIRCULARSTRING_TYPE, WKB_MULTIPOINT_TYPE, WKB_MULTILINESTRING_TYPE, WKB_MULTIPOLYGON_TYPE, WKB_TRIANGLE_TYPE, WKB_GEOMETRYCOLLECTION_TYPE, WKB_COMPOUNDCURVE_TYPE, WKB_CURVEPOLYGON_TYPE, WKB_MULTICURVE_TYPE, WKB_MULTISURFACE_TYPE, WKB_POLYHEDRALSURFACE_TYPE, WKB_TIN_TYPE, WKB_CURVE_TYPE, WKB_SURFACE_TYPE,
      h1, h2, h3, h4, h5, h6, h7, modifyS_apply]
  by_cases h8 : c = 17
  · simp [lwtype_switch, lwtypeTable, WKB_POINT_TYPE, WKB_LINESTRING_TYPE, WKB_POLYGON_TYPE, WKB_CIRCULARSTRING_TYPE, WKB_MULTIPOINT_TYPE, WKB_MULTILINESTRING_TYPE, WKB_MULTIPOLYGON_TYPE, WKB_TRIANGLE_TYPE, WKB_GEOMETRYCOLLECTION_TYPE, WKB_COMPOUNDCURVE_TYPE, WKB_CURVEPOLYGON_TYPE, WKB_MULTICURVE_TYPE, WKB_MULTISURFACE_TYPE, WKB_POLYHEDRALSURFACE_TYPE, WKB_TIN_TYPE, WKB_CURVE_TYPE, WKB_SURFACE_TYPE,
      h1, h2, h3, h4, h5, h6, h7, h8, modifyS_apply]
  by_cases h9 : c = 7
  · simp [lwtype_switch, lwtypeTable, WKB_POINT_TYPE, WKB_LINESTRING_TYPE, WKB_POLYGON_TYPE, WKB_CIRCULARSTRING_TYPE, WKB_MULTIPOINT_TYPE, WKB_MULTILINESTRING_TYPE, WKB_MULTIPOLYGON_TYPE, WKB_TRIANGLE_TYPE, WKB_GEOMETRYCOLLECTION_TYPE, WKB_COMPOUNDCURVE_TYPE, WKB_CURVEPOLYGON_TYPE, WKB_MULTICURVE_TYPE, WKB_MULTISURFACE_TYPE, WKB_POLYHEDRALSURFACE_TYPE, WKB_TIN_TYPE, WKB_CURVE_TYPE, WKB_SURFACE_TYPE,
      h1, h2, h3, h4, h5, h6, h7, h8, h9, modifyS_apply]
  by_cases h10 : c = 9
  · simp [lwtype_switch, lwtypeTable, WKB_POINT_TYPE, WKB_LINESTRING_TYPE, WKB_POLYGON_TYPE, WKB_CIRCULARSTRING_TYPE, WKB_MULTIPOINT_TYPE, WKB_MULTILINESTRING_TYPE, WKB_MULTIPOLYGON_TYPE, WKB_TRIANGLE_TYPE, WKB_GEOMETRYCOLLECTION_TYPE, WKB_COMPOUNDCURVE_TYPE, WKB_CURVEPOLYGON_TYPE, WKB_MULTICURVE_TYPE, WKB_MULTISURFACE_TYPE, WKB_POLYHEDRALSURFACE_TYPE, WKB_TIN_TYPE, WKB_CURVE_TYPE, WKB_SURFACE_TYPE,
      h1, h2, h3, h4, h5, h6, h7, h8, h9, h10, modifyS_apply]
  by_cases h11 : c = 10
  · simp [lwtype_switch, lwtypeTable, WKB_POINT_TYPE, WKB_LINESTRING_TYPE, WKB_POLYGON_TYPE, WKB_CIRCULARSTRING_TYPE, WKB_MULTIPOINT_TYPE, WKB_MULTILINESTRING_TYPE, WKB_MULTIPOLYGON_TYPE, WKB_TRIANGLE_TYPE, WKB_GEOMETRYCOLLECTION_TYPE, WKB_COMPOUNDCURVE_TYPE, WKB_CURVEPOLYGON_TYPE, WKB_MULTICURVE_TYPE, WKB_MULTISURFACE_TYPE, WKB_POLYHEDRALSURFACE_TYPE, WKB_TIN_TYPE, WKB_CURVE_TYPE, WKB_SURFACE_TYPE,
      h1, h2, h3, h4, h5, h6, h7, h8, h9, h10, h11, modifyS_apply]
  by_cases h12 : c = 11
  · simp [lwtype_switch, lwtypeTable, WKB_POINT_TYPE, WKB_LINESTRING_TYPE, WKB_POLYGON_TYPE, WKB_CIRCULARSTRING_TYPE, WKB_MULTIPOINT_TYPE, WKB_MULTILINESTRING_TYPE, WKB_MULTIPOLYGON_TYPE, WKB_TRIANGLE_TYPE, WKB_GEOMETRYCOLLECTION_TYPE, WKB_COMPOUNDCURVE_TYPE, WKB_CURVEPOLYGON_TYPE, WKB_MULTICURVE_TYPE, WKB_MULTISURFACE_TYPE, WKB_POLYHEDRALSURFACE_TYPE, WKB_TIN_TYPE, WKB_CURVE_TYPE, WKB_SURFACE_TYPE,
      h1, h2, h3, h4, h5, h6, h7, h8, h9, h10, h11, h12, modifyS_apply]
  by_cases h13 : c = 12
  · simp [lwtype_switch, lwtypeTable, WKB_POINT_TYPE, WKB_LINESTRING_TYPE, WKB_POLYGON_TYPE, WKB_CIRCULARSTRING_TYPE, WKB_MULTIPOINT_TYPE, WKB_MULTILINESTRING_TYPE, WKB_MULTIPOLYGON_TYPE, WKB_TRIANGLE_TYPE, WKB_GEOMETRYCOLLECTION_TYPE, WKB_COMPOUNDCURVE_TYPE, WKB_CURVEPOLYGON_TYPE, WKB_MULTICURVE_TYPE, WKB_MULTISURFACE_TYPE, WKB_POLYHEDRALSURFACE_TYPE, WKB_TIN_TYPE, WKB_CURVE_TYPE, WKB_SURFACE_TYPE,
      h1, h2, h3, h4, h5, h6, h7, h8, h9, h10, h11, h12, h13, modifyS_apply]
  by_cases h14 : c = 15
  · simp [lwtype_switch, lwtypeTable, WKB_POINT_TYPE, WKB_LINESTRING_TYPE, WKB_POLYGON_TYPE, WKB_CIRCULARSTRING_TYPE, WKB_MULTIPOINT_TYPE, WKB_MULTILINESTRING_TYPE, WKB_MULTIPOLYGON_TYPE, WKB_TRIANGLE_TYPE, WKB_GEOMETRYCOLLECTION_TYPE, WKB_COMPOUNDCURVE_TYPE, WKB_CURVEPOLYGON_TYPE, WKB_MULTICURVE_TYPE, WKB_MULTISURFACE_TYPE, WKB_POLYHEDRALSURFACE_TYPE, WKB_TIN_TYPE, WKB_CURVE_TYPE, WKB_SURFACE_TYPE,
      h1, h2, h3, h4, h5, h6, h7, h8, h9, h10, h11, h12, h13, h14, modifyS_apply]
  by_cases h15 : c = 16
  · simp [lwtype_switch, lwtypeTable, WKB_POINT_TYPE, WKB_LINESTRING_TYPE, WKB_POLYGON_TYPE, WKB_CIRCULARSTRING_TYPE, WKB_MULTIPOINT_TYPE, WKB_MULTILINESTRING_TYPE, WKB_MULTIPOLYGON_TYPE, WKB_TRIANGLE_TYPE, WKB_GEOMETRYCOLLECTION_TYPE, WKB_COMPOUNDCURVE_TYPE, WKB_CURVEPOLYGON_TYPE, WKB_MULTICURVE_TYPE, WKB_MULTISURFACE_TYPE, WKB_POLYHEDRALSURFACE_TYPE, WKB_TIN_TYPE, WKB_CURVE_TYPE, WKB_SURFACE_TYPE,
      h1, h2, h3, h4, h5, h6, h7, h8, h9, h10, h11, h12, h13, h14, h15, modifyS_apply]
  by_cases h16 : c = 13
  · simp [lwtype_switch, lwtypeTable, WKB_POINT_TYPE, WKB_LINESTRING_TYPE, WKB_POLYGON_TYPE, WKB_CIRCULARSTRING_TYPE, WKB_MULTIPOINT_TYPE, WKB_MULTILINESTRING_TYPE, WKB_MULTIPOLYGON_TYPE, WKB_TRIANGLE_TYPE, WKB_GEOMETRYCOLLECTION_TYPE, WKB_COMPOUNDCURVE_TYPE, WKB_CURVEPOLYGON_TYPE, WKB_MULTICURVE_TYPE, WKB_MULTISURFACE_TYPE, WKB_POLYHEDRALSURFACE_TYPE, WKB_TIN_TYPE, WKB_CURVE_TYPE, WKB_SURFACE_TYPE,
      h1, h2, h3, h4, h5, h6, h7, h8, h9, h10, h11, h12, h13, h14, h15, h16, modifyS_apply]
  by_cases h17 : c = 14
  · simp [lwtype_switch, lwtypeTable, WKB_POINT_TYPE, WKB_LINESTRING_TYPE, WKB_POLYGON_TYPE, WKB_CIRCULARSTRING_TYPE, WKB_MULTIPOINT_TYPE, WKB_MULTILINESTRING_TYPE, WKB_MULTIPOLYGON_TYPE, WKB_TRIANGLE_TYPE, WKB_GEOMETRYCOLLECTION_TYPE, WKB_COMPOUNDCURVE_TYPE, WKB_CURVEPOLYGON_TYPE, WKB_MULTICURVE_TYPE, WKB_MULTISURFACE_TYPE, WKB_POLYHEDRALSURFACE_TYPE, WKB_TIN_TYPE, WKB_CURVE_TYPE, WKB_SURFACE_TYPE,
      h1, h2, h3, h4, h5, h6, h7, h8, h9, h10, h11, h12, h13, h14, h15, h16, h17, modifyS_apply]
  simp [lwtype_switch, lwtypeTable, WKB_POINT_TYPE, WKB_LINESTRING_TYPE, WKB_POLYGON_TYPE, WKB_CIRCULARSTRING_TYPE, WKB_MULTIPOINT_TYPE, WKB_MULTILINESTRING_TYPE, WKB_MULTIPOLYGON_TYPE, WKB_TRIANGLE_TYPE, WKB_GEOMETRYCOLLECTION_TYPE, WKB_COMPOUNDCURVE_TYPE, WKB_CURVEPOLYGON_TYPE, WKB_MULTICURVE_TYPE, WKB_MULTISURFACE_TYPE, WKB_POLYHEDRALSURFACE_TYPE, WKB_TIN_TYPE, WKB_CURVE_TYPE, WKB_SURFACE_TYPE,
    h1, h2, h3, h4, h5, h6, h7, h8, h9, h10, h11, h12, h13, h14, h15, h16, h17, perr_apply]

set_option maxHeartbeats 2000000 in
/-- `lwtype_from_wkb_state` as a pure state transformation: mask off
the flag nibble, reject codes `≥ 4000`, look the low three digits up
in the enumeration table, and set the Z/M/SRID flags from the extended
bits or the ISO ranges. -/
theorem lwtype_from_wkb_state_eq (t : Nat) (w : List Nat) (N : Nat)
    (s : PState) :
    lwtype_from_wkb_state t w N s =
      if 4000 ≤ t &&& 0x0FFFFFFF then .error .unknownType
      else
        match lwtypeTable ((t &&& 0x0FFFFFFF) % 1000) with
        | some ty => .ok ((), { flagZMS t s with lwtype := some ty })
        | none => .error .unknownType := by
  by_cases h4 : 4000 ≤ t &&& 0x0FFFFFFF
  · by_cases hext : t &&& 0xF0000000 ≠ 0 <;>
      by_cases hz : t &&& WKBZOFFSET ≠ 0 <;>
      by_cases hm : t &&& WKBMOFFSET ≠ 0 <;>
      by_cases hsr : t &&& WKBSRIDFLAG ≠ 0 <;>
      simp [lwtype_from_wkb_state, ParserM.bind_apply, modifyS_apply,
        perr_apply, ParserM.pure_apply, ite_apply, hext, hz, hm, hsr, h4,
        Nat.not_lt.2 h4]
  · have h4' : t &&& 0x0FFFFFFF < 4000 := Nat.not_le.1 h4
    by_cases hext : t &&& 0xF0000000 ≠ 0 <;>
      by_cases hz : t &&& WKBZOFFSET ≠ 0 <;>
      by_cases hm : t &&& WKBMOFFSET ≠ 0 <;>
      by_cases hsr : t &&& WKBSRIDFLAG ≠ 0 <;>
      by_cases h3000 : 3000 ≤ t &&& 0x0FFFFFFF ∧ t &&& 0x0FFFFFFF < 4000 <;>
      by_cases h2000 : 2000 ≤ t &&& 0x0FFFFFFF ∧ t &&& 0x0FFFFFFF < 3000 <;>
      by_cases h1000 : 1000 ≤ t &&& 0x0FFFFFFF ∧ t &&& 0x0FFFFFFF < 2000 <;>
      first
      | omega
      | simp [lwtype_from_wkb_state, ParserM.bind_apply, modifyS_apply,
          perr_apply, ParserM.pure_apply, lwtype_switch_eq, flagZMS,
          hext, hz, hm, hsr, h4, h3000, h2000, h1000]

set_option maxHeartbeats 1000000 in
/-- **C5.**  The WKB type-code decoder maps the masked type value as
specified: low-3-digit value 13 (`Curve`) yields the CurvePolygon kind
and 14 (`Surface`) yields the MultiCurve kind, and any masked type
code `≥ 4000`, or one whose low-3-digit value has no entry in the
enumeration table (the table maps 1..17), is a fatal "unknown type"
error. -/
theorem C5_wkb_type_mapping (t : Nat) (w : List Nat) (N : Nat) (s : PState) :
    (4000 ≤ t &&& 0x0FFFFFFF →
      lwtype_from_wkb_state t w N s = .error .unknownType) ∧
    (t &&& 0x0FFFFFFF < 4000 → (t &&& 0x0FFFFFFF) % 1000 = WKB_CURVE_TYPE →
      ∃ s', lwtype_from_wkb_state t w N s = .ok ((), s') ∧
        s'.lwtype = some .curvepoly) ∧
    (t &&& 0x0FFFFFFF < 4000 → (t &&& 0x0FFFFFFF) % 1000 = WKB_SURFACE_TYPE →
      ∃ s', lwtype_from_wkb_state t w N s = .ok ((), s') ∧
        s'.lwtype = some .multicurve) ∧
    (t &&& 0x0FFFFFFF < 4000 →
      ((t &&& 0x0FFFFFFF) % 1000 = 0 ∨ 18 ≤ (t &&& 0x0FFFFFFF) % 1000) →
      lwtype_from_wkb_state t w N s = .error .unknownType) := by
  rw [lwtype_from_wkb_state_eq]
  refine ⟨fun h4 => by rw [if_pos h4], ?_, ?_, ?_⟩
  · intro hlt h13
    rw [if_neg (Nat.not_le.2 hlt), h13]
    have ht : lwtypeTable WKB_CURVE_TYPE = some .curvepoly := by
      simp [lwtypeTable, WKB_POINT_TYPE, WKB_LINESTRING_TYPE, WKB_POLYGON_TYPE, WKB_CIRCULARSTRING_TYPE, WKB_MULTIPOINT_TYPE, WKB_MULTILINESTRING_TYPE, WKB_MULTIPOLYGON_TYPE, WKB_TRIANGLE_TYPE, WKB_GEOMETRYCOLLECTION_TYPE, WKB_COMPOUNDCURVE_TYPE, WKB_CURVEPOLYGON_TYPE, WKB_MULTICURVE_TYPE, WKB_MULTISURFACE_TYPE, WKB_POLYHEDRALSURFACE_TYPE, WKB_TIN_TYPE, WKB_CURVE_TYPE, WKB_SURFACE_TYPE]
    rw [ht]
    exact ⟨_, rfl, rfl⟩
  · intro hlt h14
    rw [if_neg (Nat.not_le.2 hlt), h14]
    have ht : lwtypeTable WKB_SURFACE_TYPE = some .multicurve := by
      simp [lwtypeTable, WKB_POINT_TYPE, WKB_LINESTRING_TYPE, WKB_POLYGON_TYPE, WKB_CIRCULARSTRING_TYPE, WKB_MULTIPOINT_TYPE, WKB_MULTILINESTRING_TYPE, WKB_MULTIPOLYGON_TYPE, WKB_TRIANGLE_TYPE, WKB_GEOMETRYCOLLECTION_TYPE, WKB_COMPOUNDCURVE_TYPE, WKB_CURVEPOLYGON_TYPE, WKB_MULTICURVE_TYPE, WKB_MULTISURFACE_TYPE, WKB_POLYHEDRALSURFACE_TYPE, WKB_TIN_TYPE, WKB_CURVE_TYPE, WKB_SURFACE_TYPE]
    rw [ht]
    exact ⟨_, rfl, rfl⟩
  · intro hlt hno
    rw [if_neg (Nat.not_le.2 hlt)]
    have ht : lwtypeTable ((t &&& 0x0FFFFFFF) % 1000) = none := by
      rcases hno with h0 | h18
      · have n1 : (t &&& 0x0FFFFFFF) % 1000 ≠ 1 := by omega
        have n2 : (t &&& 0x0FFFFFFF) % 1000 ≠ 2 := by omega
        have n3 : (t &&& 0x0FFFFFFF) % 1000 ≠ 3 := by omega
        have n4 : (t &&& 0x0FFFFFFF) % 1000 ≠ 4 := by omega
        have n5 : (t &&& 0x0FFFFFFF) % 1000 ≠ 5 := by omega
        have n6 : (t &&& 0x0FFFFFFF) % 1000 ≠ 6 := by omega
        have n7 : (t &&& 0x0FFFFFFF) % 1000 ≠ 7 := by omega
        have n8 : (t &&& 0x0FFFFFFF) % 1000 ≠ 8 := by omega
        have n9 : (t &&& 0x0FFFFFFF) % 1000 ≠ 9 := by omega
        have n10 : (t &&& 0x0FFFFFFF) % 1000 ≠ 10 := by omega
        have n11 : (t &&& 0x0FFFFFFF) % 1000 ≠ 11 := by omega
        have n12 : (t &&& 0x0FFFFFFF) % 1000 ≠ 12 := by omega
        have n13 : (t &&& 0x0FFFFFFF) % 1000 ≠ 13 := by omega
        have n14 : (t &&& 0x0FFFFFFF) % 1000 ≠ 14 := by omega
        have n15 : (t &&& 0x0FFFFFFF) % 1000 ≠ 15 := by omega
        have n16 : (t &&& 0x0FFFFFFF) % 1000 ≠ 16 := by omega
        have n17 : (t &&& 0x0FFFFFFF) % 1000 ≠ 17 := by omega
        simp [lwtypeTable, WKB_POINT_TYPE, WKB_LINESTRING_TYPE, WKB_POLYGON_TYPE, WKB_CIRCULARSTRING_TYPE, WKB_MULTIPOINT_TYPE, WKB_MULTILINESTRING_TYPE, WKB_MULTIPOLYGON_TYPE, WKB_TRIANGLE_TYPE, WKB_GEOMETRYCOLLECTION_TYPE, WKB_COMPOUNDCURVE_TYPE, WKB_CURVEPOLYGON_TYPE, WKB_MULTICURVE_TYPE, WKB_MULTISURFACE_TYPE, WKB_POLYHEDRALSURFACE_TYPE, WKB_TIN_TYPE, WKB_CURVE_TYPE, WKB_SURFACE_TYPE, n1, n2, n3, n4, n5, n6, n7, n8, n9, n10, n11, n12, n13, n14, n15, n16, n17]
      · have n1 : (t &&& 0x0FFFFFFF) % 1000 ≠ 1 := by omega
        have n2 : (t &&& 0x0FFFFFFF) % 1000 ≠ 2 := by omega
        have n3 : (t &&& 0x0FFFFFFF) % 1000 ≠ 3 := by omega
        have n4 : (t &&& 0x0FFFFFFF) % 1000 ≠ 4 := by omega
        have n5 : (t &&& 0x0FFFFFFF) % 1000 ≠ 5 := by omega
        have n6 : (t &&& 0x0FFFFFFF) % 1000 ≠ 6 := by omega
        have n7 : (t &&& 0x0FFFFFFF) % 1000 ≠ 7 := by omega
        have n8 : (t &&& 0x0FFFFFFF) % 1000 ≠ 8 := by omega
        have n9 : (t &&& 0x0FFFFFFF) % 1000 ≠ 9 := by omega
        have n10 : (t &&& 0x0FFFFFFF) % 1000 ≠ 10 := by omega
        have n11 : (t &&& 0x0FFFFFFF) % 1000 ≠ 11 := by omega
        have n12 : (t &&& 0x0FFFFFFF) % 1000 ≠ 12 := by omega
        have n13 : (t &&& 0x0FFFFFFF) % 1000 ≠ 13 := by omega
        have n14 : (t &&& 0x0FFFFFFF) % 1000 ≠ 14 := by omega
        have n15 : (t &&& 0x0FFFFFFF) % 1000 ≠ 15 := by omega
        have n16 : (t &&& 0x0FFFFFFF) % 1000 ≠ 16 := by omega
        have n17 : (t &&& 0x0FFFFFFF) % 1000 ≠ 17 := by omega
        simp [lwtypeTable, WKB_POINT_TYPE, WKB_LINESTRING_TYPE, WKB_POLYGON_TYPE, WKB_CIRCULARSTRING_TYPE, WKB_MULTIPOINT_TYPE, WKB_MULTILINESTRING_TYPE, WKB_MULTIPOLYGON_TYPE, WKB_TRIANGLE_TYPE, WKB_GEOMETRYCOLLECTION_TYPE, WKB_COMPOUNDCURVE_TYPE, WKB_CURVEPOLYGON_TYPE, WKB_MULTICURVE_TYPE, WKB_MULTISURFACE_TYPE, WKB_POLYHEDRALSURFACE_TYPE, WKB_TIN_TYPE, WKB_CURVE_TYPE, WKB_SURFACE_TYPE, n1, n2, n3, n4, n5, n6, n7, n8, n9, n10, n11, n12, n13, n14, n15, n16, n17]
    rw [ht]

/-- Witness for C5 at concrete inputs: type code 13 maps to the
CurvePolygon kind, 14 to MultiCurve, 4000 and 18 are unknown-type
errors. -/
theorem C5_wkb_type_mapping_witness :
    (∃ s', lwtype_from_wkb_state 13 [] 0 (initState 0) = .ok ((), s') ∧
      s'.lwtype = some .curvepoly) ∧
    (∃ s', lwtype_from_wkb_state 14 [] 0 (initState 0) = .ok ((), s') ∧
      s'.lwtype = some .multicurve) ∧
    lwtype_from_wkb_state 4000 [] 0 (initState 0) = .error .unknownType ∧
    lwtype_from_wkb_state 18 [] 0 (initState 0) = .error .unknownType := by
  refine ⟨?_, ?_, ?_, ?_⟩
  · exact (C5_wkb_type_mapping 13 [] 0 (initState 0)).2.1 (by decide) (by decide)
  · exact (C5_wkb_type_mapping 14 [] 0 (initState 0)).2.2.1 (by decide) (by decide)
  · exact (C5_wkb_type_mapping 4000 [] 0 (initState 0)).1 (by decide)
  · exact (C5_wkb_type_mapping 18 [] 0 (initState 0)).2.2.2 (by decide) (by decide)

/-- **C9 (counterexample).**  The claim "needs_bbox returns false only
for a Point and for a 2-vertex Line; any Line with a vertex count
other than 2 yields true" fails on the code: a one-vertex line has
vertex count 1, yet `lwgeom_needs_bbox` returns `false` (the code
tests `count <= 2`, not `count == 2`). -/
theorem C9_counterexample :
    lwgeom_count_vertices (Geom.line 0 ⟨false, false, [[0, 0]]⟩) = 1 ∧
    (Geom.line 0 ⟨false, false, [[0, 0]]⟩).lwtype = .line ∧
    lwgeom_needs_bbox (Geom.line 0 ⟨false, false, [[0, 0]]⟩) = false := by
  refine ⟨rfl, rfl, rfl⟩

/-- **C9 (amended).**  `lwgeom_needs_bbox` returns false exactly for a
Point and for a Line with *at most* 2 vertices (including empty and
one-vertex lines); every other geometry yields true. -/
theorem C9_needs_bbox_amended (g : Geom) :
    lwgeom_needs_bbox g = false ↔
      (g.lwtype = .point ∨
        (g.lwtype = .line ∧ lwgeom_count_vertices g ≤ 2)) := by
  by_cases hp : g.lwtype = .point
  · simp [lwgeom_needs_bbox, hp]
  · by_cases hl : g.lwtype = .line
    · by_cases hc : lwgeom_count_vertices g ≤ 2 <;>
        simp [lwgeom_needs_bbox, hp, hl, hc]
    · simp [lwgeom_needs_bbox, hp, hl]

/-- **C8.**  With matching SRIDs, the minimum-2D-distance entry point
returns the defined "no answer" result (SQL NULL, the sentinel left
untouched) whenever either operand is empty — distinguishable from a
real distance of zero — and the numeric minimum distance computed by
the engine for non-empty operands.  The dispatch engine itself is not
part of the sources under review and is abstracted as `engine`; the
hypothesis says its distances lie below the sentinel. -/
theorem C8_empty_distance_is_null (engine : Geom → Geom → ℚ)
    (g1 g2 : Geom) (hsrid : g1.srid = g2.srid)
    (hengine : ∀ a b, engine a b < FLT_MAX) :
    ((lwgeom_is_empty g1 || lwgeom_is_empty g2) = true →
      ST_distance engine g1 g2 = .ok none) ∧
    ((lwgeom_is_empty g1 || lwgeom_is_empty g2) = false →
      ST_distance engine g1 g2 = .ok (some (engine g1 g2))) := by
  constructor
  · intro hemp
    simp [ST_distance, lwgeom_mindistance2d, hsrid, hemp]
  · intro hemp
    simp [ST_distance, lwgeom_mindistance2d, hsrid, hemp, hengine g1 g2]

/-- Witness for C8: an empty MultiPoint against a point is NULL; two
points give the engine's distance. -/
theorem C8_empty_distance_is_null_witness :
    (ST_distance (fun _ _ => 0) (Geom.collection .multipoint 0 false false [])
      (Geom.point 0 ⟨false, false, [[0, 0]]⟩) = .ok none) ∧
    (ST_distance (fun _ _ => 0) (Geom.point 0 ⟨false, false, [[1, 1]]⟩)
      (Geom.point 0 ⟨false, false, [[0, 0]]⟩) = .ok (some 0)) := by
  have hpos : ∀ a b : Geom, (fun (_ _ : Geom) => (0 : ℚ)) a b < FLT_MAX := by
    intro a b
    norm_num [FLT_MAX]
  constructor
  · exact (C8_empty_distance_is_null (fun _ _ => 0) _ _ rfl hpos).1 (by rfl)
  · exact (C8_empty_distance_is_null (fun _ _ => 0) _ _ rfl hpos).2 (by rfl)

/-! ## Depth-limit lemmas (nested collections) -/

theorem lwtype_step_collection (w : List Nat) (N : Nat) (s : PState) :
    lwtype_from_wkb_state 7 w N s =
      .ok ((),
        { s with
          has_z := false
          has_m := false
          has_srid := false
          lwtype := some LWType.collection }) := rfl

theorem nestWkb_succ (n : Nat) :
    nestWkb (n + 1) =
      1 :: (enc32 true 7 ++ (enc32 true 1 ++ nestWkb n)) := rfl

theorem nestWkb_zero :
    nestWkb 0 = 1 :: (enc32 true 7 ++ (enc32 true 0 ++ [])) := rfl

theorem nestWkb_length (n : Nat) : (nestWkb n).length = 9 * (n + 1) := by
  induction n with
  | zero => rfl
  | succ n ih => simp [nestWkb, ih]; ring

/-- Decoding `n+1` levels of nested single-child collections from any
state whose depth counter `d` satisfies `d + n ≤ 199` succeeds,
restores the depth counter, and consumes the whole encoding. -/
theorem nest_ok (n : Nat) : ∀ (F : Nat) (w : List Nat) (s : PState)
    (rest : List Nat),
    w.drop s.offset = nestWkb n ++ rest →
    s.error = false →
    s.depth + n ≤ 199 →
    n + 1 ≤ F →
    lwgeom_from_wkb_state F w w.length s =
      .ok (some (nestGeom n s.srid),
        { s with
          offset := s.offset + 9 * (n + 1)
          swap_bytes := false
          lwtype := some LWType.collection
          has_z := false
          has_m := false
          has_srid := false }) := by
  induction n with
  | zero =>
    intro F w s rest hw herr hdep hF
    obtain ⟨F', rfl⟩ : ∃ F', F = F' + 1 := ⟨F - 1, by omega⟩
    rw [nestWkb_zero] at hw
    have h1 := byte_step w s 1 (enc32 true 7 ++ (enc32 true 0 ++ []) ++ rest)
      (by simpa [List.append_assoc] using hw) herr
    have hd1 : w.drop (s.offset + 1) =
        enc32 true 7 ++ ((enc32 true 0 ++ []) ++ rest) := by
      have := drop_cons_drop w s.offset 1
        (enc32 true 7 ++ (enc32 true 0 ++ []) ++ rest)
        (by simpa [List.append_assoc] using hw)
      simpa [List.append_assoc] using this
    have h2 := int_step w
      { s with
        offset := s.offset + 1
        swap_bytes := false
        error := false }
      true 7 ((enc32 true 0 ++ []) ++ rest) (by simpa using hd1) rfl rfl
    have hd5 : w.drop (s.offset + 1 + 4) = enc32 true 0 ++ rest := by
      have := drop_app_drop w (enc32 true 7) ((enc32 true 0 ++ []) ++ rest)
        (s.offset + 1) hd1
      rw [enc32_length] at this
      simpa [List.append_assoc] using this
    have h3 := int_step w
      { s with
        offset := s.offset + 1 + 4
        swap_bytes := false
        error := false
        lwtype := some LWType.collection
        has_z := false
        has_m := false
        has_srid := false }
      true 0 rest (by simpa using hd5) rfl rfl
    simp only [lwgeom_from_wkb_state, ParserM.bind_apply, h1, getS_apply,
      modifyS_apply, setS_apply, perr_apply, ParserM.pure_apply, herr]
    simp only [lwtype_step_collection, lwcollection_from_wkb_state]
    simp [ParserM.bind_apply, getS_apply, modifyS_apply, setS_apply,
      perr_apply, ParserM.pure_apply, h2, h3, herr, nestGeom,
      lwtype_step_collection, ptarray_construct, nestWkb_length]
  | succ n ih =>
    intro F w s rest hw herr hdep hF
    obtain ⟨F', rfl⟩ : ∃ F', F = F' + 1 := ⟨F - 1, by omega⟩
    rw [nestWkb_succ] at hw
    have h1 := byte_step w s 1
      (enc32 true 7 ++ (enc32 true 1 ++ nestWkb n) ++ rest)
      (by simpa [List.append_assoc] using hw) herr
    have hd1 : w.drop (s.offset + 1) =
        enc32 true 7 ++ ((enc32 true 1 ++ nestWkb n) ++ rest) := by
      have := drop_cons_drop w s.offset 1
        (enc32 true 7 ++ (enc32 true 1 ++ nestWkb n) ++ rest)
        (by simpa [List.append_assoc] using hw)
      simpa [List.append_assoc] using this
    have h2 := int_step w
      { s with
        offset := s.offset + 1
        swap_bytes := false
        error := false }
      true 7 ((enc32 true 1 ++ nestWkb n) ++ rest) (by simpa using hd1)
      rfl rfl
    have hd5 : w.drop (s.offset + 1 + 4) =
        enc32 true 1 ++ (nestWkb n ++ rest) := by
      have := drop_app_drop w (enc32 true 7) ((enc32 true 1 ++ nestWkb n) ++ rest)
        (s.offset + 1) hd1
      rw [enc32_length] at this
      simpa [List.append_assoc] using this
    have h3 := int_step w
      { s with
        offset := s.offset + 1 + 4
        swap_bytes := false
        error := false
        lwtype := some LWType.collection
        has_z := false
        has_m := false
        has_srid := false }
      true 1 (nestWkb n ++ rest) (by simpa using hd5) rfl rfl
    have hd9 : w.drop (s.offset + 1 + 4 + 4) = nestWkb n ++ rest := by
      have := drop_app_drop w (enc32 true 1) (nestWkb n ++ rest)
        (s.offset + 1 + 4) hd5
      rwa [enc32_length] at this
    have hrec := ih F' w
      { s with
        offset := s.offset + 1 + 4 + 4
        swap_bytes := false
        error := false
        lwtype := some LWType.collection
        has_z := false
        has_m := false
        has_srid := false
        depth := s.depth + 1 }
      rest (by simpa using hd9) rfl (by simp; omega) (by omega)
    have hdeplt : ¬(s.depth + 1 ≥ LW_PARSER_MAX_DEPTH) := by
      simp [LW_PARSER_MAX_DEPTH]
      omega
    simp only [lwgeom_from_wkb_state, ParserM.bind_apply, h1, getS_apply,
      modifyS_apply, setS_apply, perr_apply, ParserM.pure_apply, herr]
    simp only [lwtype_step_collection, lwcollection_from_wkb_state,
      lwcollection_geoms]
    simp [ParserM.bind_apply, getS_apply, modifyS_apply, setS_apply,
      perr_apply, ParserM.pure_apply, h2, h3, herr, hdeplt, hrec,
      nestGeom, nestWkb_length, lwcollection_geoms,
      lwtype_step_collection, lwcollection_from_wkb_state]
    ring

/-- Decoding nested single-child collections from a state whose depth
counter `d` satisfies `d + n ≥ 200` fails with the "too many chained
collections" error (given enough call-depth budget to reach the
failing level). -/
theorem nest_depth_err (n : Nat) : ∀ (F : Nat) (w : List Nat) (s : PState)
    (rest : List Nat),
    w.drop s.offset = nestWkb n ++ rest →
    s.error = false →
    1 ≤ n →
    200 ≤ s.depth + n →
    200 ≤ s.depth + F →
    1 ≤ F →
    lwgeom_from_wkb_state F w w.length s = .error .tooManyChained := by
  induction n with
  | zero =>
    intro F w s rest hw herr hn hdep hF hF1
    omega
  | succ n ih =>
    intro F w s rest hw herr hn hdep hF hF1
    obtain ⟨F', rfl⟩ : ∃ F', F = F' + 1 := ⟨F - 1, by omega⟩
    rw [nestWkb_succ] at hw
    have h1 := byte_step w s 1
      (enc32 true 7 ++ (enc32 true 1 ++ nestWkb n) ++ rest)
      (by simpa [List.append_assoc] using hw) herr
    have hd1 : w.drop (s.offset + 1) =
        enc32 true 7 ++ ((enc32 true 1 ++ nestWkb n) ++ rest) := by
      have := drop_cons_drop w s.offset 1
        (enc32 true 7 ++ (enc32 true 1 ++ nestWkb n) ++ rest)
        (by simpa [List.append_assoc] using hw)
      simpa [List.append_assoc] using this
    have h2 := int_step w
      { s with
        offset := s.offset + 1
        swap_bytes := false
        error := false }
      true 7 ((enc32 true 1 ++ nestWkb n) ++ rest) (by simpa using hd1)
      rfl rfl
    have hd5 : w.drop (s.offset + 1 + 4) =
        enc32 true 1 ++ (nestWkb n ++ rest) := by
      have := drop_app_drop w (enc32 true 7) ((enc32 true 1 ++ nestWkb n) ++ rest)
        (s.offset + 1) hd1
      rw [enc32_length] at this
      simpa [List.append_assoc] using this
    have h3 := int_step w
      { s with
        offset := s.offset + 1 + 4
        swap_bytes := false
        error := false
        lwtype := some LWType.collection
        has_z := false
        has_m := false
        has_srid := false }
      true 1 (nestWkb n ++ rest) (by simpa using hd5) rfl rfl
    by_cases hd199 : 199 ≤ s.depth
    · have hdepge : s.depth + 1 ≥ LW_PARSER_MAX_DEPTH := by
        simp [LW_PARSER_MAX_DEPTH]
        omega
      simp [lwgeom_from_wkb_state, ParserM.bind_apply, h1, getS_apply,
        modifyS_apply, setS_apply, perr_apply, ParserM.pure_apply, herr,
        h2, h3, hdepge, lwtype_step_collection,
        lwcollection_from_wkb_state, lwcollection_geoms]
    · have hd9 : w.drop (s.offset + 1 + 4 + 4) = nestWkb n ++ rest := by
        have := drop_app_drop w (enc32 true 1) (nestWkb n ++ rest)
          (s.offset + 1 + 4) hd5
        rwa [enc32_length] at this
      have hrec := ih F' w
        { s with
          offset := s.offset + 1 + 4 + 4
          swap_bytes := false
          error := false
          lwtype := some LWType.collection
          has_z := false
          has_m := false
          has_srid := false
          depth := s.depth + 1 }
        rest (by simpa using hd9) rfl (by omega) (by simp; omega)
        (by simp; omega) (by omega)
      have hdeplt : ¬(s.depth + 1 ≥ LW_PARSER_MAX_DEPTH) := by
        simp [LW_PARSER_MAX_DEPTH]
        omega
      simp [lwgeom_from_wkb_state, ParserM.bind_apply, h1, getS_apply,
        modifyS_apply, setS_apply, perr_apply, ParserM.pure_apply, herr,
        h2, h3, hdeplt, hrec, lwtype_step_collection,
        lwcollection_from_wkb_state, lwcollection_geoms]

/-- **C3.**  Decoding a WKB value of 201 levels of nested single-child
collections fails with the "too many chained collections" error, and
199 levels decodes successfully (to the corresponding 199-level
collection tree). -/
theorem C3_depth_limit (check fuel : Nat) (hF : 300 ≤ fuel) :
    (lwgeom_from_wkb (nestWkb 200) (nestWkb 200).length check fuel =
      .error .tooManyChained) ∧
    (lwgeom_from_wkb (nestWkb 198) (nestWkb 198).length check fuel =
      .ok (some (nestGeom 198 SRID_UNKNOWN))) := by
  constructor
  · have h := nest_depth_err 200 fuel (nestWkb 200) (initState check) []
      (by simp [initState]) rfl (by omega) (by simp [initState])
      (by simp [initState]; omega) (by omega)
    have hne : (nestWkb 200).length ≠ 0 := by simp [nestWkb_length]
    rw [lwgeom_from_wkb, if_neg hne, h]
  · have h := nest_ok 198 fuel (nestWkb 198) (initState check) []
      (by simp [initState]) rfl (by simp [initState]) (by omega)
    have hne : (nestWkb 198).length ≠ 0 := by simp [nestWkb_length]
    rw [lwgeom_from_wkb, if_neg hne, h]
    simp [initState]

/-- Witness for C3 at concrete fuel. -/
theorem C3_depth_limit_witness :
    lwgeom_from_wkb (nestWkb 200) (nestWkb 200).length 0 300 =
      .error .tooManyChained ∧
    lwgeom_from_wkb (nestWkb 198) (nestWkb 198).length 0 300 =
      .ok (some (nestGeom 198 SRID_UNKNOWN)) := by
  exact C3_depth_limit 0 300 (by omega)

/-! ## Depth-limit lemmas (nested curve polygons) -/

theorem lwtype_step_curvepoly (w : List Nat) (N : Nat) (s : PState) :
    lwtype_from_wkb_state 10 w N s =
      .ok ((),
        { s with
          has_z := false
          has_m := false
          has_srid := false
          lwtype := some LWType.curvepoly }) := rfl

theorem cpNestWkb_succ (n : Nat) :
    cpNestWkb (n + 1) =
      1 :: (enc32 true 10 ++ (enc32 true 1 ++ cpNestWkb n)) := rfl

theorem cpNestWkb_zero :
    cpNestWkb 0 = 1 :: (enc32 true 10 ++ (enc32 true 0 ++ [])) := rfl

theorem cpNestWkb_length (n : Nat) : (cpNestWkb n).length = 9 * (n + 1) := by
  induction n with
  | zero => rfl
  | succ n ih => simp [cpNestWkb, ih]; ring

/-- Decoding the innermost (ring-free) curve polygon succeeds without
touching the depth counter. -/
theorem cpnest_ok0 (F : Nat) (w : List Nat) (s : PState) (rest : List Nat)
    (hw : w.drop s.offset = cpNestWkb 0 ++ rest)
    (herr : s.error = false) (hF : 1 ≤ F) :
    lwgeom_from_wkb_state F w w.length s =
      .ok (some (.curvepoly s.srid false false []),
        { s with
          offset := s.offset + 9
          swap_bytes := false
          lwtype := some LWType.curvepoly
          has_z := false
          has_m := false
          has_srid := false }) := by
  obtain ⟨F', rfl⟩ : ∃ F', F = F' + 1 := ⟨F - 1, by omega⟩
  rw [cpNestWkb_zero] at hw
  have h1 := byte_step w s 1 (enc32 true 10 ++ (enc32 true 0 ++ []) ++ rest)
    (by simpa [List.append_assoc] using hw) herr
  have hd1 : w.drop (s.offset + 1) =
      enc32 true 10 ++ ((enc32 true 0 ++ []) ++ rest) := by
    have := drop_cons_drop w s.offset 1
      (enc32 true 10 ++ (enc32 true 0 ++ []) ++ rest)
      (by simpa [List.append_assoc] using hw)
    simpa [List.append_assoc] using this
  have h2 := int_step w
    { s with
      offset := s.offset + 1
      swap_bytes := false
      error := false }
    true 10 ((enc32 true 0 ++ []) ++ rest) (by simpa using hd1) rfl rfl
  have hd5 : w.drop (s.offset + 1 + 4) = enc32 true 0 ++ rest := by
    have := drop_app_drop w (enc32 true 10) ((enc32 true 0 ++ []) ++ rest)
      (s.offset + 1) hd1
    rw [enc32_length] at this
    simpa [List.append_assoc] using this
  have h3 := int_step w
    { s with
      offset := s.offset + 1 + 4
      swap_bytes := false
      error := false
      lwtype := some LWType.curvepoly
      has_z := false
      has_m := false
      has_srid := false }
    true 0 rest (by simpa using hd5) rfl rfl
  simp only [lwgeom_from_wkb_state, ParserM.bind_apply, h1, getS_apply,
    modifyS_apply, setS_apply, perr_apply, ParserM.pure_apply, herr]
  simp only [lwtype_step_curvepoly, lwcurvepoly_from_wkb_state]
  simp [ParserM.bind_apply, getS_apply, modifyS_apply, setS_apply,
    perr_apply, ParserM.pure_apply, h2, h3, herr, lwtype_step_curvepoly]

/-- With call budget `F ≤ n`, decoding `n+1` nested single-ring curve
polygons exhausts the budget: a recursive call at depth `F + 1` is
entered, no matter how large the parse state's depth counter already
is. -/
theorem cpnest_stack (n : Nat) : ∀ (F : Nat) (w : List Nat) (s : PState)
    (rest : List Nat),
    w.drop s.offset = cpNestWkb n ++ rest →
    s.error = false →
    F ≤ n →
    lwgeom_from_wkb_state F w w.length s = .error .stackDepth := by
  induction n with
  | zero =>
    intro F w s rest hw herr hF
    obtain rfl : F = 0 := by omega
    rfl
  | succ n ih =>
    intro F w s rest hw herr hF
    cases F with
    | zero => rfl
    | succ F' =>
      rw [cpNestWkb_succ] at hw
      have h1 := byte_step w s 1
        (enc32 true 10 ++ (enc32 true 1 ++ cpNestWkb n) ++ rest)
        (by simpa [List.append_assoc] using hw) herr
      have hd1 : w.drop (s.offset + 1) =
          enc32 true 10 ++ ((enc32 true 1 ++ cpNestWkb n) ++ rest) := by
        have := drop_cons_drop w s.offset 1
          (enc32 true 10 ++ (enc32 true 1 ++ cpNestWkb n) ++ rest)
          (by simpa [List.append_assoc] using hw)
        simpa [List.append_assoc] using this
      have h2 := int_step w
        { s with
          offset := s.offset + 1
          swap_bytes := false
          error := false }
        true 10 ((enc32 true 1 ++ cpNestWkb n) ++ rest) (by simpa using hd1)
        rfl rfl
      have hd5 : w.drop (s.offset + 1 + 4) =
          enc32 true 1 ++ (cpNestWkb n ++ rest) := by
        have := drop_app_drop w (enc32 true 10)
          ((enc32 true 1 ++ cpNestWkb n) ++ rest) (s.offset + 1) hd1
        rw [enc32_length] at this
        simpa [List.append_assoc] using this
      have h3 := int_step w
        { s with
          offset := s.offset + 1 + 4
          swap_bytes := false
          error := false
          lwtype := some LWType.curvepoly
          has_z := false
          has_m := false
          has_srid := false }
        true 1 (cpNestWkb n ++ rest) (by simpa using hd5) rfl rfl
      have hd9 : w.drop (s.offset + 1 + 4 + 4) = cpNestWkb n ++ rest := by
        have := drop_app_drop w (enc32 true 1) (cpNestWkb n ++ rest)
          (s.offset + 1 + 4) hd5
        rwa [enc32_length] at this
      have hrec := ih F' w
        { s with
          offset := s.offset + 1 + 4 + 4
          swap_bytes := false
          error := false
          lwtype := some LWType.curvepoly
          has_z := false
          has_m := false
          has_srid := false }
        rest (by simpa using hd9) rfl (by omega)
      simp only [lwgeom_from_wkb_state, ParserM.bind_apply, h1, getS_apply,
        modifyS_apply, setS_apply, perr_apply, ParserM.pure_apply, herr]
      simp only [lwtype_step_curvepoly, lwcurvepoly_from_wkb_state,
        lwcurvepoly_rings]
      simp [ParserM.bind_apply, getS_apply, modifyS_apply, setS_apply,
        perr_apply, ParserM.pure_apply, h2, h3, herr, hrec,
        lwtype_step_curvepoly, lwcurvepoly_rings]

/-- With ample call budget, decoding `n+1 ≥ 2` nested single-ring curve
polygons recurses all the way to the innermost level (depth `n+1`) and
then fails because a curve polygon is not a legal ring kind — it never
raises the chained-collection depth error. -/
theorem cpnest_addgeom (n : Nat) : ∀ (F : Nat) (w : List Nat) (s : PState)
    (rest : List Nat),
    w.drop s.offset = cpNestWkb n ++ rest →
    s.error = false →
    1 ≤ n →
    n + 1 ≤ F →
    lwgeom_from_wkb_state F w w.length s = .error .addGeom := by
  induction n with
  | zero =>
    intro F w s rest hw herr hn hF
    omega
  | succ n ih =>
    intro F w s rest hw herr hn hF
    obtain ⟨F', rfl⟩ : ∃ F', F = F' + 1 := ⟨F - 1, by omega⟩
    rw [cpNestWkb_succ] at hw
    have h1 := byte_step w s 1
      (enc32 true 10 ++ (enc32 true 1 ++ cpNestWkb n) ++ rest)
      (by simpa [List.append_assoc] using hw) herr
    have hd1 : w.drop (s.offset + 1) =
        enc32 true 10 ++ ((enc32 true 1 ++ cpNestWkb n) ++ rest) := by
      have := drop_cons_drop w s.offset 1
        (enc32 true 10 ++ (enc32 true 1 ++ cpNestWkb n) ++ rest)
        (by simpa [List.append_assoc] using hw)
      simpa [List.append_assoc] using this
    have h2 := int_step w
      { s with
        offset := s.offset + 1
        swap_bytes := false
        error := false }
      true 10 ((enc32 true 1 ++ cpNestWkb n) ++ rest) (by simpa using hd1)
      rfl rfl
    have hd5 : w.drop (s.offset + 1 + 4) =
        enc32 true 1 ++ (cpNestWkb n ++ rest) := by
      have := drop_app_drop w (enc32 true 10)
        ((enc32 true 1 ++ cpNestWkb n) ++ rest) (s.offset + 1) hd1
      rw [enc32_length] at this
      simpa [List.append_assoc] using this
    have h3 := int_step w
      { s with
        offset := s.offset + 1 + 4
        swap_bytes := false
        error := false
        lwtype := some LWType.curvepoly
        has_z := false
        has_m := false
        has_srid := false }
      true 1 (cpNestWkb n ++ rest) (by simpa using hd5) rfl rfl
    have hd9 : w.drop (s.offset + 1 + 4 + 4) = cpNestWkb n ++ rest := by
      have := drop_app_drop w (enc32 true 1) (cpNestWkb n ++ rest)
        (s.offset + 1 + 4) hd5
      rwa [enc32_length] at this
    cases n with
    | zero =>
      have hrec := cpnest_ok0 F' w
        { s with
          offset := s.offset + 1 + 4 + 4
          swap_bytes := false
          error := false
          lwtype := some LWType.curvepoly
          has_z := false
          has_m := false
          has_srid := false }
        rest (by simpa using hd9) rfl (by omega)
      simp only [lwgeom_from_wkb_state, ParserM.bind_apply, h1, getS_apply,
        modifyS_apply, setS_apply, perr_apply, ParserM.pure_apply, herr]
      simp only [lwtype_step_curvepoly, lwcurvepoly_from_wkb_state,
        lwcurvepoly_rings]
      simp [ParserM.bind_apply, getS_apply, modifyS_apply, setS_apply,
        perr_apply, ParserM.pure_apply, h2, h3, herr, hrec,
        lwtype_step_curvepoly, lwcurvepoly_rings, curvepolyRingOk,
        Geom.lwtype]
    | succ m =>
      have hrec := ih F' w
        { s with
          offset := s.offset + 1 + 4 + 4
          swap_bytes := false
          error := false
          lwtype := some LWType.curvepoly
          has_z := false
          has_m := false
          has_srid := false }
        rest (by simpa using hd9) rfl (by omega) (by omega)
      simp only [lwgeom_from_wkb_state, ParserM.bind_apply, h1, getS_apply,
        modifyS_apply, setS_apply, perr_apply, ParserM.pure_apply, herr]
      simp only [lwtype_step_curvepoly, lwcurvepoly_from_wkb_state,
        lwcurvepoly_rings]
      simp [ParserM.bind_apply, getS_apply, modifyS_apply, setS_apply,
        perr_apply, ParserM.pure_apply, h2, h3, herr, hrec,
        lwtype_step_curvepoly, lwcurvepoly_rings]

/-- **C2, counterexample.**  221 levels of nested single-ring curve
polygons: with a call budget of 199, the decoder exhausts the budget
(a recursive call at depth 200 is entered through CurvePolygon rings),
and with an ample budget it recurses to the innermost level and fails
with the ring-attachment error, never with the depth-cap error — so
CurvePolygon ring recursion is not capped at 200. -/
theorem C2_counterexample :
    lwgeom_from_wkb (cpNestWkb 220) (cpNestWkb 220).length 0 199 =
      .error .stackDepth ∧
    lwgeom_from_wkb (cpNestWkb 220) (cpNestWkb 220).length 0 1000 =
      .error .addGeom := by
  have hne : (cpNestWkb 220).length ≠ 0 := by simp [cpNestWkb_length]
  constructor
  · have h := cpnest_stack 220 199 (cpNestWkb 220) (initState 0) []
      (by simp [initState]) rfl (by omega)
    rw [lwgeom_from_wkb, if_neg hne, h]
  · have h := cpnest_addgeom 220 1000 (cpNestWkb 220) (initState 0) []
      (by simp [initState]) rfl (by omega) (by omega)
    rw [lwgeom_from_wkb, if_neg hne, h]

/-- **C2 (amended).**  The 200 depth cap governs only collection-class
children; recursion through CurvePolygon ring sub-geometries is not
depth-capped: for every `n ≥ 1`, decoding `n+1` nested single-ring
curve polygons enters recursive calls up to depth `n+1` (any call
budget `F ≤ n` is exhausted), and with a budget above `n` the parse
reaches the innermost level and fails on the ring kind — for no budget
does it raise the "too many chained collections" depth error. -/
theorem C2_curvepoly_depth_uncapped (n F : Nat) (hn : 1 ≤ n) :
    (F ≤ n →
      lwgeom_from_wkb (cpNestWkb n) (cpNestWkb n).length 0 F =
        .error .stackDepth) ∧
    (n < F →
      lwgeom_from_wkb (cpNestWkb n) (cpNestWkb n).length 0 F =
        .error .addGeom) := by
  have hne : (cpNestWkb n).length ≠ 0 := by simp [cpNestWkb_length]
  constructor
  · intro hF
    have h := cpnest_stack n F (cpNestWkb n) (initState 0) []
      (by simp [initState]) rfl hF
    rw [lwgeom_from_wkb, if_neg hne, h]
  · intro hF
    have h := cpnest_addgeom n F (cpNestWkb n) (initState 0) []
      (by simp [initState]) rfl hn (by omega)
    rw [lwgeom_from_wkb, if_neg hne, h]

/-- Witness for the amended C2 at a nesting depth well past the cap. -/
theorem C2_curvepoly_depth_uncapped_witness :
    lwgeom_from_wkb (cpNestWkb 250) (cpNestWkb 250).length 0 199 =
      .error .stackDepth ∧
    lwgeom_from_wkb (cpNestWkb 250) (cpNestWkb 250).length 0 251 =
      .error .addGeom :=
  ⟨(C2_curvepoly_depth_uncapped 250 199 (by omega)).1 (by omega),
   (C2_curvepoly_depth_uncapped 250 251 (by omega)).2 (by omega)⟩

/-! ## Point-array decode lemmas (MINPOINTS claim) -/

theorem maxpoints_eq : maxpoints = 134217727 := rfl

theorem flatten_enc_length (ds : List Nat) :
    ((ds.map (enc64 true)).flatten).length = 8 * ds.length := by
  induction ds with
  | nil => rfl
  | cons d t ih =>
    simp [enc64_length, ih]
    ring

theorem flatten_pts_length (pts : List (List Nat))
    (h : ∀ p ∈ pts, p.length = 2) : pts.flatten.length = pts.length * 2 := by
  induction pts with
  | nil => rfl
  | cons p t ih =>
    simp only [List.flatten_cons, List.length_append, List.length_cons]
    rw [h p (by simp), ih (fun q hq => h q (by simp [hq]))]
    ring

theorem ptsBody_length (pts : List (List Nat))
    (h : ∀ p ∈ pts, p.length = 2) :
    (ptsBody pts).length = 4 + 16 * pts.length := by
  rw [ptsBody, List.length_append, enc32_length, flatten_enc_length,
    flatten_pts_length pts h]
  ring

theorem chunkPts_flatten (d : Nat) (pts : List (List Nat))
    (h : ∀ p ∈ pts, p.length = d) :
    chunkPts d pts.length pts.flatten = pts := by
  induction pts with
  | nil => rfl
  | cons p t ih =>
    have hp : p.length = d := h p (by simp)
    subst hp
    simp only [List.length_cons, chunkPts, List.flatten_cons]
    rw [List.take_left, List.drop_left,
      ih (fun q hq => h q (by simp [hq]))]

theorem flatten_mod_id (pts : List (List Nat))
    (h : ∀ p ∈ pts, ∀ c ∈ p, c < 2 ^ 64) :
    pts.flatten.map (· % 2 ^ 64) = pts.flatten := by
  have hall : ∀ c ∈ pts.flatten, c % 2 ^ 64 = c := by
    intro c hc
    rcases List.mem_flatten.1 hc with ⟨p, hp, hcp⟩
    exact Nat.mod_eq_of_lt (h p hp c hcp)
  calc pts.flatten.map (· % 2 ^ 64) = pts.flatten.map id :=
        List.map_congr_left hall
    _ = pts.flatten := List.map_id _

/-- `ptarray_from_wkb_state` over a little-endian encoded 2-D point
array: returns exactly the encoded tuples and advances the cursor past
the whole body. -/
theorem ptarray_2d_step (w : List Nat) (s : PState) (pts : List (List Nat))
    (rest : List Nat)
    (hw : w.drop s.offset = ptsBody pts ++ rest)
    (herr : s.error = false) (hz : s.has_z = false) (hm : s.has_m = false)
    (hswap : s.swap_bytes = false)
    (hp2 : ∀ p ∈ pts, p.length = 2)
    (hpv : ∀ p ∈ pts, ∀ c ∈ p, c < 2 ^ 64)
    (hn : pts.length ≤ maxpoints) :
    ptarray_from_wkb_state w w.length s =
      .ok (some ⟨false, false, pts⟩,
        { s with offset := s.offset + (4 + 16 * pts.length) }) := by
  have hklt : pts.length < 2 ^ 32 := by
    rw [maxpoints_eq] at hn
    omega
  have hwu : w.drop s.offset = enc32 true pts.length ++
      ((pts.flatten.map (enc64 true)).flatten ++ rest) := by
    simpa [ptsBody, List.append_assoc] using hw
  have h1 := int_step w s true pts.length
    ((pts.flatten.map (enc64 true)).flatten ++ rest) hwu herr
    (by simp [hswap])
  rw [Nat.mod_eq_of_lt hklt] at h1
  have hd4 : w.drop (s.offset + 4) =
      (pts.flatten.map (enc64 true)).flatten ++ rest := by
    have := drop_app_drop w (enc32 true pts.length)
      ((pts.flatten.map (enc64 true)).flatten ++ rest) s.offset hwu
    rwa [enc32_length] at this
  have hnmax : ¬ (pts.length > maxpoints) := Nat.not_lt.2 hn
  by_cases hk0 : pts.length = 0
  · have hpts : pts = [] := List.length_eq_zero.1 hk0
    subst hpts
    simp [ptarray_from_wkb_state, ParserM.bind_apply, h1, getS_apply,
      setS_apply, perr_apply, ParserM.pure_apply, herr, hz, hm,
      ptarray_construct, hnmax]
  · have hbound : s.offset + (4 + 16 * pts.length) ≤ w.length := by
      have hne : ptsBody pts ≠ [] := by
        intro hc
        have := congrArg List.length hc
        rw [ptsBody_length pts hp2] at this
        simp at this
      have := drop_app_bound w (ptsBody pts) rest s.offset hw hne
      rwa [ptsBody_length pts hp2] at this
    have hnb : ¬ (s.offset + 4 + pts.length * 2 * 8 > w.length) := by
      omega
    have hcopy := copy_doubles_step w w.length
      { s with
        offset := s.offset + 4
        swap_bytes := false
        has_z := false
        has_m := false
        error := false }
      pts.flatten rest (s.offset + 4) hd4
    rw [flatten_pts_length pts hp2, flatten_mod_id pts hpv] at hcopy
    simp [ptarray_from_wkb_state, ParserM.bind_apply, h1, getS_apply,
      setS_apply, perr_apply, ParserM.pure_apply, wkb_parse_state_check,
      getWkbSize_apply, herr, hz, hm, hswap, hk0, hnmax, hnb, hcopy,
      WKB_DOUBLE_SIZE, chunkPts_flatten 2 pts hp2]
    omega

theorem lwtype_step_line (w : List Nat) (N : Nat) (s : PState) :
    lwtype_from_wkb_state 2 w N s =
      .ok ((),
        { s with
          has_z := false
          has_m := false
          has_srid := false
          lwtype := some LWType.line }) := rfl

theorem lwtype_step_circstring (w : List Nat) (N : Nat) (s : PState) :
    lwtype_from_wkb_state 8 w N s =
      .ok ((),
        { s with
          has_z := false
          has_m := false
          has_srid := false
          lwtype := some LWType.circstring }) := rfl

theorem lwtype_step_polygon (w : List Nat) (N : Nat) (s : PState) :
    lwtype_from_wkb_state 3 w N s =
      .ok ((),
        { s with
          has_z := false
          has_m := false
          has_srid := false
          lwtype := some LWType.polygon }) := rfl

/-- Full decode of a little-endian 2-D LineString WKB under the
MINPOINTS check: a non-empty point array succeeds iff it has at least
2 points, and otherwise fails fatally. -/
theorem line_decode (pts : List (List Nat)) (F : Nat)
    (hp2 : ∀ p ∈ pts, p.length = 2)
    (hpv : ∀ p ∈ pts, ∀ c ∈ p, c < 2 ^ 64)
    (hn : pts.length ≤ maxpoints)
    (hk : 1 ≤ pts.length) :
    lwgeom_from_wkb (lineWkb pts) (lineWkb pts).length
        LW_PARSER_CHECK_MINPOINTS (F + 1) =
      if 2 ≤ pts.length then
        .ok (some (.line SRID_UNKNOWN ⟨false, false, pts⟩))
      else .error .minPoints := by
  set w : List Nat := lineWkb pts with hwdef
  have hlen : w.length ≠ 0 := by simp [hwdef, lineWkb]
  have h1 := byte_step w (initState 1) 1 (enc32 true 2 ++ ptsBody pts)
    (by simp [hwdef, lineWkb, initState]) rfl
  have h1' : byte_from_wkb_state w w.length (initState 1) =
      .ok (1, ⟨SRID_UNKNOWN, false, 1, none, false, false, false, false, 1, 1⟩) := by
    simpa [initState] using h1
  have hdrop1 : w.drop 1 = enc32 true 2 ++ ptsBody pts := by
    simp [hwdef, lineWkb]
  have h2 := int_step w
    ⟨SRID_UNKNOWN, false, 1, none, false, false, false, false, 1, 1⟩
    true 2 (ptsBody pts) (by simpa using hdrop1) rfl rfl
  have h2' : integer_from_wkb_state w w.length
      ⟨SRID_UNKNOWN, false, 1, none, false, false, false, false, 1, 1⟩ =
      .ok (2, ⟨SRID_UNKNOWN, false, 1, none, false, false, false, false, 1, 5⟩) := by
    simpa using h2
  have h3 : lwtype_from_wkb_state 2 w w.length
      ⟨SRID_UNKNOWN, false, 1, none, false, false, false, false, 1, 5⟩ =
      .ok ((), ⟨SRID_UNKNOWN, false, 1, some .line, false, false, false, false, 1, 5⟩) := rfl
  have hdrop5 : w.drop 5 = ptsBody pts ++ [] := by
    have := drop_app_drop w (enc32 true 2) (ptsBody pts) 1 hdrop1
    rw [enc32_length] at this
    simpa using this
  have h4 := ptarray_2d_step w
    ⟨SRID_UNKNOWN, false, 1, some .line, false, false, false, false, 1, 5⟩
    pts [] hdrop5 rfl rfl rfl rfl hp2 hpv hn
  have hk0 : pts.length ≠ 0 := by omega
  have hknil : pts ≠ [] := fun hc => hk0 (by simp [hc])
  by_cases h2p : 2 ≤ pts.length
  · rw [if_pos h2p]
    simp [lwgeom_from_wkb, hlen, lwgeom_from_wkb_state, ParserM.bind_apply,
      h1', h2', h3, h4, getS_apply, modifyS_apply, setS_apply, perr_apply,
      ParserM.pure_apply, lwline_from_wkb_state, PtArray.npoints,
      LW_PARSER_CHECK_MINPOINTS, Nat.not_lt.2 h2p, hk0, hknil]
  · rw [if_neg h2p]
    have hlt : pts.length < 2 := by omega
    simp [lwgeom_from_wkb, hlen, lwgeom_from_wkb_state, ParserM.bind_apply,
      h1', h2', h3, h4, getS_apply, modifyS_apply, setS_apply, perr_apply,
      ParserM.pure_apply, lwline_from_wkb_state, PtArray.npoints,
      LW_PARSER_CHECK_MINPOINTS, hk0, hknil, hlt]

/-- Full decode of a little-endian 2-D CircularString WKB under the
MINPOINTS check: a non-empty point array succeeds iff it has at least
3 points; with fewer it returns no geometry (a bare `NULL`, no
`lwerror`). -/
theorem circ_decode (pts : List (List Nat)) (F : Nat)
    (hp2 : ∀ p ∈ pts, p.length = 2)
    (hpv : ∀ p ∈ pts, ∀ c ∈ p, c < 2 ^ 64)
    (hn : pts.length ≤ maxpoints)
    (hk : 1 ≤ pts.length) :
    lwgeom_from_wkb (circWkb pts) (circWkb pts).length
        LW_PARSER_CHECK_MINPOINTS (F + 1) =
      if 3 ≤ pts.length then
        .ok (some (.circstring SRID_UNKNOWN ⟨false, false, pts⟩))
      else .ok none := by
  set w : List Nat := circWkb pts with hwdef
  have hlen : w.length ≠ 0 := by simp [hwdef, circWkb]
  have h1 := byte_step w (initState 1) 1 (enc32 true 8 ++ ptsBody pts)
    (by simp [hwdef, circWkb, initState]) rfl
  have h1' : byte_from_wkb_state w w.length (initState 1) =
      .ok (1, ⟨SRID_UNKNOWN, false, 1, none, false, false, false, false, 1, 1⟩) := by
    simpa [initState] using h1
  have hdrop1 : w.drop 1 = enc32 true 8 ++ ptsBody pts := by
    simp [hwdef, circWkb]
  have h2 := int_step w
    ⟨SRID_UNKNOWN, false, 1, none, false, false, false, false, 1, 1⟩
    true 8 (ptsBody pts) (by simpa using hdrop1) rfl rfl
  have h2' : integer_from_wkb_state w w.length
      ⟨SRID_UNKNOWN, false, 1, none, false, false, false, false, 1, 1⟩ =
      .ok (8, ⟨SRID_UNKNOWN, false, 1, none, false, false, false, false, 1, 5⟩) := by
    simpa using h2
  have h3 : lwtype_from_wkb_state 8 w w.length
      ⟨SRID_UNKNOWN, false, 1, none, false, false, false, false, 1, 5⟩ =
      .ok ((), ⟨SRID_UNKNOWN, false, 1, some .circstring, false, false, false, false, 1, 5⟩) := rfl
  have hdrop5 : w.drop 5 = ptsBody pts ++ [] := by
    have := drop_app_drop w (enc32 true 8) (ptsBody pts) 1 hdrop1
    rw [enc32_length] at this
    simpa using this
  have h4 := ptarray_2d_step w
    ⟨SRID_UNKNOWN, false, 1, some .circstring, false, false, false, false, 1, 5⟩
    pts [] hdrop5 rfl rfl rfl rfl hp2 hpv hn
  have hk0 : pts.length ≠ 0 := by omega
  have hknil : pts ≠ [] := fun hc => hk0 (by simp [hc])
  by_cases h3p : 3 ≤ pts.length
  · rw [if_pos h3p]
    simp [lwgeom_from_wkb, hlen, lwgeom_from_wkb_state, ParserM.bind_apply,
      h1', h2', h3, h4, getS_apply, modifyS_apply, setS_apply, perr_apply,
      ParserM.pure_apply, lwcircstring_from_wkb_state, PtArray.npoints,
      LW_PARSER_CHECK_MINPOINTS, LW_PARSER_CHECK_ODD, Nat.not_lt.2 h3p, hk0, hknil]
  · rw [if_neg h3p]
    have hlt : pts.length < 3 := by omega
    simp [lwgeom_from_wkb, hlen, lwgeom_from_wkb_state, ParserM.bind_apply,
      h1', h2', h3, h4, getS_apply, modifyS_apply, setS_apply, perr_apply,
      ParserM.pure_apply, lwcircstring_from_wkb_state, PtArray.npoints,
      LW_PARSER_CHECK_MINPOINTS, LW_PARSER_CHECK_ODD, hk0, hknil, hlt]

/-- The ring loop of `lwpoly_from_wkb_state` over encoded 2-D rings
under the MINPOINTS check (check word `1`): it succeeds with exactly
the encoded rings iff every ring has at least 4 points, and otherwise
fails fatally at the first offending ring. -/
theorem lwpoly_rings_step (rings : List (List (List Nat))) :
    ∀ (w : List Nat) (s : PState) (acc : List PtArray) (rest : List Nat),
    w.drop s.offset = (rings.map ptsBody).flatten ++ rest →
    s.error = false → s.has_z = false → s.has_m = false →
    s.swap_bytes = false → s.check = 1 →
    (∀ r ∈ rings, ∀ p ∈ r, p.length = 2) →
    (∀ r ∈ rings, ∀ p ∈ r, ∀ c ∈ p, c < 2 ^ 64) →
    (∀ r ∈ rings, r.length ≤ maxpoints) →
    lwpoly_rings rings.length acc w w.length s =
      if ∀ r ∈ rings, 4 ≤ r.length then
        .ok (some (acc ++ rings.map fun r => (⟨false, false, r⟩ : PtArray)),
          { s with offset := s.offset + ((rings.map ptsBody).flatten).length })
      else .error .minPoints := by
  induction rings with
  | nil =>
    intro w s acc rest hw herr hz hm hswap hchk hr2 hrv hrn
    simp [lwpoly_rings, ParserM.pure_apply]
  | cons r rs ih =>
    intro w s acc rest hw herr hz hm hswap hchk hr2 hrv hrn
    have hw1 : w.drop s.offset = ptsBody r ++ ((rs.map ptsBody).flatten ++ rest) := by
      simpa [List.append_assoc] using hw
    have hpa := ptarray_2d_step w s r ((rs.map ptsBody).flatten ++ rest) hw1
      herr hz hm hswap (hr2 r (by simp)) (hrv r (by simp)) (hrn r (by simp))
    have hdnext : w.drop (s.offset + (4 + 16 * r.length)) =
        (rs.map ptsBody).flatten ++ rest := by
      have := drop_app_drop w (ptsBody r) ((rs.map ptsBody).flatten ++ rest)
        s.offset hw1
      rwa [ptsBody_length r (hr2 r (by simp))] at this
    by_cases hr4 : 4 ≤ r.length
    · have hrec := ih w
        { s with
          offset := s.offset + (4 + 16 * r.length)
          has_z := false
          has_m := false
          swap_bytes := false
          error := false
          check := 1 }
        (acc ++ [(⟨false, false, r⟩ : PtArray)]) rest (by simpa using hdnext)
        rfl rfl rfl rfl rfl
        (fun q hq => hr2 q (by simp [hq]))
        (fun q hq => hrv q (by simp [hq]))
        (fun q hq => hrn q (by simp [hq]))
      by_cases hall : ∀ q ∈ rs, 4 ≤ q.length
      · rw [if_pos (by
          intro q hq
          rcases List.mem_cons.1 hq with h | h
          · subst h; exact hr4
          · exact hall q h)]
        rw [if_pos hall] at hrec
        simp only [List.length_cons, lwpoly_rings, ParserM.bind_apply, hpa,
          getS_apply, perr_apply, ParserM.pure_apply]
        simp [lwpoly_rings, ParserM.bind_apply, getS_apply, perr_apply,
          ParserM.pure_apply, hrec, hchk, herr, hz, hm, hswap,
          LW_PARSER_CHECK_MINPOINTS, LW_PARSER_CHECK_CLOSURE,
          PtArray.npoints, Nat.not_lt.2 hr4,
          ptsBody_length r (hr2 r (by simp))] <;> omega
      · rw [if_neg (by
          intro hc
          exact hall fun q hq => hc q (by simp [hq]))]
        rw [if_neg hall] at hrec
        simp only [List.length_cons, lwpoly_rings, ParserM.bind_apply, hpa,
          getS_apply, perr_apply, ParserM.pure_apply]
        simp [lwpoly_rings, ParserM.bind_apply, getS_apply, perr_apply,
          ParserM.pure_apply, hrec, hchk, herr, hz, hm, hswap,
          LW_PARSER_CHECK_MINPOINTS, LW_PARSER_CHECK_CLOSURE,
          PtArray.npoints, Nat.not_lt.2 hr4]
    · rw [if_neg (by
        intro hc
        exact hr4 (hc r (by simp)))]
      have hlt : r.length < 4 := by omega
      simp only [List.length_cons, lwpoly_rings, ParserM.bind_apply, hpa,
        getS_apply, perr_apply, ParserM.pure_apply]
      simp [lwpoly_rings, ParserM.bind_apply, getS_apply, perr_apply,
        ParserM.pure_apply, hchk, herr, hz, hm, hswap,
        LW_PARSER_CHECK_MINPOINTS, PtArray.npoints, hlt]

/-- Full decode of a little-endian 2-D Polygon WKB under the MINPOINTS
check: succeeds with the encoded rings iff every ring has at least 4
points (an empty polygon succeeds vacuously); otherwise fails
fatally. -/
theorem poly_decode (rings : List (List (List Nat))) (F : Nat)
    (hr2 : ∀ r ∈ rings, ∀ p ∈ r, p.length = 2)
    (hrv : ∀ r ∈ rings, ∀ p ∈ r, ∀ c ∈ p, c < 2 ^ 64)
    (hrn : ∀ r ∈ rings, r.length ≤ maxpoints)
    (hrlen : rings.length < 2 ^ 32) :
    lwgeom_from_wkb (polyWkb rings) (polyWkb rings).length
        LW_PARSER_CHECK_MINPOINTS (F + 1) =
      if ∀ r ∈ rings, 4 ≤ r.length then
        .ok (some (.poly SRID_UNKNOWN false false
          (rings.map fun r => (⟨false, false, r⟩ : PtArray))))
      else .error .minPoints := by
  set w : List Nat := polyWkb rings with hwdef
  have hlen : w.length ≠ 0 := by simp [hwdef, polyWkb]
  have h1 := byte_step w (initState 1) 1
    (enc32 true 3 ++ (enc32 true rings.length ++ (rings.map ptsBody).flatten))
    (by simp [hwdef, polyWkb, initState]) rfl
  have h1' : byte_from_wkb_state w w.length (initState 1) =
      .ok (1, ⟨SRID_UNKNOWN, false, 1, none, false, false, false, false, 1, 1⟩) := by
    simpa [initState] using h1
  have hdrop1 : w.drop 1 =
      enc32 true 3 ++ (enc32 true rings.length ++ (rings.map ptsBody).flatten) := by
    simp [hwdef, polyWkb]
  have h2 := int_step w
    ⟨SRID_UNKNOWN, false, 1, none, false, false, false, false, 1, 1⟩
    true 3 (enc32 true rings.length ++ (rings.map ptsBody).flatten)
    (by simpa using hdrop1) rfl rfl
  have h2' : integer_from_wkb_state w w.length
      ⟨SRID_UNKNOWN, false, 1, none, false, false, false, false, 1, 1⟩ =
      .ok (3, ⟨SRID_UNKNOWN, false, 1, none, false, false, false, false, 1, 5⟩) := by
    simpa using h2
  have h3 : lwtype_from_wkb_state 3 w w.length
      ⟨SRID_UNKNOWN, false, 1, none, false, false, false, false, 1, 5⟩ =
      .ok ((), ⟨SRID_UNKNOWN, false, 1, some .polygon, false, false, false, false, 1, 5⟩) := rfl
  have hdrop5 : w.drop 5 =
      enc32 true rings.length ++ ((rings.map ptsBody).flatten ++ []) := by
    have := drop_app_drop w (enc32 true 3)
      (enc32 true rings.length ++ (rings.map ptsBody).flatten) 1 hdrop1
    rw [enc32_length] at this
    simpa [List.append_assoc] using this
  have h4 := int_step w
    ⟨SRID_UNKNOWN, false, 1, some .polygon, false, false, false, false, 1, 5⟩
    true rings.length ((rings.map ptsBody).flatten ++ [])
    (by simpa using hdrop5) rfl rfl
  rw [Nat.mod_eq_of_lt hrlen] at h4
  have hdrop9 : w.drop 9 = (rings.map ptsBody).flatten ++ [] := by
    have := drop_app_drop w (enc32 true rings.length)
      ((rings.map ptsBody).flatten ++ []) 5 hdrop5
    rw [enc32_length] at this
    simpa using this
  by_cases hr0 : rings = []
  · subst hr0
    simp [lwgeom_from_wkb, hlen, lwgeom_from_wkb_state, ParserM.bind_apply,
      h1', h2', h3, h4, getS_apply, modifyS_apply, setS_apply, perr_apply,
      ParserM.pure_apply, lwpoly_from_wkb_state, LW_PARSER_CHECK_MINPOINTS]
  · have hrne : rings.length ≠ 0 := fun hc => hr0 (List.length_eq_zero.1 hc)
    have hrings := lwpoly_rings_step rings w
      ⟨SRID_UNKNOWN, false, 1, some .polygon, false, false, false, false, 1, 9⟩
      [] [] (by simpa using hdrop9) rfl rfl rfl rfl rfl hr2 hrv hrn
    by_cases hall : ∀ r ∈ rings, 4 ≤ r.length
    · rw [if_pos hall]
      rw [if_pos hall] at hrings
      simp [lwgeom_from_wkb, hlen, lwgeom_from_wkb_state, ParserM.bind_apply,
        h1', h2', h3, h4, getS_apply, modifyS_apply, setS_apply, perr_apply,
        ParserM.pure_apply, lwpoly_from_wkb_state, hrne, hrings,
        LW_PARSER_CHECK_MINPOINTS]
    · rw [if_neg hall]
      rw [if_neg hall] at hrings
      simp [lwgeom_from_wkb, hlen, lwgeom_from_wkb_state, ParserM.bind_apply,
        h1', h2', h3, h4, getS_apply, modifyS_apply, setS_apply, perr_apply,
        ParserM.pure_apply, lwpoly_from_wkb_state, hrne, hrings,
        LW_PARSER_CHECK_MINPOINTS]

/-- **C6, counterexample.**  A non-empty CircularString with exactly 2
points decoded under the MINPOINTS check does not succeed: the decoder
returns no geometry (lwin_wkb.cpp:495-497 requires at least 3 points),
refuting the claimed 2-point minimum for CircularStrings. -/
theorem C6_counterexample :
    lwgeom_from_wkb (circWkb [[0, 0], [0, 0]]) (circWkb [[0, 0], [0, 0]]).length
      LW_PARSER_CHECK_MINPOINTS 1 = .ok none := by
  have h := circ_decode [[0, 0], [0, 0]] 0 (by decide) (by decide) (by decide)
    (by decide)
  simpa using h

/-- **C6 (amended).**  Under the MINPOINTS structural check, decoding a
non-empty 2-D Line succeeds iff its point array has at least 2 points
(one point is a fatal error); decoding a non-empty 2-D CircularString
succeeds iff it has at least 3 points (with 1 or 2 points the decoder
returns no geometry, without a fatal error); and decoding a Polygon
succeeds iff every ring has at least 4 points (otherwise a fatal
error). -/
theorem C6_minpoints_amended (pts : List (List Nat))
    (rings : List (List (List Nat))) (F : Nat)
    (hp2 : ∀ p ∈ pts, p.length = 2)
    (hpv : ∀ p ∈ pts, ∀ c ∈ p, c < 2 ^ 64)
    (hn : pts.length ≤ maxpoints)
    (hk : 1 ≤ pts.length)
    (hr2 : ∀ r ∈ rings, ∀ p ∈ r, p.length = 2)
    (hrv : ∀ r ∈ rings, ∀ p ∈ r, ∀ c ∈ p, c < 2 ^ 64)
    (hrn : ∀ r ∈ rings, r.length ≤ maxpoints)
    (hrlen : rings.length < 2 ^ 32) :
    (2 ≤ pts.length →
      lwgeom_from_wkb (lineWkb pts) (lineWkb pts).length
          LW_PARSER_CHECK_MINPOINTS (F + 1) =
        .ok (some (.line SRID_UNKNOWN ⟨false, false, pts⟩))) ∧
    (pts.length = 1 →
      lwgeom_from_wkb (lineWkb pts) (lineWkb pts).length
          LW_PARSER_CHECK_MINPOINTS (F + 1) = .error .minPoints) ∧
    (3 ≤ pts.length →
      lwgeom_from_wkb (circWkb pts) (circWkb pts).length
          LW_PARSER_CHECK_MINPOINTS (F + 1) =
        .ok (some (.circstring SRID_UNKNOWN ⟨false, false, pts⟩))) ∧
    (pts.length < 3 →
      lwgeom_from_wkb (circWkb pts) (circWkb pts).length
          LW_PARSER_CHECK_MINPOINTS (F + 1) = .ok none) ∧
    ((∀ r ∈ rings, 4 ≤ r.length) →
      lwgeom_from_wkb (polyWkb rings) (polyWkb rings).length
          LW_PARSER_CHECK_MINPOINTS (F + 1) =
        .ok (some (.poly SRID_UNKNOWN false false
          (rings.map fun r => (⟨false, false, r⟩ : PtArray))))) ∧
    (¬ (∀ r ∈ rings, 4 ≤ r.length) →
      lwgeom_from_wkb (polyWkb rings) (polyWkb rings).length
          LW_PARSER_CHECK_MINPOINTS (F + 1) = .error .minPoints) := by
  refine ⟨?_, ?_, ?_, ?_, ?_, ?_⟩
  · intro h
    rw [line_decode pts F hp2 hpv hn hk, if_pos h]
  · intro h
    rw [line_decode pts F hp2 hpv hn hk, if_neg (by omega)]
  · intro h
    rw [circ_decode pts F hp2 hpv hn hk, if_pos h]
  · intro h
    rw [circ_decode pts F hp2 hpv hn hk, if_neg (by omega)]
  · intro h
    rw [poly_decode rings F hr2 hrv hrn hrlen, if_pos h]
  · intro h
    rw [poly_decode rings F hr2 hrv hrn hrlen, if_neg h]

/-- Witness for the amended C6 at concrete inputs: a 2-point line
succeeds, a 1-point line is a fatal error, a 3-point circular string
succeeds, a 1-point circular string yields no geometry, a polygon with
one 4-point ring succeeds, and a polygon with a 1-point ring is a
fatal error. -/
theorem C6_minpoints_amended_witness :
    (lwgeom_from_wkb (lineWkb [[0, 0], [0, 0]])
        (lineWkb [[0, 0], [0, 0]]).length LW_PARSER_CHECK_MINPOINTS 1 =
      .ok (some (.line SRID_UNKNOWN ⟨false, false, [[0, 0], [0, 0]]⟩))) ∧
    (lwgeom_from_wkb (lineWkb [[0, 0]])
        (lineWkb [[0, 0]]).length LW_PARSER_CHECK_MINPOINTS 1 =
      .error .minPoints) ∧
    (lwgeom_from_wkb (circWkb [[0, 0], [0, 0], [0, 0]])
        (circWkb [[0, 0], [0, 0], [0, 0]]).length LW_PARSER_CHECK_MINPOINTS 1 =
      .ok (some (.circstring SRID_UNKNOWN ⟨false, false, [[0, 0], [0, 0], [0, 0]]⟩))) ∧
    (lwgeom_from_wkb (circWkb [[5, 5]])
        (circWkb [[5, 5]]).length LW_PARSER_CHECK_MINPOINTS 1 = .ok none) ∧
    (lwgeom_from_wkb (polyWkb [[[0, 0], [0, 0], [0, 0], [0, 0]]])
        (polyWkb [[[0, 0], [0, 0], [0, 0], [0, 0]]]).length
        LW_PARSER_CHECK_MINPOINTS 1 =
      .ok (some (.poly SRID_UNKNOWN false false
        [⟨false, false, [[0, 0], [0, 0], [0, 0], [0, 0]]⟩]))) ∧
    (lwgeom_from_wkb (polyWkb [[[0, 0]]])
        (polyWkb [[[0, 0]]]).length LW_PARSER_CHECK_MINPOINTS 1 =
      .error .minPoints) := by
  refine ⟨?_, ?_, ?_, ?_, ?_, ?_⟩
  · exact (C6_minpoints_amended [[0, 0], [0, 0]] [] 0 (by decide) (by decide)
      (by decide) (by decide) (by decide) (by decide) (by decide)
      (by decide)).1 (by decide)
  · exact (C6_minpoints_amended [[0, 0]] [] 0 (by decide) (by decide)
      (by decide) (by decide) (by decide) (by decide) (by decide)
      (by decide)).2.1 (by decide)
  · exact (C6_minpoints_amended [[0, 0], [0, 0], [0, 0]] [] 0 (by decide)
      (by decide) (by decide) (by decide) (by decide) (by decide) (by decide)
      (by decide)).2.2.1 (by decide)
  · exact (C6_minpoints_amended [[5, 5]] [] 0 (by decide) (by decide)
      (by decide) (by decide) (by decide) (by decide) (by decide)
      (by decide)).2.2.2.1 (by decide)
  · have h := (C6_minpoints_amended [[0, 0]]
      [[[0, 0], [0, 0], [0, 0], [0, 0]]] 0 (by decide) (by decide)
      (by decide) (by decide) (by decide) (by decide) (by decide)
      (by decide)).2.2.2.2.1 (by decide)
    simpa using h
  · exact (C6_minpoints_amended [[0, 0]] [[[0, 0]]] 0 (by decide) (by decide)
      (by decide) (by decide) (by decide) (by decide) (by decide)
      (by decide)).2.2.2.2.2 (by decide)

/-! ## Read-span lemmas: generic infrastructure -/

theorem agree_mono {w w' : List Nat} {lo hi lo' hi' : Nat}
    (h : Agree w w' lo hi) (hlo : lo ≤ lo') (hhi : hi' ≤ hi) :
    Agree w w' lo' hi' :=
  fun i h1 h2 => h i (le_trans hlo h1) (lt_of_lt_of_le h2 hhi)

theorem agree_take (w : List Nat) (k : Nat) : Agree w (w.take k) 0 k := by
  intro i _ h2
  simp [List.get?_eq_getElem?, List.getElem?_take, h2]

theorem agree_of_take (w : List Nat) (k : Nat) : Agree (w.take k) w 0 k := by
  intro i _ h2
  simp [List.get?_eq_getElem?, List.getElem?_take, h2]

theorem getS_bind {α : Type} (f : PState → ParserM α) (w : List Nat)
    (N : Nat) (s : PState) : (getS >>= f) w N s = f s w N s := rfl

theorem modifyS_bind {α : Type} (g : PState → PState) (f : Unit → ParserM α)
    (w : List Nat) (N : Nat) (s : PState) :
    (modifyS g >>= f) w N s = f () w N (g s) := rfl

theorem setS_bind {α : Type} (t : PState) (f : Unit → ParserM α)
    (w : List Nat) (N : Nat) (s : PState) :
    (setS t >>= f) w N s = f () w N t := rfl

theorem check_bind {α : Type} (c : Nat) (f : Unit → ParserM α) (w : List Nat)
    (N : Nat) (s : PState) :
    (wkb_parse_state_check c >>= f) w N s =
      if s.offset + c > N then .error .expectedSize else f () w N s := by
  by_cases h : s.offset + c > N <;>
    simp [wkb_parse_state_check, ParserM.bind_apply, getS_apply,
      getWkbSize_apply, perr_apply, ParserM.pure_apply, h]

theorem bind_ok {α β : Type} {m : ParserM α} {f : α → ParserM β}
    {w : List Nat} {N : Nat} {s : PState} {v : β} {s' : PState}
    (h : (m >>= f) w N s = .ok (v, s')) :
    ∃ a s₁, m w N s = .ok (a, s₁) ∧ f a w N s₁ = .ok (v, s') := by
  rcases hm : m w N s with e | p
  · simp [ParserM.bind_apply, hm] at h
  · obtain ⟨a, s₁⟩ := p
    simp only [ParserM.bind_apply, hm] at h
    exact ⟨a, s₁, rfl, h⟩

theorem stateOnly_rspan {α : Type} {op : ParserM α} (h : StateOnly op) :
    RSpan op := by
  intro w N s v s' hrun _
  obtain ⟨hoff, _⟩ := h.2 w N s v s' hrun
  refine ⟨by omega, ?_, ?_⟩
  · intro w' K _ _
    rw [← h.1 w N w' K s]
    exact hrun
  · intro w' k _ hk1 hk2
    omega

theorem stateOnly_pure {α : Type} (a : α) : StateOnly (pure a : ParserM α) := by
  constructor
  · intro w N w' K s
    rfl
  · intro w N s v s' h
    rw [ParserM.pure_apply] at h
    cases h
    exact ⟨rfl, rfl⟩

theorem stateOnly_perr {α : Type} (e : WkbErr) :
    StateOnly (perr e : ParserM α) := by
  constructor
  · intro w N w' K s
    rfl
  · intro w N s v s' h
    rw [perr_apply] at h
    cases h

/-- The master composition lemma: a span-respecting head followed, per
run, by a tail that is buffer-free, span-respecting from an error-free
state, or never returns on this buffer. -/
theorem rspan_bind {α β : Type} (m : ParserM α) (f : α → ParserM β)
    (hm : RSpan m)
    (hf : ∀ w N s a s₁, m w N s = .ok (a, s₁) → s.error = false →
      StateOnly (f a) ∨ (s₁.error = false ∧ RSpan (f a)) ∨
      (∀ v₂ s₂, f a w N s₁ ≠ .ok (v₂, s₂))) :
    RSpan (m >>= f) := by
  intro w N s v s' hrun herr
  obtain ⟨a, s₁, hm1, hf1⟩ := bind_ok hrun
  obtain ⟨hmono1, htrans1, htrunc1⟩ := hm w N s a s₁ hm1 herr
  rcases hf w N s a s₁ hm1 herr with hso | ⟨herr1, hsp⟩ | hno
  · obtain ⟨hoff2, _⟩ := hso.2 w N s₁ v s' hf1
    refine ⟨by omega, ?_, ?_⟩
    · intro w' K hag hK
      simp only [ParserM.bind_apply,
        htrans1 w' K (agree_mono hag (le_refl _) (by omega)) (by omega)]
      rw [← hso.1 w N w' K s₁]
      exact hf1
    · intro w' k hag hk1 hk2
      have hk3 : k < s₁.offset := by omega
      simp only [ParserM.bind_apply, htrunc1 w' k hag hk1 hk3]
  · obtain ⟨hmono2, htrans2, htrunc2⟩ := hsp w N s₁ v s' hf1 herr1
    refine ⟨by omega, ?_, ?_⟩
    · intro w' K hag hK
      simp only [ParserM.bind_apply,
        htrans1 w' K (agree_mono hag (le_refl _) hmono2) (by omega)]
      exact htrans2 w' K (agree_mono hag hmono1 (le_refl _)) hK
    · intro w' k hag hk1 hk2
      by_cases hk3 : k < s₁.offset
      · simp only [ParserM.bind_apply, htrunc1 w' k hag hk1 hk3]
      · push_neg at hk3
        simp only [ParserM.bind_apply,
          htrans1 w' k (agree_mono hag (le_refl _) hk3) hk3]
        exact htrunc2 w' k (agree_mono hag hmono1 (le_refl _)) hk3 hk2
  · exact absurd hf1 (hno v s')

theorem derefByte_char (i : Nat) (w : List Nat) (N : Nat) (s : PState) :
    derefByte i w N s =
      match w.get? i with
      | some b => .ok (b, s)
      | none => .error .ub := rfl

theorem derefBytes_ok {n : Nat} : ∀ (i : Nat) (w : List Nat) (N : Nat)
    (s : PState) (bs : List Nat) (s₂ : PState),
    derefBytes n i w N s = .ok (bs, s₂) →
    s₂ = s ∧ ∀ (w' : List Nat) (K : Nat) (t : PState),
      Agree w w' i (i + n) → derefBytes n i w' K t = .ok (bs, t) := by
  induction n with
  | zero =>
    intro i w N s bs s₂ h
    rw [show derefBytes 0 i = (pure [] : ParserM (List Nat)) from rfl,
      ParserM.pure_apply] at h
    cases h
    refine ⟨rfl, fun w' K t hag => ?_⟩
    rw [show derefBytes 0 i = (pure [] : ParserM (List Nat)) from rfl,
      ParserM.pure_apply]
  | succ n ih =>
    intro i w N s bs s₂ h
    obtain ⟨b, sb, hb, h2⟩ := bind_ok (show
      (derefByte i >>= fun b => derefBytes n (i + 1) >>= fun t =>
        pure (b :: t)) w N s = .ok (bs, s₂) from h)
    obtain ⟨ds, sd, hd, hp⟩ := bind_ok h2
    rw [ParserM.pure_apply] at hp
    have hp' : b :: ds = bs ∧ sd = s₂ := by simpa using hp
    rw [derefByte_char] at hb
    rcases hg : w.get? i with _ | bv
    · rw [hg] at hb
      cases hb
    · rw [hg] at hb
      have hb' : bv = b ∧ s = sb := by simpa using hb
      rw [← hb'.2] at hd
      obtain ⟨hsd, htr⟩ := ih (i + 1) w N s ds sd hd
      constructor
      · rw [← hp'.2, hsd]
      · intro w' K t hag
        show (derefByte i >>= fun b => derefBytes n (i + 1) >>= fun t =>
          pure (b :: t)) w' K t = _
        have hg' : w'.get? i = some bv := by
          rw [← hag i (le_refl _) (by omega), hg]
        simp only [ParserM.bind_apply, derefByte_char, hg',
          htr w' K t (agree_mono hag (by omega) (by omega)),
          ParserM.pure_apply]
        rw [hb'.1, hp'.1]

theorem byte_char (w : List Nat) (N : Nat) (s : PState) :
    byte_from_wkb_state w N s =
      if s.offset + 1 > N then .error .expectedSize
      else if s.error = true then .ok (0, s)
      else match w.get? s.offset with
        | none => .error .ub
        | some b => .ok (b, { s with offset := s.offset + 1 }) := by
  by_cases h1 : s.offset + 1 > N
  · simp [byte_from_wkb_state, wkb_parse_state_check, ParserM.bind_apply,
      getS_apply, getWkbSize_apply, perr_apply, ParserM.pure_apply,
      setS_apply, WKB_BYTE_SIZE, h1]
  · by_cases h2 : s.error = true
    · simp [byte_from_wkb_state, wkb_parse_state_check, ParserM.bind_apply,
        getS_apply, getWkbSize_apply, perr_apply, ParserM.pure_apply,
        setS_apply, WKB_BYTE_SIZE, h1, h2]
    · rcases hg : w[s.offset]? with _ | b <;>
        simp [byte_from_wkb_state, wkb_parse_state_check, ParserM.bind_apply,
          getS_apply, getWkbSize_apply, perr_apply, ParserM.pure_apply,
          setS_apply, derefByte_char, WKB_BYTE_SIZE, h1, h2, hg,
          List.get?_eq_getElem?]

theorem int_char (w : List Nat) (N : Nat) (s : PState) :
    integer_from_wkb_state w N s =
      if s.offset + 4 > N then .error .expectedSize
      else if s.error = true then .ok (0, s)
      else match derefBytes 4 s.offset w N s with
        | .error e => .error e
        | .ok (bs, _) =>
          .ok (if s.swap_bytes then swap32 (bytesLE bs) else bytesLE bs,
            { s with offset := s.offset + 4 }) := by
  by_cases h1 : s.offset + 4 > N
  · simp [integer_from_wkb_state, wkb_parse_state_check, ParserM.bind_apply,
      getS_apply, getWkbSize_apply, perr_apply, ParserM.pure_apply,
      setS_apply, WKB_INT_SIZE, h1]
  · by_cases h2 : s.error = true
    · simp [integer_from_wkb_state, wkb_parse_state_check, ParserM.bind_apply,
        getS_apply, getWkbSize_apply, perr_apply, ParserM.pure_apply,
        setS_apply, WKB_INT_SIZE, h1, h2]
    · rcases hd : derefBytes 4 s.offset w N s with e | p
      · simp [integer_from_wkb_state, wkb_parse_state_check,
          ParserM.bind_apply, getS_apply, getWkbSize_apply, perr_apply,
          ParserM.pure_apply, setS_apply, WKB_INT_SIZE, h1, h2, hd]
      · obtain ⟨bs, s₁⟩ := p
        simp [integer_from_wkb_state, wkb_parse_state_check,
          ParserM.bind_apply, getS_apply, getWkbSize_apply, perr_apply,
          ParserM.pure_apply, setS_apply, WKB_INT_SIZE, h1, h2, hd]

theorem double_char (w : List Nat) (N : Nat) (s : PState) :
    double_from_wkb_state w N s =
      match derefBytes 8 s.offset w N s with
      | .error e => .error e
      | .ok (bs, _) =>
        .ok (if s.swap_bytes then swap64 (bytesLE bs) else bytesLE bs,
          { s with offset := s.offset + 8 }) := by
  rcases hd : derefBytes 8 s.offset w N s with e | p
  · simp [double_from_wkb_state, ParserM.bind_apply, getS_apply,
      setS_apply, ParserM.pure_apply, WKB_DOUBLE_SIZE, hd]
  · obtain ⟨bs, s₁⟩ := p
    simp [double_from_wkb_state, ParserM.bind_apply, getS_apply,
      setS_apply, ParserM.pure_apply, WKB_DOUBLE_SIZE, hd]

theorem rspan_byte : RSpan byte_from_wkb_state := by
  intro w N s v s' hrun herr
  rw [byte_char] at hrun
  by_cases h1 : s.offset + 1 > N
  · rw [if_pos h1] at hrun
    cases hrun
  · rw [if_neg h1, if_neg (by simp [herr])] at hrun
    rcases hg : w.get? s.offset with _ | b
    · rw [hg] at hrun
      cases hrun
    · rw [hg] at hrun
      have hr : b = v ∧ { s with offset := s.offset + 1 } = s' := by
        simpa using hrun
      refine ⟨by rw [← hr.2]; simp, ?_, ?_⟩
      · intro w' K hag hK
        rw [byte_char, if_neg (by rw [← hr.2] at hK; simp at hK; omega),
          if_neg (by simp [herr])]
        have hg' : w'.get? s.offset = some b := by
          rw [← hag s.offset (le_refl _) (by rw [← hr.2]; simp), hg]
        rw [hg', hr.1, hr.2]
      · intro w' k hag hk1 hk2
        rw [byte_char, if_pos (by rw [← hr.2] at hk2; simp at hk2; omega)]

theorem byte_err (w : List Nat) (N : Nat) (s : PState) (v : Nat) (s' : PState)
    (h : byte_from_wkb_state w N s = .ok (v, s')) (herr : s.error = false) :
    s'.error = false := by
  rw [byte_char] at h
  by_cases h1 : s.offset + 1 > N
  · rw [if_pos h1] at h
    cases h
  · rw [if_neg h1, if_neg (by simp [herr])] at h
    rcases hg : w.get? s.offset with _ | b
    · rw [hg] at h
      cases h
    · rw [hg] at h
      have hr : v = b ∧ s' = { s with offset := s.offset + 1 } := by
        simpa using h.symm
      rw [hr.2]
      simpa using herr

theorem rspan_int : RSpan integer_from_wkb_state := by
  intro w N s v s' hrun herr
  rw [int_char] at hrun
  by_cases h1 : s.offset + 4 > N
  · rw [if_pos h1] at hrun
    cases hrun
  · rw [if_neg h1, if_neg (by simp [herr])] at hrun
    rcases hd : derefBytes 4 s.offset w N s with e | p
    · rw [hd] at hrun
      cases hrun
    · obtain ⟨bs, s₁⟩ := p
      rw [hd] at hrun
      have hr : (if s.swap_bytes then swap32 (bytesLE bs) else bytesLE bs) = v ∧
          { s with offset := s.offset + 4 } = s' := by
        simpa using hrun
      obtain ⟨hdstate, hdtr⟩ := derefBytes_ok s.offset w N s bs s₁ hd
      have hoff : s'.offset = s.offset + 4 := by rw [← hr.2]
      refine ⟨by omega, ?_, ?_⟩
      · intro w' K hag hK
        rw [int_char, if_neg (by omega), if_neg (by simp [herr])]
        simp only [hdtr w' K s (agree_mono hag (le_refl _) (by omega))]
        rw [hr.1, hr.2]
      · intro w' k hag hk1 hk2
        rw [int_char, if_pos (by omega)]

theorem int_err (w : List Nat) (N : Nat) (s : PState) (v : Nat) (s' : PState)
    (h : integer_from_wkb_state w N s = .ok (v, s')) (herr : s.error = false) :
    s'.error = false := by
  rw [int_char] at h
  by_cases h1 : s.offset + 4 > N
  · rw [if_pos h1] at h
    cases h
  · rw [if_neg h1, if_neg (by simp [herr])] at h
    rcases hd : derefBytes 4 s.offset w N s with e | p
    · rw [hd] at h
      cases h
    · obtain ⟨bs, s₁⟩ := p
      rw [hd] at h
      have hr : v = (if s.swap_bytes then swap32 (bytesLE bs) else bytesLE bs) ∧
          s' = { s with offset := s.offset + 4 } := by
        simpa using h.symm
      rw [hr.2]
      simpa using herr

theorem byte_ok_shape (w : List Nat) (N : Nat) (s : PState) (v : Nat)
    (s' : PState) (h : byte_from_wkb_state w N s = .ok (v, s'))
    (herr : s.error = false) :
    s' = { s with offset := s.offset + 1 } ∧ s.offset + 1 ≤ N := by
  rw [byte_char] at h
  by_cases h1 : s.offset + 1 > N
  · rw [if_pos h1] at h
    cases h
  · rw [if_neg h1, if_neg (by simp [herr])] at h
    rcases hg : w.get? s.offset with _ | b
    · rw [hg] at h
      cases h
    · rw [hg] at h
      have hr : v = b ∧ s' = { s with offset := s.offset + 1 } := by
        simpa using h.symm
      exact ⟨hr.2, by omega⟩

theorem int_ok_shape (w : List Nat) (N : Nat) (s : PState) (v : Nat)
    (s' : PState) (h : integer_from_wkb_state w N s = .ok (v, s'))
    (herr : s.error = false) :
    s' = { s with offset := s.offset + 4 } ∧ s.offset + 4 ≤ N := by
  rw [int_char] at h
  by_cases h1 : s.offset + 4 > N
  · rw [if_pos h1] at h
    cases h
  · rw [if_neg h1, if_neg (by simp [herr])] at h
    rcases hd : derefBytes 4 s.offset w N s with e | p
    · rw [hd] at h
      cases h
    · obtain ⟨bs, s₁⟩ := p
      rw [hd] at h
      have hr : v = (if s.swap_bytes then swap32 (bytesLE bs) else bytesLE bs) ∧
          s' = { s with offset := s.offset + 4 } := by
        simpa using h.symm
      exact ⟨hr.2, by omega⟩

theorem copy_doubles_run (c : Nat) : ∀ (i : Nat) (w : List Nat) (N : Nat)
    (s : PState) (ds : List Nat) (s₂ : PState),
    copy_doubles c i w N s = .ok (ds, s₂) →
    s₂ = s ∧ ∀ (w' : List Nat) (K : Nat),
      Agree w w' i (i + 8 * c) → copy_doubles c i w' K s = .ok (ds, s) := by
  induction c with
  | zero =>
    intro i w N s ds s₂ h
    rw [show copy_doubles 0 i = (pure [] : ParserM (List Nat)) from rfl,
      ParserM.pure_apply] at h
    cases h
    exact ⟨rfl, fun w' K _ => rfl⟩
  | succ c ih =>
    intro i w N s ds s₂ h
    obtain ⟨bs, sb, hb, h2⟩ := bind_ok (show
      (derefBytes 8 i >>= fun bs => copy_doubles c (i + 8) >>= fun t =>
        pure (bytesLE bs :: t)) w N s = .ok (ds, s₂) from h)
    obtain ⟨t, st, ht, hp⟩ := bind_ok h2
    rw [ParserM.pure_apply] at hp
    have hp' : bytesLE bs :: t = ds ∧ st = s₂ := by simpa using hp
    obtain ⟨hsb, hbtr⟩ := derefBytes_ok i w N s bs sb hb
    rw [hsb] at ht
    obtain ⟨hst, httr⟩ := ih (i + 8) w N s t st ht
    constructor
    · rw [← hp'.2, hst]
    · intro w' K hag
      show (derefBytes 8 i >>= fun bs => copy_doubles c (i + 8) >>= fun t =>
        pure (bytesLE bs :: t)) w' K s = _
      simp only [ParserM.bind_apply,
        hbtr w' K s (agree_mono hag (le_refl _) (by omega)),
        httr w' K (agree_mono hag (by omega) (by omega)),
        ParserM.pure_apply]
      rw [hp'.1]

theorem read_doubles_run (c : Nat) : ∀ (w : List Nat) (N : Nat) (s : PState)
    (ds : List Nat) (s₂ : PState),
    read_doubles c w N s = .ok (ds, s₂) →
    s₂ = { s with offset := s.offset + 8 * c } ∧
    ∀ (w' : List Nat) (K : Nat), Agree w w' s.offset (s.offset + 8 * c) →
      read_doubles c w' K s = .ok (ds, s₂) := by
  induction c with
  | zero =>
    intro w N s ds s₂ h
    rw [show read_doubles 0 = (pure [] : ParserM (List Nat)) from rfl,
      ParserM.pure_apply] at h
    cases h
    exact ⟨rfl, fun w' K _ => rfl⟩
  | succ c ih =>
    intro w N s ds s₂ h
    obtain ⟨d, sd, hd, h2⟩ := bind_ok (show
      (double_from_wkb_state >>= fun d => read_doubles c >>= fun t =>
        pure (d :: t)) w N s = .ok (ds, s₂) from h)
    obtain ⟨t, st, ht, hp⟩ := bind_ok h2
    rw [ParserM.pure_apply] at hp
    have hp' : d :: t = ds ∧ st = s₂ := by simpa using hp
    rw [double_char] at hd
    rcases h8 : derefBytes 8 s.offset w N s with e | p
    · rw [h8] at hd
      cases hd
    · obtain ⟨bs, sx⟩ := p
      rw [h8] at hd
      have hd' : (if s.swap_bytes then swap64 (bytesLE bs) else bytesLE bs) = d ∧
          { s with offset := s.offset + 8 } = sd := by
        simpa using hd
      obtain ⟨hsx, h8tr⟩ := derefBytes_ok s.offset w N s bs sx h8
      rw [← hd'.2] at ht
      obtain ⟨hst, httr⟩ := ih w N { s with offset := s.offset + 8 } t st ht
      have hoffs : s.offset + 8 + 8 * c = s.offset + 8 * (c + 1) := by ring
      constructor
      · rw [← hp'.2, hst]
        simp [hoffs]
      · intro w' K hag
        show (double_from_wkb_state >>= fun d => read_doubles c >>= fun t =>
          pure (d :: t)) w' K s = _
        have h8' : derefBytes 8 s.offset w' K s = .ok (bs, s) :=
          h8tr w' K s (agree_mono hag (le_refl _) (by omega))
        have ht' : read_doubles c w' K { s with offset := s.offset + 8 } =
            .ok (t, st) :=
          httr w' K (agree_mono hag
            (by change s.offset ≤ s.offset + 8; omega)
            (by change s.offset + 8 + 8 * c ≤ s.offset + 8 * (c + 1); omega))
        simp only [ParserM.bind_apply, double_char, h8', ht',
          ParserM.pure_apply]
        rw [hd'.1, hp'.1, hp'.2]

set_option maxHeartbeats 1000000 in
theorem rspan_ptarray : RSpan ptarray_from_wkb_state := by
  intro w N s v s' hrun herr
  simp only [ptarray_from_wkb_state] at hrun
  obtain ⟨np, s₁, hint, htail⟩ := bind_ok hrun
  obtain ⟨hs₁, hNb⟩ := int_ok_shape w N s np s₁ hint herr
  obtain ⟨hmono1, htrans1, htrunc1⟩ := rspan_int w N s np s₁ hint herr
  subst hs₁
  by_cases hmax : np > maxpoints
  · simp [getS_apply, setS_apply, ParserM.bind_apply, ParserM.pure_apply,
      herr, hmax] at htail
    have hoff : s'.offset = s.offset + 4 := by rw [← htail.2]
    refine ⟨by omega, ?_, ?_⟩
    · intro w' K hag hK
      have hag4 : Agree w w' s.offset (s.offset + 4) :=
        agree_mono hag (le_refl _) (by omega)
      rw [← htail.1, ← htail.2]
      simp only [ptarray_from_wkb_state, ParserM.bind_apply,
        htrans1 w' K (by simpa using hag4) (by simp; omega)]
      simp [getS_apply, setS_apply, ParserM.bind_apply, ParserM.pure_apply,
        herr, hmax]
    · intro w' k hag hk1 hk2
      simp only [ptarray_from_wkb_state, ParserM.bind_apply,
        htrunc1 w' k hag hk1 (by simp; omega)]
  · by_cases h0 : np = 0
    · subst h0
      simp [getS_apply, setS_apply, ParserM.bind_apply, ParserM.pure_apply,
        herr, hmax, ptarray_construct] at htail
      have hoff : s'.offset = s.offset + 4 := by rw [← htail.2]
      refine ⟨by omega, ?_, ?_⟩
      · intro w' K hag hK
        have hag4 : Agree w w' s.offset (s.offset + 4) :=
          agree_mono hag (le_refl _) (by omega)
        rw [← htail.1, ← htail.2]
        simp only [ptarray_from_wkb_state, ParserM.bind_apply,
          htrans1 w' K (by simpa using hag4) (by simp; omega)]
        simp [getS_apply, setS_apply, ParserM.bind_apply, ParserM.pure_apply,
          herr, hmax, ptarray_construct]
      · intro w' k hag hk1 hk2
        simp only [ptarray_from_wkb_state, ParserM.bind_apply,
          htrunc1 w' k hag hk1 (by simp; omega)]
    · by_cases hchk : s.offset + 4 +
          np * (2 + (if s.has_z then 1 else 0) + (if s.has_m then 1 else 0)) *
            8 > N
      · simp [getS_apply, setS_apply, ParserM.bind_apply, ParserM.pure_apply,
          wkb_parse_state_check, getWkbSize_apply, perr_apply,
          WKB_DOUBLE_SIZE, herr, hmax, h0, hchk] at htail
      · by_cases hswap : s.swap_bytes = true
        · simp [getS_apply, setS_apply, ParserM.bind_apply,
            ParserM.pure_apply, wkb_parse_state_check, getWkbSize_apply,
            perr_apply, WKB_DOUBLE_SIZE, herr, hmax, h0, hchk, hswap]
            at htail
          split at htail
          · simp at htail
          · rename_i ds sd heq
            obtain ⟨hsd, hrdtr⟩ := read_doubles_run _ w N _ ds sd heq
            rw [hsd] at htail
            simp [getS_apply, ParserM.bind_apply, ParserM.pure_apply]
              at htail
            have hoff : s'.offset = s.offset + 4 + 8 *
                (np * (2 + (if s.has_z then 1 else 0) +
                  (if s.has_m then 1 else 0))) := by
              rw [← htail.2]
            refine ⟨by omega, ?_, ?_⟩
            · intro w' K hag hK
              have hag4 : Agree w w' s.offset (s.offset + 4) :=
                agree_mono hag (le_refl _) (by omega)
              have hrd' := hrdtr w' K (agree_mono hag
                (by change s.offset ≤ s.offset + 4; omega)
                (by change s.offset + 4 + 8 * _ ≤ _; omega))
              rw [← htail.1, ← htail.2]
              simp only [ptarray_from_wkb_state, ParserM.bind_apply,
                htrans1 w' K (by simpa using hag4) (by simp; omega)]
              simp [getS_apply, setS_apply, ParserM.bind_apply,
                ParserM.pure_apply, wkb_parse_state_check, getWkbSize_apply,
                perr_apply, WKB_DOUBLE_SIZE, herr, hmax, h0, hswap,
                eq_false (show ¬(K < s.offset + 4 + np * (2 +
                  (if s.has_z then 1 else 0) + (if s.has_m then 1 else 0)) *
                  8) from by omega), hrd', hsd]
            · intro w' k hag hk1 hk2
              by_cases hk4 : k < s.offset + 4
              · simp only [ptarray_from_wkb_state, ParserM.bind_apply,
                  htrunc1 w' k hag hk1 (by simp; omega)]
              · push_neg at hk4
                have hag4 : Agree w w' s.offset (s.offset + 4) :=
                  agree_mono hag (le_refl _) (by omega)
                simp only [ptarray_from_wkb_state, ParserM.bind_apply,
                  htrans1 w' k (by simpa using hag4) (by simp; omega)]
                simp [getS_apply, setS_apply, ParserM.bind_apply,
                  ParserM.pure_apply, wkb_parse_state_check,
                  getWkbSize_apply, perr_apply, WKB_DOUBLE_SIZE, herr, hmax,
                  h0, hswap, eq_true (show k < s.offset + 4 + np * (2 +
                    (if s.has_z then 1 else 0) +
                    (if s.has_m then 1 else 0)) * 8 from by omega)]
        · simp [getS_apply, setS_apply, ParserM.bind_apply,
            ParserM.pure_apply, wkb_parse_state_check, getWkbSize_apply,
            perr_apply, WKB_DOUBLE_SIZE, herr, hmax, h0, hchk, hswap]
            at htail
          split at htail
          · simp at htail
          · rename_i ds sd heq
            obtain ⟨hsd, hcdtr⟩ := copy_doubles_run _ _ w N _ ds sd heq
            simp [getS_apply, setS_apply, ParserM.bind_apply,
              ParserM.pure_apply] at htail
            have hoff : s'.offset = s.offset + 4 +
                np * (2 + (if s.has_z then 1 else 0) +
                  (if s.has_m then 1 else 0)) * 8 := by
              rw [← htail.2]
            refine ⟨by omega, ?_, ?_⟩
            · intro w' K hag hK
              have hag4 : Agree w w' s.offset (s.offset + 4) :=
                agree_mono hag (le_refl _) (by omega)
              have hcd' := hcdtr w' K (agree_mono hag
                (by change s.offset ≤ s.offset + 4; omega)
                (by change s.offset + 4 + 8 * _ ≤ _; omega))
              rw [← htail.1, ← htail.2]
              simp only [ptarray_from_wkb_state, ParserM.bind_apply,
                htrans1 w' K (by simpa using hag4) (by simp; omega)]
              simp [getS_apply, setS_apply, ParserM.bind_apply,
                ParserM.pure_apply, wkb_parse_state_check, getWkbSize_apply,
                perr_apply, WKB_DOUBLE_SIZE, herr, hmax, h0, hswap,
                eq_false (show ¬(K < s.offset + 4 + np * (2 +
                  (if s.has_z then 1 else 0) + (if s.has_m then 1 else 0)) *
                  8) from by omega), hcd']
            · intro w' k hag hk1 hk2
              by_cases hk4 : k < s.offset + 4
              · simp only [ptarray_from_wkb_state, ParserM.bind_apply,
                  htrunc1 w' k hag hk1 (by simp; omega)]
              · push_neg at hk4
                have hag4 : Agree w w' s.offset (s.offset + 4) :=
                  agree_mono hag (le_refl _) (by omega)
                simp only [ptarray_from_wkb_state, ParserM.bind_apply,
                  htrans1 w' k (by simpa using hag4) (by simp; omega)]
                simp [getS_apply, setS_apply, ParserM.bind_apply,
                  ParserM.pure_apply, wkb_parse_state_check,
                  getWkbSize_apply, perr_apply, WKB_DOUBLE_SIZE, herr, hmax,
                  h0, hswap, eq_true (show k < s.offset + 4 + np * (2 +
                    (if s.has_z then 1 else 0) +
                    (if s.has_m then 1 else 0)) * 8 from by omega)]

/-! ## Read-span combinators -/

theorem ok_state_eq {α : Type} {X v : α} {t s' : PState}
    (h : (Except.ok (X, t) : Except WkbErr (α × PState)) = .ok (v, s')) :
    s'.offset = t.offset ∧ s'.error = t.error := by
  have h' : X = v ∧ t = s' := by simpa using h
  rw [← h'.2]
  exact ⟨rfl, rfl⟩

theorem rspan_pure {α : Type} (a : α) : RSpan (pure a : ParserM α) :=
  stateOnly_rspan (stateOnly_pure a)

theorem rspan_perr {α : Type} (e : WkbErr) : RSpan (perr e : ParserM α) :=
  stateOnly_rspan (stateOnly_perr e)

theorem rspan_ite {α : Type} (c : Prop) [Decidable c] (m1 m2 : ParserM α)
    (h1 : RSpan m1) (h2 : RSpan m2) : RSpan (if c then m1 else m2) := by
  by_cases h : c
  · rw [if_pos h]
    exact h1
  · rw [if_neg h]
    exact h2

theorem stateOnly_ite {α : Type} (c : Prop) [Decidable c] (m1 m2 : ParserM α)
    (h1 : StateOnly m1) (h2 : StateOnly m2) :
    StateOnly (if c then m1 else m2) := by
  by_cases h : c
  · rw [if_pos h]
    exact h1
  · rw [if_neg h]
    exact h2

theorem rspan_getS {α : Type} (g : PState → ParserM α)
    (h : ∀ t, RSpan (g t)) : RSpan (getS >>= g) := by
  intro w N s v s' hrun herr
  rw [getS_bind] at hrun
  obtain ⟨h1, h2, h3⟩ := h s w N s v s' hrun herr
  refine ⟨h1, ?_, ?_⟩
  · intro w' K hag hK
    rw [getS_bind]
    exact h2 w' K hag hK
  · intro w' k hag hk1 hk2
    rw [getS_bind]
    exact h3 w' k hag hk1 hk2

theorem stateOnly_getS {α : Type} (g : PState → ParserM α)
    (h : ∀ t, StateOnly (g t)) : StateOnly (getS >>= g) := by
  constructor
  · intro w N w' K s
    rw [getS_bind, getS_bind]
    exact (h s).1 w N w' K s
  · intro w N s v s' hr
    rw [getS_bind] at hr
    exact (h s).2 w N s v s' hr

theorem stateOnly_modifyS (g : PState → PState)
    (hg : ∀ t, (g t).offset = t.offset ∧ (g t).error = t.error) :
    StateOnly (modifyS g) := by
  constructor
  · intro w N w' K s
    rfl
  · intro w N s v s' h
    rw [modifyS_apply] at h
    cases h
    exact hg s

theorem rspan_modifyS {α : Type} (g : PState → PState) (f : Unit → ParserM α)
    (hg : ∀ t, (g t).offset = t.offset ∧ (g t).error = t.error)
    (h : RSpan (f ())) : RSpan (modifyS g >>= f) := by
  intro w N s v s' hrun herr
  rw [modifyS_bind] at hrun
  obtain ⟨h1, h2, h3⟩ := h w N (g s) v s' hrun (by rw [(hg s).2]; exact herr)
  rw [(hg s).1] at h1
  refine ⟨h1, ?_, ?_⟩
  · intro w' K hag hK
    rw [modifyS_bind]
    exact h2 w' K (by rw [(hg s).1]; exact hag) hK
  · intro w' k hag hk1 hk2
    rw [modifyS_bind]
    exact h3 w' k (by rw [(hg s).1]; exact hag) (by rw [(hg s).1]; exact hk1)
      hk2

theorem stateOnly_bind {α β : Type} {m : ParserM α} {f : α → ParserM β}
    (hm : StateOnly m) (hf : ∀ a, StateOnly (f a)) : StateOnly (m >>= f) := by
  constructor
  · intro w N w' K s
    rw [ParserM.bind_apply, ParserM.bind_apply, ← hm.1 w N w' K s]
    rcases hr : m w N s with e | p
    · rfl
    · obtain ⟨a, s₁⟩ := p
      exact (hf a).1 w N w' K s₁
  · intro w N s v s' hr
    obtain ⟨a, s₁, h1, h2⟩ := bind_ok hr
    obtain ⟨ho1, he1⟩ := hm.2 w N s a s₁ h1
    obtain ⟨ho2, he2⟩ := (hf a).2 w N s₁ v s' h2
    exact ⟨by omega, by rw [he2, he1]⟩

theorem rspan_bind_so {α β : Type} {m : ParserM α} {f : α → ParserM β}
    (hm : RSpan m) (hf : ∀ a, StateOnly (f a)) : RSpan (m >>= f) :=
  rspan_bind m f hm (fun _ _ _ a _ _ _ => Or.inl (hf a))

theorem rspan_bind_flag {α β : Type} {m : ParserM α} {f : α → ParserM β}
    (hm : RSpan m)
    (hpres : ∀ w N s a s₁, m w N s = .ok (a, s₁) → s.error = false →
      s₁.error = false)
    (hf : ∀ a, RSpan (f a)) : RSpan (m >>= f) :=
  rspan_bind m f hm (fun w N s a s₁ hok herr =>
    Or.inr (Or.inl ⟨hpres w N s a s₁ hok herr, hf a⟩))

theorem rspan_so_bind {α β : Type} {m : ParserM α} {f : α → ParserM β}
    (hm : StateOnly m) (hf : ∀ a, RSpan (f a)) : RSpan (m >>= f) :=
  rspan_bind m f (stateOnly_rspan hm) (fun w N s a s₁ hok herr =>
    Or.inr (Or.inl ⟨by rw [(hm.2 w N s a s₁ hok).2]; exact herr, hf a⟩))

theorem stateOnly_lwtype (t : Nat) : StateOnly (lwtype_from_wkb_state t) := by
  constructor
  · intro w N w' K s
    rw [lwtype_from_wkb_state_eq, lwtype_from_wkb_state_eq]
  · intro w N s v s' h
    rw [lwtype_from_wkb_state_eq] at h
    by_cases h4 : 4000 ≤ t &&& 0x0FFFFFFF
    · rw [if_pos h4] at h
      cases h
    · rw [if_neg h4] at h
      rcases ht : lwtypeTable ((t &&& 0x0FFFFFFF) % 1000) with _ | ty
      · rw [ht] at h
        cases h
      · rw [ht] at h
        obtain ⟨ho, he⟩ := ok_state_eq h
        refine ⟨by rw [ho]; simp [flagZMS], by rw [he]; simp [flagZMS]⟩

/-! ## Continuation equations -/

theorem lwline_eq :
    lwline_from_wkb_state = ptarray_from_wkb_state >>= lwline_tail := rfl

theorem lwcirc_eq :
    lwcircstring_from_wkb_state = ptarray_from_wkb_state >>= lwcirc_tail := rfl

theorem lwpoly_eq :
    lwpoly_from_wkb_state = integer_from_wkb_state >>= lwpoly_tail := rfl

theorem lwtriangle_eq :
    lwtriangle_from_wkb_state = integer_from_wkb_state >>= tri_tail := rfl

theorem coll_eq (recur : ParserM (Option Geom)) :
    lwcollection_from_wkb_state recur =
      integer_from_wkb_state >>= coll_tail recur := rfl

theorem cp_eq (recur : ParserM (Option Geom)) :
    lwcurvepoly_from_wkb_state recur =
      integer_from_wkb_state >>= cp_tail recur := rfl

theorem lwgeom_succ_eq (F : Nat) :
    lwgeom_from_wkb_state (F + 1) = geom_body (lwgeom_from_wkb_state F) := rfl

theorem lwline_tail_char (pa? : Option PtArray) (w : List Nat) (N : Nat)
    (t : PState) :
    lwline_tail pa? w N t =
      if t.error = true then .ok (none, t)
      else match pa? with
      | none =>
        .ok (some (.line t.srid (ptarray_construct t.has_z t.has_m)), t)
      | some pa =>
        if pa.npoints = 0 then
          .ok (some (.line t.srid (ptarray_construct t.has_z t.has_m)), t)
        else if t.check &&& LW_PARSER_CHECK_MINPOINTS ≠ 0 ∧ pa.npoints < 2 then
          .error .minPoints
        else .ok (some (.line t.srid pa), t) := by
  rcases pa? with _ | pa
  · by_cases ht : t.error = true <;>
      simp [lwline_tail, ParserM.bind_apply, getS_apply, ParserM.pure_apply,
        perr_apply, ht]
  · by_cases ht : t.error = true
    · simp [lwline_tail, ParserM.bind_apply, getS_apply, ParserM.pure_apply,
        perr_apply, ht]
    · by_cases h0 : pa.npoints = 0
      · simp [lwline_tail, ParserM.bind_apply, getS_apply,
          ParserM.pure_apply, perr_apply, ht, h0]
      · by_cases hmp : t.check &&& LW_PARSER_CHECK_MINPOINTS ≠ 0 ∧
            pa.npoints < 2 <;>
          simp [lwline_tail, ParserM.bind_apply, getS_apply,
            ParserM.pure_apply, perr_apply, ht, h0, hmp]

theorem stateOnly_lwline_tail (pa? : Option PtArray) :
    StateOnly (lwline_tail pa?) := by
  constructor
  · intro w N w' K t
    rw [lwline_tail_char, lwline_tail_char]
  · intro w N t v s' h
    rw [lwline_tail_char] at h
    repeat' split at h
    all_goals first
    | exact ok_state_eq h
    | simp at h

theorem lwcirc_tail_char (pa? : Option PtArray) (w : List Nat) (N : Nat)
    (t : PState) :
    lwcirc_tail pa? w N t =
      if t.error = true then .ok (none, t)
      else match pa? with
      | none =>
        .ok (some (.circstring t.srid (ptarray_construct t.has_z t.has_m)), t)
      | some pa =>
        if pa.npoints = 0 then
          .ok (some (.circstring t.srid (ptarray_construct t.has_z t.has_m)),
            t)
        else if t.check &&& LW_PARSER_CHECK_MINPOINTS ≠ 0 ∧ pa.npoints < 3 then
          .ok (none, t)
        else if t.check &&& LW_PARSER_CHECK_ODD ≠ 0 ∧ pa.npoints % 2 = 0 then
          .ok (none, t)
        else .ok (some (.circstring t.srid pa), t) := by
  rcases pa? with _ | pa
  · by_cases ht : t.error = true <;>
      simp [lwcirc_tail, ParserM.bind_apply, getS_apply, ParserM.pure_apply,
        perr_apply, ht]
  · by_cases ht : t.error = true
    · simp [lwcirc_tail, ParserM.bind_apply, getS_apply, ParserM.pure_apply,
        perr_apply, ht]
    · by_cases h0 : pa.npoints = 0
      · simp [lwcirc_tail, ParserM.bind_apply, getS_apply,
          ParserM.pure_apply, perr_apply, ht, h0]
      · by_cases hmp : t.check &&& LW_PARSER_CHECK_MINPOINTS ≠ 0 ∧
            pa.npoints < 3
        · simp [lwcirc_tail, ParserM.bind_apply, getS_apply,
            ParserM.pure_apply, perr_apply, ht, h0, hmp]
        · by_cases hodd : t.check &&& LW_PARSER_CHECK_ODD ≠ 0 ∧
              pa.npoints % 2 = 0 <;>
            simp [lwcirc_tail, ParserM.bind_apply, getS_apply,
              ParserM.pure_apply, perr_apply, ht, h0, hmp, hodd]

theorem stateOnly_lwcirc_tail (pa? : Option PtArray) :
    StateOnly (lwcirc_tail pa?) := by
  constructor
  · intro w N w' K t
    rw [lwcirc_tail_char, lwcirc_tail_char]
  · intro w N t v s' h
    rw [lwcirc_tail_char] at h
    repeat' split at h
    all_goals first
    | exact ok_state_eq h
    | simp at h

theorem stateOnly_lwpoly_fin (t : PState) (rings? : Option (List PtArray)) :
    StateOnly (lwpoly_fin t rings?) := by
  rcases rings? with _ | rings
  · exact stateOnly_pure none
  · exact stateOnly_pure _

theorem tri_tail2_char (pa? : Option PtArray) (w : List Nat) (N : Nat)
    (t : PState) :
    tri_tail2 pa? w N t =
      match pa? with
      | none =>
        .ok (some (.triangle t.srid (ptarray_construct t.has_z t.has_m)), t)
      | some pa =>
        if t.check &&& LW_PARSER_CHECK_MINPOINTS ≠ 0 ∧ pa.npoints < 4 then
          .error .minPoints
        else if t.check &&& LW_PARSER_CHECK_ZCLOSURE ≠ 0 ∧
            ¬ptarray_is_closed_z pa then
          .error .zclosure
        else .ok (some (.triangle t.srid pa), t) := by
  rcases pa? with _ | pa
  · simp [tri_tail2, ParserM.bind_apply, getS_apply, ParserM.pure_apply,
      perr_apply]
  · by_cases hmp : t.check &&& LW_PARSER_CHECK_MINPOINTS ≠ 0 ∧ pa.npoints < 4
    · simp [tri_tail2, ParserM.bind_apply, getS_apply, ParserM.pure_apply,
        perr_apply, hmp]
    · by_cases hz : t.check &&& LW_PARSER_CHECK_ZCLOSURE ≠ 0 ∧
          ptarray_is_closed_z pa = false <;>
        simp [tri_tail2, ParserM.bind_apply, getS_apply, ParserM.pure_apply,
          perr_apply, hmp, hz]

theorem stateOnly_tri_tail2 (pa? : Option PtArray) :
    StateOnly (tri_tail2 pa?) := by
  constructor
  · intro w N w' K t
    rw [tri_tail2_char, tri_tail2_char]
  · intro w N t v s' h
    rw [tri_tail2_char] at h
    repeat' split at h
    all_goals first
    | exact ok_state_eq h
    | simp at h

theorem rspan_lwline : RSpan lwline_from_wkb_state := by
  rw [lwline_eq]
  exact rspan_bind_so rspan_ptarray stateOnly_lwline_tail

theorem rspan_lwcirc : RSpan lwcircstring_from_wkb_state := by
  rw [lwcirc_eq]
  exact rspan_bind_so rspan_ptarray stateOnly_lwcirc_tail

theorem ptarray_some_err (w : List Nat) (N : Nat) (s : PState) (pa : PtArray)
    (s' : PState) (h : ptarray_from_wkb_state w N s = .ok (some pa, s'))
    (herr : s.error = false) : s'.error = false := by
  simp only [ptarray_from_wkb_state] at h
  obtain ⟨np, s₁, hint, htail⟩ := bind_ok h
  obtain ⟨hs₁, hNb⟩ := int_ok_shape w N s np s₁ hint herr
  subst hs₁
  by_cases hmax : np > maxpoints
  · simp [getS_apply, setS_apply, ParserM.bind_apply, ParserM.pure_apply,
      herr, hmax] at htail
  · by_cases h0 : np = 0
    · subst h0
      simp [getS_apply, setS_apply, ParserM.bind_apply, ParserM.pure_apply,
        herr, hmax, ptarray_construct] at htail
      rw [← htail.2]
    · by_cases hchk : s.offset + 4 +
          np * (2 + (if s.has_z then 1 else 0) + (if s.has_m then 1 else 0)) *
            8 > N
      · simp [getS_apply, setS_apply, ParserM.bind_apply, ParserM.pure_apply,
          wkb_parse_state_check, getWkbSize_apply, perr_apply,
          WKB_DOUBLE_SIZE, herr, hmax, h0, hchk] at htail
      · by_cases hswap : s.swap_bytes = true
        · simp [getS_apply, setS_apply, ParserM.bind_apply,
            ParserM.pure_apply, wkb_parse_state_check, getWkbSize_apply,
            perr_apply, WKB_DOUBLE_SIZE, herr, hmax, h0, hchk, hswap]
            at htail
          split at htail
          · simp at htail
          · rename_i ds sd heq
            obtain ⟨hsd, _⟩ := read_doubles_run _ w N _ ds sd heq
            rw [hsd] at htail
            simp [getS_apply, ParserM.bind_apply, ParserM.pure_apply]
              at htail
            rw [← htail.2]
        · simp [getS_apply, setS_apply, ParserM.bind_apply,
            ParserM.pure_apply, wkb_parse_state_check, getWkbSize_apply,
            perr_apply, WKB_DOUBLE_SIZE, herr, hmax, h0, hchk, hswap]
            at htail
          split at htail
          · simp at htail
          · rename_i ds sd heq
            simp [getS_apply, setS_apply, ParserM.bind_apply,
              ParserM.pure_apply] at htail
            rw [← htail.2]

theorem ParserM.ite_apply {α : Type} (c : Prop) [Decidable c]
    (m1 m2 : ParserM α) (w : List Nat) (N : Nat) (s : PState) :
    (if c then m1 else m2) w N s = if c then m1 w N s else m2 w N s := by
  by_cases h : c <;> simp [h]

theorem ite_ok_state {α : Type} (c : Prop) [Decidable c] {A B v : α}
    {t s' : PState}
    (h : (if c then (Except.ok (A, t) : Except WkbErr (α × PState))
      else .ok (B, t)) = .ok (v, s')) : s' = t := by
  by_cases hc : c
  · rw [if_pos hc] at h
    exact ((by simpa using h : A = v ∧ t = s').2).symm
  · rw [if_neg hc] at h
    exact ((by simpa using h : B = v ∧ t = s').2).symm

set_option maxHeartbeats 1000000 in
theorem rspan_lwpoint : RSpan lwpoint_from_wkb_state := by
  intro w N s v s' hrun herr
  by_cases hchk : s.offset +
      (2 + (if s.has_z then 1 else 0) + (if s.has_m then 1 else 0)) * 8 > N
  · simp [lwpoint_from_wkb_state, wkb_parse_state_check, ParserM.bind_apply,
      getS_apply, getWkbSize_apply, perr_apply, WKB_DOUBLE_SIZE, hchk]
      at hrun
  · by_cases hswap : s.swap_bytes = true
    · simp only [lwpoint_from_wkb_state, wkb_parse_state_check,
        ParserM.bind_apply, getS_apply, getWkbSize_apply, perr_apply,
        ParserM.pure_apply, WKB_DOUBLE_SIZE] at hrun
      simp [hchk, herr, hswap, ParserM.bind_apply, getS_apply,
        ParserM.pure_apply] at hrun
      rcases heq : read_doubles (2 + (if s.has_z then 1 else 0) +
          (if s.has_m then 1 else 0)) w N s with e | p
      · rw [heq] at hrun
        simp at hrun
      · obtain ⟨ds, sd⟩ := p
        rw [heq] at hrun
        obtain ⟨hsd, hrdtr⟩ := read_doubles_run _ w N _ ds sd heq
        simp [ParserM.ite_apply, ParserM.bind_apply, getS_apply, ParserM.pure_apply]
          at hrun
        have hs' : s' = sd := ite_ok_state _ hrun
        have hoff : s'.offset = s.offset + 8 *
            (2 + (if s.has_z then 1 else 0) + (if s.has_m then 1 else 0)) := by
          rw [hs', hsd]
        refine ⟨by omega, ?_, ?_⟩
        · intro w' K hag hK
          have hrd' := hrdtr w' K (agree_mono hag (le_refl _)
            (by change s.offset + 8 * _ ≤ _; omega))
          simp only [lwpoint_from_wkb_state, wkb_parse_state_check,
            ParserM.bind_apply, getS_apply, getWkbSize_apply, perr_apply,
            ParserM.pure_apply, WKB_DOUBLE_SIZE]
          simp [herr, hswap, hrd', ParserM.ite_apply, ParserM.bind_apply,
            getS_apply, ParserM.pure_apply,
            eq_false (show ¬(K < s.offset + (2 +
              (if s.has_z then 1 else 0) + (if s.has_m then 1 else 0)) * 8)
              from by omega)]
          exact hrun
        · intro w' k hag hk1 hk2
          simp [lwpoint_from_wkb_state, wkb_parse_state_check,
            ParserM.bind_apply, getS_apply, getWkbSize_apply, perr_apply,
            ParserM.pure_apply, WKB_DOUBLE_SIZE,
            eq_true (show k < s.offset + (2 +
              (if s.has_z then 1 else 0) + (if s.has_m then 1 else 0)) * 8
              from by omega)]
    · simp only [lwpoint_from_wkb_state, wkb_parse_state_check,
        ParserM.bind_apply, getS_apply, getWkbSize_apply, perr_apply,
        ParserM.pure_apply, WKB_DOUBLE_SIZE] at hrun
      simp [hchk, herr, hswap, ParserM.bind_apply, getS_apply,
        setS_apply, ParserM.pure_apply] at hrun
      rcases heq : copy_doubles (2 + (if s.has_z then 1 else 0) +
          (if s.has_m then 1 else 0)) s.offset w N s with e | p
      · rw [heq] at hrun
        simp at hrun
      · obtain ⟨ds, sd⟩ := p
        rw [heq] at hrun
        obtain ⟨hsd, hcdtr⟩ := copy_doubles_run _ _ w N _ ds sd heq
        simp [ParserM.ite_apply, ParserM.bind_apply, getS_apply, setS_apply,
          ParserM.pure_apply] at hrun
        have hs' := ite_ok_state _ hrun
        have hoff : s'.offset = s.offset +
            (2 + (if s.has_z then 1 else 0) + (if s.has_m then 1 else 0)) *
              8 := by
          rw [hs']
        refine ⟨by omega, ?_, ?_⟩
        · intro w' K hag hK
          have hcd' := hcdtr w' K (agree_mono hag (le_refl _)
            (by change s.offset + 8 * _ ≤ _; omega))
          simp only [lwpoint_from_wkb_state, wkb_parse_state_check,
            ParserM.bind_apply, getS_apply, getWkbSize_apply, perr_apply,
            ParserM.pure_apply, WKB_DOUBLE_SIZE]
          simp [herr, hswap, hcd', ParserM.ite_apply, setS_apply,
            ParserM.bind_apply, getS_apply, ParserM.pure_apply,
            eq_false (show ¬(K < s.offset + (2 +
              (if s.has_z then 1 else 0) + (if s.has_m then 1 else 0)) * 8)
              from by omega)]
          exact hrun
        · intro w' k hag hk1 hk2
          simp [lwpoint_from_wkb_state, wkb_parse_state_check,
            ParserM.bind_apply, getS_apply, getWkbSize_apply, perr_apply,
            ParserM.pure_apply, WKB_DOUBLE_SIZE,
            eq_true (show k < s.offset + (2 +
              (if s.has_z then 1 else 0) + (if s.has_m then 1 else 0)) * 8
              from by omega)]

theorem lwpoly_rings_succ_eq (n : Nat) (acc : List PtArray) :
    lwpoly_rings (n + 1) acc =
      ptarray_from_wkb_state >>= lwpoly_rings_tail n acc := rfl

theorem rspan_lwpoly_rings (n : Nat) : ∀ acc, RSpan (lwpoly_rings n acc) := by
  induction n with
  | zero =>
    intro acc
    exact stateOnly_rspan (stateOnly_pure _)
  | succ n ih =>
    intro acc
    rw [lwpoly_rings_succ_eq]
    refine rspan_bind _ _ rspan_ptarray ?_
    intro w N s pa? s₁ hok herr
    rcases pa? with _ | pa
    · exact Or.inl (stateOnly_pure _)
    · refine Or.inr (Or.inl ⟨ptarray_some_err w N s pa s₁ hok herr, ?_⟩)
      exact rspan_getS _ (fun t =>
        rspan_ite _ _ _ (rspan_perr _)
          (rspan_ite _ _ _ (rspan_perr _) (ih (acc ++ [pa]))))

theorem rspan_seq_unit {α : Type} (k : PUnit → ParserM α)
    (h : RSpan (k PUnit.unit)) : RSpan (pure PUnit.unit >>= k) := h

theorem stateOnly_seq_unit {α : Type} (k : PUnit → ParserM α)
    (h : StateOnly (k PUnit.unit)) : StateOnly (pure PUnit.unit >>= k) := h

theorem rspan_guard {α : Type} (c : Prop) [Decidable c] (e : WkbErr)
    (jp : PUnit → ParserM α) (h : RSpan (jp PUnit.unit)) :
    RSpan (if c then perr e >>= jp else pure PUnit.unit >>= jp) := by
  by_cases hc : c
  · rw [if_pos hc]
    intro w N s v s' hrun herr
    rw [show (perr e >>= jp) w N s = .error e from rfl] at hrun
    cases hrun
  · rw [if_neg hc]
    exact h

theorem rspan_lwpoly : RSpan lwpoly_from_wkb_state := by
  rw [lwpoly_eq]
  refine rspan_bind_flag rspan_int
    (fun w N s a s₁ h he => int_err w N s a s₁ h he) ?_
  intro nrings
  apply rspan_getS
  intro t
  apply rspan_ite
  · exact rspan_pure _
  · apply rspan_seq_unit
    apply rspan_ite
    · exact rspan_pure _
    · apply rspan_seq_unit
      exact rspan_bind_so (rspan_lwpoly_rings nrings []) (stateOnly_lwpoly_fin t)

theorem rspan_lwtriangle : RSpan lwtriangle_from_wkb_state := by
  rw [lwtriangle_eq]
  refine rspan_bind_flag rspan_int
    (fun w N s a s₁ h he => int_err w N s a s₁ h he) ?_
  intro nr
  apply rspan_getS
  intro t
  apply rspan_ite
  · exact rspan_pure _
  · apply rspan_seq_unit
    apply rspan_ite
    · exact rspan_pure _
    · apply rspan_seq_unit
      apply rspan_guard
      exact rspan_bind_so rspan_ptarray stateOnly_tri_tail2

theorem flag_true_geom (F : Nat) (w : List Nat) (N : Nat) (s : PState)
    (herr : s.error = true) :
    (∃ e, lwgeom_from_wkb_state F w N s = .error e) ∨
    lwgeom_from_wkb_state F w N s = .ok (none, s) := by
  cases F with
  | zero => exact Or.inl ⟨.stackDepth, rfl⟩
  | succ F =>
    rw [lwgeom_succ_eq]
    by_cases hchk : s.offset + 1 > N
    · refine Or.inl ⟨.expectedSize, ?_⟩
      simp [geom_body, ParserM.bind_apply, byte_char, hchk]
    · right
      simp [geom_body, ParserM.bind_apply, byte_char, hchk, herr, geom_tail,
        getS_apply, ParserM.pure_apply]

theorem coll_geoms_succ_eq (recur : ParserM (Option Geom)) (k : Nat)
    (acc : List Geom) :
    lwcollection_geoms recur (k + 1) acc =
      recur >>= coll_geoms_tail recur k acc := rfl

theorem cp_rings_succ_eq (recur : ParserM (Option Geom)) (k : Nat)
    (acc : List Geom) :
    lwcurvepoly_rings recur (k + 1) acc =
      recur >>= cp_rings_tail recur k acc := rfl

theorem coll_geoms_flag (recur : ParserM (Option Geom))
    (hflag : ∀ w N s, s.error = true →
      (∃ e, recur w N s = .error e) ∨ recur w N s = .ok (none, s))
    (k : Nat) (acc : List Geom) (w : List Nat) (N : Nat) (s : PState)
    (herr : s.error = true) (r : List Geom × PState) :
    lwcollection_geoms recur (k + 1) acc w N s ≠ .ok r := by
  intro hok
  rw [coll_geoms_succ_eq] at hok
  obtain ⟨g?, s₁, h1, h2⟩ := bind_ok hok
  rcases hflag w N s herr with ⟨e, he⟩ | he
  · rw [he] at h1
    cases h1
  · rw [he] at h1
    have hg : none = g? ∧ s = s₁ := by simpa using h1
    rw [← hg.1] at h2
    simp [coll_geoms_tail, perr_apply] at h2

theorem cp_rings_flag (recur : ParserM (Option Geom))
    (hflag : ∀ w N s, s.error = true →
      (∃ e, recur w N s = .error e) ∨ recur w N s = .ok (none, s))
    (k : Nat) (acc : List Geom) (w : List Nat) (N : Nat) (s : PState)
    (herr : s.error = true) (r : List Geom × PState) :
    lwcurvepoly_rings recur (k + 1) acc w N s ≠ .ok r := by
  intro hok
  rw [cp_rings_succ_eq] at hok
  obtain ⟨g?, s₁, h1, h2⟩ := bind_ok hok
  rcases hflag w N s herr with ⟨e, he⟩ | he
  · rw [he] at h1
    cases h1
  · rw [he] at h1
    have hg : none = g? ∧ s = s₁ := by simpa using h1
    rw [← hg.1] at h2
    simp [cp_rings_tail, perr_apply] at h2

theorem rspan_coll_geoms (recur : ParserM (Option Geom))
    (hrec : RSpan recur)
    (hflag : ∀ w N s, s.error = true →
      (∃ e, recur w N s = .error e) ∨ recur w N s = .ok (none, s)) :
    ∀ (k : Nat) (acc : List Geom),
      RSpan (lwcollection_geoms recur k acc) := by
  intro k
  induction k with
  | zero =>
    intro acc
    exact stateOnly_rspan (stateOnly_pure _)
  | succ k ih =>
    intro acc
    rw [coll_geoms_succ_eq]
    refine rspan_bind _ _ hrec ?_
    intro w N s g? s₁ hok herr
    rcases g? with _ | g
    · exact Or.inl (stateOnly_perr _)
    · cases k with
      | zero => exact Or.inl (stateOnly_pure _)
      | succ k' =>
        by_cases h1 : s₁.error = true
        · refine Or.inr (Or.inr ?_)
          intro v₂ s₂ hko
          exact coll_geoms_flag recur hflag k' (acc ++ [g]) w N s₁ h1
            (v₂, s₂) hko
        · exact Or.inr (Or.inl ⟨by simpa using h1, ih (acc ++ [g])⟩)

theorem rspan_cp_rings (recur : ParserM (Option Geom))
    (hrec : RSpan recur)
    (hflag : ∀ w N s, s.error = true →
      (∃ e, recur w N s = .error e) ∨ recur w N s = .ok (none, s)) :
    ∀ (k : Nat) (acc : List Geom),
      RSpan (lwcurvepoly_rings recur k acc) := by
  intro k
  induction k with
  | zero =>
    intro acc
    exact stateOnly_rspan (stateOnly_pure _)
  | succ k ih =>
    intro acc
    rw [cp_rings_succ_eq]
    refine rspan_bind _ _ hrec ?_
    intro w N s g? s₁ hok herr
    rcases g? with _ | g
    · exact Or.inl (stateOnly_perr _)
    · cases k with
      | zero =>
        exact Or.inl (stateOnly_ite _ _ _ (stateOnly_pure _)
          (stateOnly_perr _))
      | succ k' =>
        by_cases h1 : s₁.error = true
        · refine Or.inr (Or.inr ?_)
          intro v₂ s₂ hko
          by_cases hc : curvepolyRingOk g = true
          · simp only [cp_rings_tail, hc, if_true] at hko
            exact cp_rings_flag recur hflag k' (acc ++ [g]) w N s₁ h1
              (v₂, s₂) hko
          · simp only [cp_rings_tail, hc, if_false, Bool.false_eq_true]
              at hko
            simp [perr_apply] at hko
        · refine Or.inr (Or.inl ⟨by simpa using h1, ?_⟩)
          apply rspan_ite
          · exact ih (acc ++ [g])
          · exact rspan_perr _

theorem rspan_modify_guard {α : Type} (c : Prop) [Decidable c]
    (g : PState → PState) (jp : PUnit → ParserM α)
    (hg : ∀ t, (g t).offset = t.offset ∧ (g t).error = t.error)
    (h : RSpan (jp PUnit.unit)) :
    RSpan (if c then modifyS g >>= jp else pure PUnit.unit >>= jp) := by
  by_cases hc : c
  · rw [if_pos hc]
    exact rspan_modifyS g jp hg h
  · rw [if_neg hc]
    exact h

theorem rspan_coll_tail (recur : ParserM (Option Geom))
    (hrec : RSpan recur)
    (hflag : ∀ w N s, s.error = true →
      (∃ e, recur w N s = .error e) ∨ recur w N s = .ok (none, s))
    (ngeoms : Nat) : RSpan (coll_tail recur ngeoms) := by
  apply rspan_getS
  intro t
  apply rspan_ite
  · exact rspan_pure _
  · apply rspan_seq_unit
    apply rspan_ite
    · exact rspan_pure _
    · apply rspan_seq_unit
      refine rspan_modify_guard _ _ _ ?_ ?_
      · intro t2
        exact ⟨rfl, rfl⟩
      refine rspan_modifyS _ _ ?_ ?_
      · intro t2
        exact ⟨rfl, rfl⟩
      apply rspan_getS
      intro t1
      apply rspan_guard
      refine rspan_bind_so (rspan_coll_geoms recur hrec hflag ngeoms []) ?_
      intro geoms
      refine stateOnly_bind ?_ (fun u => stateOnly_pure _)
      refine stateOnly_modifyS _ ?_
      intro t2
      exact ⟨rfl, rfl⟩

theorem rspan_cp_tail (recur : ParserM (Option Geom))
    (hrec : RSpan recur)
    (hflag : ∀ w N s, s.error = true →
      (∃ e, recur w N s = .error e) ∨ recur w N s = .ok (none, s))
    (ngeoms : Nat) : RSpan (cp_tail recur ngeoms) := by
  apply rspan_getS
  intro t
  apply rspan_ite
  · exact rspan_pure _
  · apply rspan_seq_unit
    apply rspan_ite
    · exact rspan_pure _
    · apply rspan_seq_unit
      exact rspan_bind_so (rspan_cp_rings recur hrec hflag ngeoms [])
        (fun rings => stateOnly_pure _)

theorem rspan_lwcurvepoly (recur : ParserM (Option Geom))
    (hrec : RSpan recur)
    (hflag : ∀ w N s, s.error = true →
      (∃ e, recur w N s = .error e) ∨ recur w N s = .ok (none, s)) :
    RSpan (lwcurvepoly_from_wkb_state recur) := by
  rw [cp_eq]
  refine rspan_bind_flag rspan_int
    (fun w N s a s₁ h he => int_err w N s a s₁ h he) ?_
  intro ngeoms
  exact rspan_cp_tail recur hrec hflag ngeoms

theorem rspan_lwcollection (recur : ParserM (Option Geom))
    (hrec : RSpan recur)
    (hflag : ∀ w N s, s.error = true →
      (∃ e, recur w N s = .error e) ∨ recur w N s = .ok (none, s)) :
    RSpan (lwcollection_from_wkb_state recur) := by
  rw [coll_eq]
  refine rspan_bind_flag rspan_int
    (fun w N s a s₁ h he => int_err w N s a s₁ h he) ?_
  intro ngeoms
  exact rspan_coll_tail recur hrec hflag ngeoms

theorem rspan_geom_dispatch (recur : ParserM (Option Geom))
    (hrec : RSpan recur)
    (hflag : ∀ w N s, s.error = true →
      (∃ e, recur w N s = .error e) ∨ recur w N s = .ok (none, s)) :
    RSpan (geom_dispatch recur) := by
  apply rspan_getS
  intro s4
  cases ht : s4.lwtype with
  | none => exact rspan_perr _
  | some t =>
    cases t with
    | point => exact rspan_lwpoint
    | line => exact rspan_lwline
    | polygon => exact rspan_lwpoly
    | circstring => exact rspan_lwcirc
    | triangle => exact rspan_lwtriangle
    | curvepoly => exact rspan_lwcurvepoly recur hrec hflag
    | compound => exact rspan_lwcollection recur hrec hflag
    | multipoint => exact rspan_lwcollection recur hrec hflag
    | multiline => exact rspan_lwcollection recur hrec hflag
    | multipolygon => exact rspan_lwcollection recur hrec hflag
    | multicurve => exact rspan_lwcollection recur hrec hflag
    | multisurface => exact rspan_lwcollection recur hrec hflag
    | polyhedralsurface => exact rspan_lwcollection recur hrec hflag
    | tin => exact rspan_lwcollection recur hrec hflag
    | collection => exact rspan_lwcollection recur hrec hflag

theorem rspan_geom_tail4 (recur : ParserM (Option Geom))
    (hd : RSpan (geom_dispatch recur)) : RSpan (geom_tail4 recur) := by
  apply rspan_getS
  intro s2
  apply rspan_ite
  · refine rspan_bind_flag rspan_int
      (fun w N s a s₁ h he => int_err w N s a s₁ h he) ?_
    intro sr
    refine rspan_modifyS _ _ ?_ ?_
    · intro t2
      exact ⟨rfl, rfl⟩
    apply rspan_getS
    intro s3
    apply rspan_ite
    · exact rspan_pure _
    · exact rspan_seq_unit _ hd
  · exact rspan_seq_unit _ hd

theorem rspan_geom_tail3 (recur : ParserM (Option Geom)) (wkb_type : Nat)
    (h4 : RSpan (geom_tail4 recur)) : RSpan (geom_tail3 recur wkb_type) := by
  apply rspan_getS
  intro s1
  apply rspan_ite
  · exact rspan_pure _
  · apply rspan_seq_unit
    exact rspan_so_bind (stateOnly_lwtype wkb_type) (fun _ => h4)

theorem rspan_geom_tail (recur : ParserM (Option Geom))
    (wkb_little_endian : Nat)
    (h3 : ∀ wkb_type, RSpan (geom_tail3 recur wkb_type)) :
    RSpan (geom_tail recur wkb_little_endian) := by
  apply rspan_getS
  intro t
  apply rspan_ite
  · exact rspan_pure _
  · apply rspan_seq_unit
    apply rspan_guard
    refine rspan_modifyS _ _ ?_ ?_
    · intro t2
      exact ⟨rfl, rfl⟩
    refine rspan_bind_flag rspan_int
      (fun w N s a s₁ h he => int_err w N s a s₁ h he) ?_
    intro wkb_type
    exact h3 wkb_type

theorem rspan_geom_body (recur : ParserM (Option Geom))
    (hrec : RSpan recur)
    (hflag : ∀ w N s, s.error = true →
      (∃ e, recur w N s = .error e) ∨ recur w N s = .ok (none, s)) :
    RSpan (geom_body recur) := by
  refine rspan_bind_flag rspan_byte
    (fun w N s a s₁ h he => byte_err w N s a s₁ h he) ?_
  intro b
  apply rspan_geom_tail recur b
  intro wkb_type
  apply rspan_geom_tail3 recur wkb_type
  apply rspan_geom_tail4 recur
  exact rspan_geom_dispatch recur hrec hflag

theorem rspan_lwgeom : ∀ F : Nat, RSpan (lwgeom_from_wkb_state F) := by
  intro F
  induction F with
  | zero => exact rspan_perr _
  | succ F ih =>
    rw [lwgeom_succ_eq]
    exact rspan_geom_body (lwgeom_from_wkb_state F) ih
      (fun w N s herr => flag_true_geom F w N s herr)

/-- C1 counterexample: `wkbPoint21` is a valid 21-byte WKB buffer (its
decode succeeds and consumes all 21 bytes), yet truncating it to k = 0
bytes — a case the claim covers with its range `0 <= k < N` — makes
`lwgeom_from_wkb` return a bare NULL with no bounds/format error at
all: the size-0 guard exits before any parsing. -/
theorem C1_counterexample :
    lwgeom_from_wkb_state 10 wkbPoint21 wkbPoint21.length (initState 0) =
      .ok (some wkbPoint21Geom, wkbPoint21End) ∧
    wkbPoint21End.offset = wkbPoint21.length ∧
    0 < wkbPoint21.length ∧
    ∀ e, lwgeom_from_wkb (wkbPoint21.take 0) 0 0 10 ≠ .error e := by
  refine ⟨rfl, rfl, by decide, ?_⟩
  intro e h
  exact Except.noConfusion h

/-- C1 (amended): for every valid WKB buffer — one whose decode under any
check flags and any call budget succeeds and consumes exactly the whole
buffer — and every truncation to k bytes with 1 ≤ k < N, decoding the
truncated buffer with the truncated declared length fails with the
"structure does not match declared size" error (`WkbErr.expectedSize`).
In this embedding every dereference of a byte outside the buffer
produces the distinct error `WkbErr.ub`, and the monad stops at the
first error, so the result being `expectedSize` certifies that no read
touched a byte outside the k-byte buffer. (Truncation to k = 0 instead
returns NULL without an error; see the counterexample.) -/
theorem C1_truncation_safety (w : List Nat) (check fuel : Nat) (g : Geom)
    (s' : PState) (k : Nat)
    (hok : lwgeom_from_wkb_state fuel w w.length (initState check) =
      .ok (some g, s'))
    (hall : s'.offset = w.length)
    (hk1 : 1 ≤ k) (hk : k < w.length) :
    lwgeom_from_wkb (w.take k) k check fuel = .error .expectedSize := by
  obtain ⟨h1, h2, h3⟩ :=
    rspan_lwgeom fuel w w.length (initState check) (some g) s' hok rfl
  have hrun := h3 (w.take k) k (agree_take w k) (Nat.zero_le k)
    (by rw [hall]; exact hk)
  have hk0 : k ≠ 0 := by omega
  rw [lwgeom_from_wkb, if_neg hk0, hrun]

/-- C1 witness: truncating the valid 21-byte point buffer to 5 bytes
fails with the declared-size error. -/
theorem C1_truncation_safety_witness :
    lwgeom_from_wkb (wkbPoint21.take 5) 5 0 10 = .error .expectedSize :=
  C1_truncation_safety wkbPoint21 0 10 wkbPoint21Geom wkbPoint21End 5
    rfl rfl (by decide) (by decide)

/-- C10: the decoder never requires the whole declared buffer to be
consumed.  If the first k bytes of a buffer (k at most the buffer
length) form a complete valid WKB encoding — decoding exactly those k
bytes with declared size k succeeds and ends with the cursor at k —
then `lwgeom_from_wkb` on the full buffer with its full declared length
succeeds and returns the same geometry, silently ignoring the trailing
bytes. -/
theorem C10_trailing_bytes_ignored (b : List Nat) (check fuel k : Nat)
    (g : Geom) (s' : PState)
    (hk : k ≤ b.length)
    (hok : lwgeom_from_wkb_state fuel (b.take k) k (initState check) =
      .ok (some g, s'))
    (hall : s'.offset = k) :
    lwgeom_from_wkb b b.length check fuel = .ok (some g) := by
  obtain ⟨h1, h2, h3⟩ :=
    rspan_lwgeom fuel (b.take k) k (initState check) (some g) s' hok rfl
  have hrun := h2 b b.length (by rw [hall]; exact agree_of_take b k)
    (by rw [hall]; exact hk)
  have hne : b.length ≠ 0 := by
    intro h0
    have hk0 : k = 0 := by omega
    subst hk0
    cases fuel with
    | zero => exact Except.noConfusion hok
    | succ F =>
      rw [lwgeom_succ_eq] at hok
      simp [geom_body, ParserM.bind_apply, byte_char, initState] at hok
  rw [lwgeom_from_wkb, if_neg hne, hrun]

/-- C10 witness: the 21-byte point buffer with three junk bytes
appended still decodes, to the same point. -/
theorem C10_trailing_bytes_ignored_witness :
    lwgeom_from_wkb wkbPoint21Junk wkbPoint21Junk.length 0 10 =
      .ok (some wkbPoint21Geom) :=
  C10_trailing_bytes_ignored wkbPoint21Junk 0 10 21 wkbPoint21Geom
    wkbPoint21End (by decide) rfl rfl

/-! ## Encoder structure lemmas -/

theorem encTuples_flatten (le : Bool) (pts : List (List Nat)) :
    encTuples le pts = (pts.flatten.map (enc64 le)).flatten := by
  induction pts with
  | nil => rfl
  | cons p t ih =>
    simp only [encTuples, List.map_cons, List.flatten_cons,
      List.map_append, List.flatten_append]
    rw [← ih]
    rfl

theorem flatten_enc64_length (le : Bool) (ds : List Nat) :
    ((ds.map (enc64 le)).flatten).length = 8 * ds.length := by
  induction ds with
  | nil => rfl
  | cons d t ih =>
    simp [enc64_length, ih]
    ring

theorem encPtArrayBody_length (le : Bool) (pa : PtArray)
    (hp2 : ∀ p ∈ pa.pts, p.length = 2) :
    (encPtArrayBody le pa).length = 4 + 16 * pa.pts.length := by
  rw [encPtArrayBody, List.length_append, enc32_length, encTuples_flatten,
    flatten_enc64_length, flatten_pts_length pa.pts hp2]
  ring

theorem encHeader_length (le : Bool) (code : Nat) (z m : Bool) (sr : Int) :
    (encHeader le code z m sr).length =
      if sr = SRID_UNKNOWN then 5 else 9 := by
  by_cases hsr : sr = SRID_UNKNOWN <;>
    simp [encHeader, enc32_length, hsr]

theorem lwtypeWkbCode_lt (t : LWType) : lwtypeWkbCode t < 0x10000000 := by
  cases t <;> decide

theorem flag_word_lt (code : Nat) (z m hs : Bool)
    (hc : code < 0x10000000) :
    code + (if z then WKBZOFFSET else 0) + (if m then WKBMOFFSET else 0) +
      (if hs then WKBSRIDFLAG else 0) < 2 ^ 32 := by
  cases z <;> cases m <;> cases hs <;>
    simp [WKBZOFFSET, WKBMOFFSET, WKBSRIDFLAG] <;> omega

theorem lwtype_flags_step (t : LWType) (z m hs : Bool) (w : List Nat)
    (N : Nat) (s : PState) :
    lwtype_from_wkb_state (lwtypeWkbCode t + (if z then WKBZOFFSET else 0) +
        (if m then WKBMOFFSET else 0) +
        (if hs then WKBSRIDFLAG else 0)) w N s =
      .ok ((), { s with
        has_z := z
        has_m := m
        has_srid := hs
        lwtype := some t }) := by
  cases t <;> cases z <;> cases m <;> cases hs <;> rfl

/-! ## Header execution: endian byte, flagged type word, SRID field -/

theorem header_step_nosrid (recur : ParserM (Option Geom)) (t : LWType)
    (z m : Bool) (le : Bool) (w rest : List Nat) (s : PState) (word : Nat)
    (hword : word = lwtypeWkbCode t + (if z then WKBZOFFSET else 0) +
      (if m then WKBMOFFSET else 0))
    (hw : w.drop s.offset =
      encHeader le (lwtypeWkbCode t) z m SRID_UNKNOWN ++ rest)
    (herr : s.error = false) :
    geom_body recur w w.length s =
      geom_dispatch recur w w.length
        { s with
          swap_bytes := !le
          lwtype := some t
          has_z := z
          has_m := m
          has_srid := false
          offset := s.offset + 5 } := by
  have hwlt : word < 2 ^ 32 := by
    rw [hword]
    have := flag_word_lt (lwtypeWkbCode t) z m false (lwtypeWkbCode_lt t)
    simpa using this
  cases le with
  | true =>
    have hb : w.drop s.offset = 1 :: (enc32 true word ++ rest) := by
      rw [hword]
      simpa [encHeader, List.append_assoc] using hw
    have h1 := byte_step w s 1 (enc32 true word ++ rest) hb herr
    have hd1 : w.drop (s.offset + 1) = enc32 true word ++ rest :=
      drop_cons_drop w s.offset 1 _ hb
    have h2 := int_step w
      { s with
        swap_bytes := false
        error := false
        offset := s.offset + 1 }
      true word rest (by simpa using hd1) rfl rfl
    rw [Nat.mod_eq_of_lt hwlt] at h2
    have h3 := lwtype_flags_step t z m false w w.length
      { s with
        swap_bytes := false
        error := false
        offset := s.offset + 5 }
    rw [show lwtypeWkbCode t + (if z then WKBZOFFSET else 0) +
        (if m then WKBMOFFSET else 0) + (if false then WKBSRIDFLAG else 0) =
        word by rw [hword]; simp] at h3
    show (byte_from_wkb_state >>= geom_tail recur) w w.length s = _
    simp [geom_tail, geom_tail3, geom_tail4, ParserM.bind_apply, h1, h2,
      h3, getS_apply, modifyS_apply, perr_apply, ParserM.pure_apply, herr]
  | false =>
    have hb : w.drop s.offset = 0 :: (enc32 false word ++ rest) := by
      rw [hword]
      simpa [encHeader, List.append_assoc] using hw
    have h1 := byte_step w s 0 (enc32 false word ++ rest) hb herr
    have hd1 : w.drop (s.offset + 1) = enc32 false word ++ rest :=
      drop_cons_drop w s.offset 0 _ hb
    have h2 := int_step w
      { s with
        swap_bytes := true
        error := false
        offset := s.offset + 1 }
      false word rest (by simpa using hd1) rfl rfl
    rw [Nat.mod_eq_of_lt hwlt] at h2
    have h3 := lwtype_flags_step t z m false w w.length
      { s with
        swap_bytes := true
        error := false
        offset := s.offset + 5 }
    rw [show lwtypeWkbCode t + (if z then WKBZOFFSET else 0) +
        (if m then WKBMOFFSET else 0) + (if false then WKBSRIDFLAG else 0) =
        word by rw [hword]; simp] at h3
    show (byte_from_wkb_state >>= geom_tail recur) w w.length s = _
    simp [geom_tail, geom_tail3, geom_tail4, ParserM.bind_apply, h1, h2,
      h3, getS_apply, modifyS_apply, perr_apply, ParserM.pure_apply, herr]

theorem header_step_srid (recur : ParserM (Option Geom)) (t : LWType)
    (z m : Bool) (sr : Int) (le : Bool) (w rest : List Nat) (s : PState)
    (word : Nat)
    (hsr : sr ≠ SRID_UNKNOWN)
    (hword : word = lwtypeWkbCode t + (if z then WKBZOFFSET else 0) +
      (if m then WKBMOFFSET else 0) + WKBSRIDFLAG)
    (hw : w.drop s.offset =
      encHeader le (lwtypeWkbCode t) z m sr ++ rest)
    (herr : s.error = false) :
    geom_body recur w w.length s =
      geom_dispatch recur w w.length
        { s with
          srid := clamp_srid (toInt32 ((sr % 2 ^ 32).toNat % 2 ^ 32))
          swap_bytes := !le
          lwtype := some t
          has_z := z
          has_m := m
          has_srid := true
          offset := s.offset + 9 } := by
  have hwlt : word < 2 ^ 32 := by
    rw [hword]
    have := flag_word_lt (lwtypeWkbCode t) z m true (lwtypeWkbCode_lt t)
    simpa using this
  cases le with
  | true =>
    have hb : w.drop s.offset =
        1 :: (enc32 true word ++ (enc32 true (sr % 2 ^ 32).toNat ++ rest)) := by
      rw [hword]
      simpa [encHeader, hsr, List.append_assoc] using hw
    have h1 := byte_step w s 1 _ hb herr
    have hd1 : w.drop (s.offset + 1) =
        enc32 true word ++ (enc32 true (sr % 2 ^ 32).toNat ++ rest) :=
      drop_cons_drop w s.offset 1 _ hb
    have h2 := int_step w
      { s with
        swap_bytes := false
        error := false
        offset := s.offset + 1 }
      true word (enc32 true (sr % 2 ^ 32).toNat ++ rest)
      (by simpa using hd1) rfl rfl
    rw [Nat.mod_eq_of_lt hwlt] at h2
    have h3 := lwtype_flags_step t z m true w w.length
      { s with
        swap_bytes := false
        error := false
        offset := s.offset + 5 }
    rw [show lwtypeWkbCode t + (if z then WKBZOFFSET else 0) +
        (if m then WKBMOFFSET else 0) + (if true then WKBSRIDFLAG else 0) =
        word by rw [hword]; simp] at h3
    have hd5 : w.drop (s.offset + 1 + 4) =
        enc32 true (sr % 2 ^ 32).toNat ++ rest := by
      have := drop_app_drop w (enc32 true word)
        (enc32 true (sr % 2 ^ 32).toNat ++ rest) (s.offset + 1) hd1
      rwa [enc32_length] at this
    have h4 := int_step w
      { s with
        swap_bytes := false
        lwtype := some t
        has_z := z
        has_m := m
        has_srid := true
        error := false
        offset := s.offset + 5 }
      true ((sr % 2 ^ 32).toNat) rest
      (by simpa [Nat.add_assoc] using hd5) rfl rfl
    show (byte_from_wkb_state >>= geom_tail recur) w w.length s = _
    simp [geom_tail, geom_tail3, geom_tail4, ParserM.bind_apply, h1, h2,
      h3, h4, getS_apply, modifyS_apply, perr_apply, ParserM.pure_apply,
      herr, Nat.add_assoc]
  | false =>
    have hb : w.drop s.offset =
        0 :: (enc32 false word ++ (enc32 false (sr % 2 ^ 32).toNat ++ rest)) := by
      rw [hword]
      simpa [encHeader, hsr, List.append_assoc] using hw
    have h1 := byte_step w s 0 _ hb herr
    have hd1 : w.drop (s.offset + 1) =
        enc32 false word ++ (enc32 false (sr % 2 ^ 32).toNat ++ rest) :=
      drop_cons_drop w s.offset 0 _ hb
    have h2 := int_step w
      { s with
        swap_bytes := true
        error := false
        offset := s.offset + 1 }
      false word (enc32 false (sr % 2 ^ 32).toNat ++ rest)
      (by simpa using hd1) rfl rfl
    rw [Nat.mod_eq_of_lt hwlt] at h2
    have h3 := lwtype_flags_step t z m true w w.length
      { s with
        swap_bytes := true
        error := false
        offset := s.offset + 5 }
    rw [show lwtypeWkbCode t + (if z then WKBZOFFSET else 0) +
        (if m then WKBMOFFSET else 0) + (if true then WKBSRIDFLAG else 0) =
        word by rw [hword]; simp] at h3
    have hd5 : w.drop (s.offset + 1 + 4) =
        enc32 false (sr % 2 ^ 32).toNat ++ rest := by
      have := drop_app_drop w (enc32 false word)
        (enc32 false (sr % 2 ^ 32).toNat ++ rest) (s.offset + 1) hd1
      rwa [enc32_length] at this
    have h4 := int_step w
      { s with
        swap_bytes := true
        lwtype := some t
        has_z := z
        has_m := m
        has_srid := true
        error := false
        offset := s.offset + 5 }
      false ((sr % 2 ^ 32).toNat) rest
      (by simpa [Nat.add_assoc] using hd5) rfl rfl
    show (byte_from_wkb_state >>= geom_tail recur) w w.length s = _
    simp [geom_tail, geom_tail3, geom_tail4, ParserM.bind_apply, h1, h2,
      h3, h4, getS_apply, modifyS_apply, perr_apply, ParserM.pure_apply,
      herr, Nat.add_assoc]

theorem encPtArrayBody_true_eq (pts : List (List Nat)) :
    encPtArrayBody true ⟨false, false, pts⟩ = ptsBody pts := by
  simp [encPtArrayBody, ptsBody, encTuples_flatten, PtArray.npoints]

/-- `ptarray_from_wkb_state` over an encoded 2-D point array in either
byte order: returns exactly the encoded tuples and advances the cursor
past the count and the doubles. -/
theorem ptarray_2d_decode (le : Bool) (w : List Nat) (s : PState)
    (pts : List (List Nat)) (rest : List Nat)
    (hw : w.drop s.offset = encPtArrayBody le ⟨false, false, pts⟩ ++ rest)
    (herr : s.error = false) (hz : s.has_z = false) (hm : s.has_m = false)
    (hswap : s.swap_bytes = !le)
    (hp2 : ∀ p ∈ pts, p.length = 2)
    (hpv : ∀ p ∈ pts, ∀ c ∈ p, c < 2 ^ 64)
    (hn : pts.length ≤ maxpoints) :
    ptarray_from_wkb_state w w.length s =
      .ok (some ⟨false, false, pts⟩,
        { s with offset := s.offset + (4 + 16 * pts.length) }) := by
  cases le with
  | true =>
    rw [encPtArrayBody_true_eq] at hw
    exact ptarray_2d_step w s pts rest hw herr hz hm (by simpa using hswap)
      hp2 hpv hn
  | false =>
    have hklt : pts.length < 2 ^ 32 := by
      rw [maxpoints_eq] at hn
      omega
    have hswap2 : s.swap_bytes = true := by simpa using hswap
    have hwu : w.drop s.offset = enc32 false pts.length ++
        ((pts.flatten.map (enc64 false)).flatten ++ rest) := by
      simpa [encPtArrayBody, encTuples_flatten, PtArray.npoints,
        List.append_assoc] using hw
    have h1 := int_step w s false pts.length
      ((pts.flatten.map (enc64 false)).flatten ++ rest) hwu herr
      (by simpa using hswap)
    rw [Nat.mod_eq_of_lt hklt] at h1
    have hd4 : w.drop (s.offset + 4) =
        (pts.flatten.map (enc64 false)).flatten ++ rest := by
      have := drop_app_drop w (enc32 false pts.length)
        ((pts.flatten.map (enc64 false)).flatten ++ rest) s.offset hwu
      rwa [enc32_length] at this
    have hnmax : ¬ (pts.length > maxpoints) := Nat.not_lt.2 hn
    by_cases hk0 : pts.length = 0
    · have hpts : pts = [] := List.length_eq_zero.1 hk0
      subst hpts
      simp [ptarray_from_wkb_state, ParserM.bind_apply, h1, getS_apply,
        setS_apply, perr_apply, ParserM.pure_apply, herr, hz, hm,
        ptarray_construct, hnmax]
    · have hbound : s.offset + (4 + 16 * pts.length) ≤ w.length := by
        have hlen : (encPtArrayBody false ⟨false, false, pts⟩).length =
            4 + 16 * pts.length :=
          encPtArrayBody_length false ⟨false, false, pts⟩ hp2
        have hne : encPtArrayBody false ⟨false, false, pts⟩ ≠ [] := by
          intro hc
          rw [hc] at hlen
          simp only [List.length_nil] at hlen
          omega
        have := drop_app_bound w (encPtArrayBody false ⟨false, false, pts⟩)
          rest s.offset hw hne
        rw [hlen] at this
        omega
      have hnb : ¬ (s.offset + 4 + pts.length * 2 * 8 > w.length) := by
        omega
      have hread := read_doubles_step w w.length pts.flatten rest
        { s with
          swap_bytes := true
          has_z := false
          has_m := false
          error := false
          offset := s.offset + 4 }
        rfl (by simpa using hd4)
      rw [flatten_pts_length pts hp2, flatten_mod_id pts hpv] at hread
      simp [ptarray_from_wkb_state, ParserM.bind_apply, h1, getS_apply,
        setS_apply, perr_apply, ParserM.pure_apply, wkb_parse_state_check,
        getWkbSize_apply, herr, hz, hm, hswap2, hk0, hnmax, hnb, hread,
        WKB_DOUBLE_SIZE, chunkPts_flatten 2 pts hp2]
      omega

/-- The polygon ring loop over encoded 2-D rings in either byte order:
appends exactly the encoded rings (the MINPOINTS and CLOSURE guards
pass under check flags 0). -/
theorem lwpoly_rings_decode (le : Bool) (w : List Nat) :
    ∀ (rs : List PtArray) (acc : List PtArray) (rest : List Nat) (s : PState),
      w.drop s.offset = (rs.map (encPtArrayBody le)).flatten ++ rest →
      s.error = false → s.check = 0 → s.has_z = false → s.has_m = false →
      s.swap_bytes = !le →
      (∀ r ∈ rs, r.hasZ = false ∧ r.hasM = false ∧ WFPts r.pts ∧
        r.pts.length ≤ maxpoints) →
      lwpoly_rings rs.length acc w w.length s =
        .ok (some (acc ++ rs),
          { s with offset := s.offset +
            ((rs.map (encPtArrayBody le)).flatten).length }) := by
  intro rs
  induction rs with
  | nil =>
    intro acc rest s hw herr hchk hz hm hswap hwf
    simp [lwpoly_rings, ParserM.pure_apply]
  | cons r rs ih =>
    intro acc rest s hw herr hchk hz hm hswap hwf
    obtain ⟨hrz, hrm, hwfp, hn⟩ := hwf r (by simp)
    obtain ⟨hp2, hpv⟩ := hwfp
    rcases r with ⟨rz, rm, rpts⟩
    simp only [PtArray.npoints] at hn
    simp at hrz hrm
    subst hrz
    subst hrm
    simp only at hp2 hpv hn
    have hw1 : w.drop s.offset = encPtArrayBody le ⟨false, false, rpts⟩ ++
        ((rs.map (encPtArrayBody le)).flatten ++ rest) := by
      simpa [List.append_assoc] using hw
    have h1 := ptarray_2d_decode le w s rpts _ hw1 herr hz hm hswap hp2 hpv hn
    have hlen : (encPtArrayBody le ⟨false, false, rpts⟩).length =
        4 + 16 * rpts.length :=
      encPtArrayBody_length le ⟨false, false, rpts⟩ hp2
    have hd2 : w.drop (s.offset + (4 + 16 * rpts.length)) =
        (rs.map (encPtArrayBody le)).flatten ++ rest := by
      have := drop_app_drop w (encPtArrayBody le ⟨false, false, rpts⟩)
        ((rs.map (encPtArrayBody le)).flatten ++ rest) s.offset hw1
      rwa [hlen] at this
    have hwf2 : ∀ r ∈ rs, r.hasZ = false ∧ r.hasM = false ∧ WFPts r.pts ∧
        r.pts.length ≤ maxpoints := fun r hr => hwf r (by simp [hr])
    have hrec := ih (acc ++ [⟨false, false, rpts⟩]) rest
      { s with
        check := 0
        offset := s.offset + (4 + 16 * rpts.length) }
      (by simpa using hd2) (by simpa using herr) rfl
      (by simpa using hz) (by simpa using hm) (by simpa using hswap) hwf2
    simp [lwpoly_rings, ParserM.bind_apply, h1, getS_apply, perr_apply,
      ParserM.pure_apply, hchk, LW_PARSER_CHECK_MINPOINTS,
      LW_PARSER_CHECK_CLOSURE, hrec, hlen]
    omega

theorem gListSize_mem {g₀ : Geom} : ∀ {gs : List Geom}, g₀ ∈ gs →
    gSize g₀ ≤ gListSize gs := by
  intro gs
  induction gs with
  | nil => intro h; cases h
  | cons g gs ih =>
    intro h
    rcases List.mem_cons.1 h with h | h
    · subst h
      simp [gListSize]
    · have := ih h
      simp [gListSize]
      omega

theorem gListHeight_mem {g₀ : Geom} : ∀ {gs : List Geom}, g₀ ∈ gs →
    gHeight g₀ ≤ gListHeight gs := by
  intro gs
  induction gs with
  | nil => intro h; cases h
  | cons g gs ih =>
    intro h
    rcases List.mem_cons.1 h with h | h
    · subst h
      simp [gListHeight]
    · have := ih h
      simp [gListHeight]
      omega

theorem cListDepth_mem {g₀ : Geom} : ∀ {gs : List Geom}, g₀ ∈ gs →
    cDepth g₀ ≤ cListDepth gs := by
  intro gs
  induction gs with
  | nil => intro h; cases h
  | cons g gs ih =>
    intro h
    rcases List.mem_cons.1 h with h | h
    · subst h
      simp [cListDepth]
    · have := ih h
      simp [cListDepth]
      omega

/-- The collection child loop over encoded children, given that each
child decodes back to itself: appends exactly the children. -/
theorem coll_geoms_decode_loop (recur : ParserM (Option Geom)) (le : Bool)
    (w : List Nat) (d : Nat) :
    ∀ (gs : List Geom) (cur : Int) (acc : List Geom) (rest : List Nat)
      (s : PState),
      (∀ g₀, g₀ ∈ gs → ∀ (cur₀ : Int) (rest₀ : List Nat) (s₀ : PState),
        WFGeom cur₀ g₀ →
        w.drop s₀.offset = encGeom le g₀ ++ rest₀ →
        s₀.error = false → s₀.check = 0 → s₀.srid = cur₀ →
        s₀.depth = d →
        ∃ s₁, recur w w.length s₀ = .ok (some g₀, s₁) ∧
          s₁.offset = s₀.offset + (encGeom le g₀).length ∧
          s₁.error = false ∧ s₁.check = 0 ∧ s₁.srid = gFinSrid g₀ ∧
          s₁.depth = s₀.depth) →
      WFGeomList cur gs →
      w.drop s.offset = encGeomList le gs ++ rest →
      s.error = false → s.check = 0 → s.srid = cur → s.depth = d →
      ∃ s', lwcollection_geoms recur gs.length acc w w.length s =
        .ok (acc ++ gs, s') ∧
        s'.offset = s.offset + (encGeomList le gs).length ∧
        s'.error = false ∧ s'.check = 0 ∧ s'.srid = gListFinSrid cur gs ∧
        s'.depth = d := by
  intro gs
  induction gs with
  | nil =>
    intro cur acc rest s hdec hwf hw herr hchk hsr hd
    refine ⟨s, ?_, by simp [encGeomList], herr, hchk,
      by simpa [gListFinSrid] using hsr, hd⟩
    simp [lwcollection_geoms, ParserM.pure_apply]
  | cons g gs ihl =>
    intro cur acc rest s hdec hwf hw herr hchk hsr hd
    obtain ⟨hwfg, hwfl⟩ := hwf
    have hw1 : w.drop s.offset =
        encGeom le g ++ (encGeomList le gs ++ rest) := by
      simpa [encGeomList, List.append_assoc] using hw
    obtain ⟨s₁, hg, hoff1, herr1, hchk1, hsr1, hd1⟩ :=
      hdec g (by simp) cur (encGeomList le gs ++ rest) s hwfg hw1 herr
        hchk hsr hd
    have hdrop2 : w.drop s₁.offset = encGeomList le gs ++ rest := by
      rw [hoff1]
      exact drop_app_drop w (encGeom le g) _ s.offset hw1
    obtain ⟨s₂, hloop, hoff2, herr2, hchk2, hsr2, hdd2⟩ :=
      ihl (gFinSrid g) (acc ++ [g]) rest s₁
        (fun g₀ hg₀ => hdec g₀ (by simp [hg₀]))
        hwfl hdrop2 herr1 hchk1 hsr1 (by rw [hd1, hd])
    refine ⟨s₂, ?_, ?_, herr2, hchk2,
      by simpa [gListFinSrid] using hsr2, hdd2⟩
    · simp [lwcollection_geoms, ParserM.bind_apply, hg, hloop]
    · rw [hoff2, hoff1]
      simp [encGeomList]
      omega

/-- The curve-polygon ring loop over encoded rings of the accepted
kinds, given that each ring decodes back to itself. -/
theorem cp_rings_decode_loop (recur : ParserM (Option Geom)) (le : Bool)
    (w : List Nat) (d : Nat) :
    ∀ (gs : List Geom) (cur : Int) (acc : List Geom) (rest : List Nat)
      (s : PState),
      (∀ g₀, g₀ ∈ gs → ∀ (cur₀ : Int) (rest₀ : List Nat) (s₀ : PState),
        WFGeom cur₀ g₀ →
        w.drop s₀.offset = encGeom le g₀ ++ rest₀ →
        s₀.error = false → s₀.check = 0 → s₀.srid = cur₀ →
        s₀.depth = d →
        ∃ s₁, recur w w.length s₀ = .ok (some g₀, s₁) ∧
          s₁.offset = s₀.offset + (encGeom le g₀).length ∧
          s₁.error = false ∧ s₁.check = 0 ∧ s₁.srid = gFinSrid g₀ ∧
          s₁.depth = s₀.depth) →
      (∀ g₀ ∈ gs, curvepolyRingOk g₀ = true) →
      WFGeomList cur gs →
      w.drop s.offset = encGeomList le gs ++ rest →
      s.error = false → s.check = 0 → s.srid = cur → s.depth = d →
      ∃ s', lwcurvepoly_rings recur gs.length acc w w.length s =
        .ok (acc ++ gs, s') ∧
        s'.offset = s.offset + (encGeomList le gs).length ∧
        s'.error = false ∧ s'.check = 0 ∧ s'.srid = gListFinSrid cur gs ∧
        s'.depth = d := by
  intro gs
  induction gs with
  | nil =>
    intro cur acc rest s hdec hrok hwf hw herr hchk hsr hd
    refine ⟨s, ?_, by simp [encGeomList], herr, hchk,
      by simpa [gListFinSrid] using hsr, hd⟩
    simp [lwcurvepoly_rings, ParserM.pure_apply]
  | cons g gs ihl =>
    intro cur acc rest s hdec hrok hwf hw herr hchk hsr hd
    obtain ⟨hwfg, hwfl⟩ := hwf
    have hw1 : w.drop s.offset =
        encGeom le g ++ (encGeomList le gs ++ rest) := by
      simpa [encGeomList, List.append_assoc] using hw
    obtain ⟨s₁, hg, hoff1, herr1, hchk1, hsr1, hd1⟩ :=
      hdec g (by simp) cur (encGeomList le gs ++ rest) s hwfg hw1 herr
        hchk hsr hd
    have hdrop2 : w.drop s₁.offset = encGeomList le gs ++ rest := by
      rw [hoff1]
      exact drop_app_drop w (encGeom le g) _ s.offset hw1
    obtain ⟨s₂, hloop, hoff2, herr2, hchk2, hsr2, hdd2⟩ :=
      ihl (gFinSrid g) (acc ++ [g]) rest s₁
        (fun g₀ hg₀ => hdec g₀ (by simp [hg₀]))
        (fun g₀ hg₀ => hrok g₀ (by simp [hg₀]))
        hwfl hdrop2 herr1 hchk1 hsr1 (by rw [hd1, hd])
    refine ⟨s₂, ?_, ?_, herr2, hchk2,
      by simpa [gListFinSrid] using hsr2, hdd2⟩
    · simp [lwcurvepoly_rings, ParserM.bind_apply, hg, hloop,
        hrok g (by simp)]
    · rw [hoff2, hoff1]
      simp [encGeomList]
      omega

/-- Combined header execution: after the endian byte, flagged type
word and optional SRID field, the parse continues at the dispatch with
the node SRID installed (`sridWF` makes the read-back SRID equal the
encoded one). -/
theorem header_decode (recur : ParserM (Option Geom)) (t : LWType)
    (z m : Bool) (sr : Int) (le : Bool) (w rest : List Nat) (s : PState)
    (hw : w.drop s.offset = encHeader le (lwtypeWkbCode t) z m sr ++ rest)
    (herr : s.error = false) (hswf : sridWF s.srid sr) :
    geom_body recur w w.length s =
      geom_dispatch recur w w.length
        { s with
          srid := sr
          swap_bytes := !le
          lwtype := some t
          has_z := z
          has_m := m
          has_srid := decide ¬(sr = SRID_UNKNOWN)
          offset := s.offset +
            (encHeader le (lwtypeWkbCode t) z m sr).length } := by
  rcases hswf with ⟨hsr0, hcur⟩ | ⟨hsr0, hrt⟩
  · subst hsr0
    rw [header_step_nosrid recur t z m le w rest s _ rfl hw herr]
    congr 1
    simp [encHeader_length, hcur]
  · rw [header_step_srid recur t z m sr le w rest s _ hsr0 rfl hw herr]
    simp only [sridRT] at hrt
    norm_num at hrt
    congr 1
    simp [encHeader_length, hsr0, hrt]

theorem geom_dispatch_point (recur : ParserM (Option Geom)) (w : List Nat)
    (N : Nat) (s : PState) (h : s.lwtype = some .point) :
    geom_dispatch recur w N s = lwpoint_from_wkb_state w N s := by
  show (getS >>= _) w N s = _
  rw [getS_bind]
  simp only [h]

theorem geom_dispatch_line (recur : ParserM (Option Geom)) (w : List Nat)
    (N : Nat) (s : PState) (h : s.lwtype = some .line) :
    geom_dispatch recur w N s = lwline_from_wkb_state w N s := by
  show (getS >>= _) w N s = _
  rw [getS_bind]
  simp only [h]

theorem geom_dispatch_polygon (recur : ParserM (Option Geom)) (w : List Nat)
    (N : Nat) (s : PState) (h : s.lwtype = some .polygon) :
    geom_dispatch recur w N s = lwpoly_from_wkb_state w N s := by
  show (getS >>= _) w N s = _
  rw [getS_bind]
  simp only [h]

theorem geom_dispatch_circstring (recur : ParserM (Option Geom))
    (w : List Nat) (N : Nat) (s : PState) (h : s.lwtype = some .circstring) :
    geom_dispatch recur w N s = lwcircstring_from_wkb_state w N s := by
  show (getS >>= _) w N s = _
  rw [getS_bind]
  simp only [h]

theorem geom_dispatch_triangle (recur : ParserM (Option Geom))
    (w : List Nat) (N : Nat) (s : PState) (h : s.lwtype = some .triangle) :
    geom_dispatch recur w N s = lwtriangle_from_wkb_state w N s := by
  show (getS >>= _) w N s = _
  rw [getS_bind]
  simp only [h]

theorem geom_dispatch_curvepoly (recur : ParserM (Option Geom))
    (w : List Nat) (N : Nat) (s : PState) (h : s.lwtype = some .curvepoly) :
    geom_dispatch recur w N s = lwcurvepoly_from_wkb_state recur w N s := by
  show (getS >>= _) w N s = _
  rw [getS_bind]
  simp only [h]

theorem geom_dispatch_coll (recur : ParserM (Option Geom)) (w : List Nat)
    (N : Nat) (s : PState) (t : LWType) (h : s.lwtype = some t)
    (ht : isCollectionType t = true) :
    geom_dispatch recur w N s = lwcollection_from_wkb_state recur w N s := by
  cases t with
  | point =>
    simp [isCollectionType] at ht
  | line =>
    simp [isCollectionType] at ht
  | polygon =>
    simp [isCollectionType] at ht
  | circstring =>
    simp [isCollectionType] at ht
  | compound =>
    show (getS >>= _) w N s = _
    rw [getS_bind]
    simp only [h]
  | curvepoly =>
    simp [isCollectionType] at ht
  | multipoint =>
    show (getS >>= _) w N s = _
    rw [getS_bind]
    simp only [h]
  | multiline =>
    show (getS >>= _) w N s = _
    rw [getS_bind]
    simp only [h]
  | multipolygon =>
    show (getS >>= _) w N s = _
    rw [getS_bind]
    simp only [h]
  | multicurve =>
    show (getS >>= _) w N s = _
    rw [getS_bind]
    simp only [h]
  | multisurface =>
    show (getS >>= _) w N s = _
    rw [getS_bind]
    simp only [h]
  | polyhedralsurface =>
    show (getS >>= _) w N s = _
    rw [getS_bind]
    simp only [h]
  | tin =>
    show (getS >>= _) w N s = _
    rw [getS_bind]
    simp only [h]
  | collection =>
    show (getS >>= _) w N s = _
    rw [getS_bind]
    simp only [h]
  | triangle =>
    simp [isCollectionType] at ht

set_option maxHeartbeats 1000000 in
/-- Encode/decode roundtrip in either byte order: decoding the WKB
encoding of a well-formed geometry returns exactly that geometry and
advances the cursor past its encoding. -/
theorem encGeom_decode : ∀ (n : Nat) (g : Geom) (cur : Int) (le : Bool)
    (F : Nat) (w rest : List Nat) (s : PState),
    gSize g ≤ n →
    WFGeom cur g → gHeight g ≤ F →
    w.drop s.offset = encGeom le g ++ rest →
    s.error = false → s.check = 0 → s.srid = cur →
    s.depth + cDepth g ≤ 199 →
    ∃ s', lwgeom_from_wkb_state F w w.length s = .ok (some g, s') ∧
      s'.offset = s.offset + (encGeom le g).length ∧
      s'.error = false ∧ s'.check = 0 ∧ s'.srid = gFinSrid g ∧
      s'.depth = s.depth := by
  intro n
  induction n with
  | zero =>
    intro g cur le F w rest s hsz
    exact absurd hsz (by cases g <;> simp [gSize])
  | succ n ih =>
    intro g cur le F w rest s hsz hwf hht hw herr hchk hsr hdep
    have hF1 : 1 ≤ F :=
      le_trans (by cases g <;> simp [gHeight]) hht
    cases F with
    | zero => omega
    | succ F =>
    have hswf' : sridWF s.srid (gSrid g) := by
      rw [hsr]
      cases g <;> exact hwf.1
    cases g with
    | point sr pa =>
      obtain ⟨hswf, hz, hm, hpts⟩ := hwf
      rcases pa with ⟨paz, pam, pts⟩
      simp only at hswf' hz hm hpts
      subst hz
      subst hm
      rcases hpts with hempty | ⟨x, y, hxy, hxlt, hylt, hnan⟩
      · subst hempty
        have hw1 : w.drop s.offset =
            encHeader le (lwtypeWkbCode .point) false false sr ++
              (enc64 le nanPattern ++ (enc64 le nanPattern ++ rest)) := by
          simpa [encGeom, lwtypeWkbCode, PtArray.npoints, PtArray.ndims,
            List.append_assoc] using hw
        have hbody := header_decode (lwgeom_from_wkb_state F) .point false
          false sr le w _ s hw1 herr hswf'
        have hw2 : w.drop (s.offset +
            (encHeader le (lwtypeWkbCode .point) false false sr).length) =
            enc64 le nanPattern ++ (enc64 le nanPattern ++ rest) :=
          drop_app_drop w _ _ s.offset hw1
        have hpt := lwpoint_2d_step w
          { s with
            srid := sr
            swap_bytes := !le
            lwtype := some .point
            has_z := false
            has_m := false
            has_srid := decide ¬(sr = SRID_UNKNOWN)
            offset := s.offset +
              (encHeader le (lwtypeWkbCode .point) false false sr).length }
          le nanPattern nanPattern rest (by simpa using hw2)
          (by simpa using herr) rfl rfl rfl
        rw [show (isNaN64 (nanPattern % 2 ^ 64) &&
            isNaN64 (nanPattern % 2 ^ 64)) = true from by decide,
          if_pos rfl] at hpt
        refine ⟨{ s with
            srid := sr
            swap_bytes := !le
            lwtype := some .point
            has_z := false
            has_m := false
            has_srid := decide ¬(sr = SRID_UNKNOWN)
            offset := s.offset +
              (encHeader le (lwtypeWkbCode .point) false false sr).length +
              16 }, ?_, ?_, herr, hchk, rfl, rfl⟩
        · rw [lwgeom_succ_eq, hbody, geom_dispatch_point _ _ _ _ rfl]
          exact hpt
        · simp [encGeom, lwtypeWkbCode, PtArray.npoints, PtArray.ndims,
            flatten_enc64_length, enc64_length]
          omega
      · subst hxy
        have hw1 : w.drop s.offset =
            encHeader le (lwtypeWkbCode .point) false false sr ++
              (enc64 le x ++ (enc64 le y ++ rest)) := by
          simpa [encGeom, lwtypeWkbCode, PtArray.npoints, PtArray.ndims,
            List.append_assoc] using hw
        have hbody := header_decode (lwgeom_from_wkb_state F) .point false
          false sr le w _ s hw1 herr hswf'
        have hw2 : w.drop (s.offset +
            (encHeader le (lwtypeWkbCode .point) false false sr).length) =
            enc64 le x ++ (enc64 le y ++ rest) :=
          drop_app_drop w _ _ s.offset hw1
        have hpt := lwpoint_2d_step w
          { s with
            srid := sr
            swap_bytes := !le
            lwtype := some .point
            has_z := false
            has_m := false
            has_srid := decide ¬(sr = SRID_UNKNOWN)
            offset := s.offset +
              (encHeader le (lwtypeWkbCode .point) false false sr).length }
          le x y rest (by simpa using hw2) (by simpa using herr) rfl rfl rfl
        rw [Nat.mod_eq_of_lt hxlt, Nat.mod_eq_of_lt hylt] at hpt
        rw [show (isNaN64 x && isNaN64 y) = false from by
            by_cases hx : isNaN64 x = true
            · by_cases hy : isNaN64 y = true
              · exact absurd ⟨hx, hy⟩ hnan
              · simp only [Bool.not_eq_true] at hy
                simp [hy]
            · simp only [Bool.not_eq_true] at hx
              simp [hx],
          if_neg (by simp)] at hpt
        refine ⟨{ s with
            srid := sr
            swap_bytes := !le
            lwtype := some .point
            has_z := false
            has_m := false
            has_srid := decide ¬(sr = SRID_UNKNOWN)
            offset := s.offset +
              (encHeader le (lwtypeWkbCode .point) false false sr).length +
              16 }, ?_, ?_, herr, hchk, rfl, rfl⟩
        · rw [lwgeom_succ_eq, hbody, geom_dispatch_point _ _ _ _ rfl]
          exact hpt
        · simp [encGeom, lwtypeWkbCode, PtArray.npoints, PtArray.ndims,
            flatten_enc64_length, enc64_length]
          omega
    | line sr pa =>
      obtain ⟨hswf, hz, hm, hwfp, hn⟩ := hwf
      obtain ⟨hp2, hpv⟩ := hwfp
      rcases pa with ⟨paz, pam, pts⟩
      simp only [PtArray.npoints] at hn
      simp only at hswf' hz hm hp2 hpv hn
      subst hz
      subst hm
      have hw1 : w.drop s.offset =
          encHeader le (lwtypeWkbCode .line) false false sr ++
            (encPtArrayBody le ⟨false, false, pts⟩ ++ rest) := by
        simpa [encGeom, lwtypeWkbCode, List.append_assoc] using hw
      have hbody := header_decode (lwgeom_from_wkb_state F) .line false
        false sr le w _ s hw1 herr hswf'
      have hw2 : w.drop (s.offset +
          (encHeader le (lwtypeWkbCode .line) false false sr).length) =
          encPtArrayBody le ⟨false, false, pts⟩ ++ rest :=
        drop_app_drop w _ _ s.offset hw1
      have hpa := ptarray_2d_decode le w
        { s with
          srid := sr
          swap_bytes := !le
          lwtype := some .line
          has_z := false
          has_m := false
          has_srid := decide ¬(sr = SRID_UNKNOWN)
          offset := s.offset +
            (encHeader le (lwtypeWkbCode .line) false false sr).length }
        pts rest hw2 herr rfl rfl rfl hp2 hpv hn
      have hblen : (encPtArrayBody le ⟨false, false, pts⟩).length =
          4 + 16 * pts.length :=
        encPtArrayBody_length le ⟨false, false, pts⟩ hp2
      refine ⟨{ s with
          srid := sr
          swap_bytes := !le
          lwtype := some .line
          has_z := false
          has_m := false
          has_srid := decide ¬(sr = SRID_UNKNOWN)
          offset := s.offset +
            (encHeader le (lwtypeWkbCode .line) false false sr).length +
            (4 + 16 * pts.length) }, ?_, ?_, herr, hchk, rfl, rfl⟩
      · rw [lwgeom_succ_eq, hbody, geom_dispatch_line _ _ _ _ rfl,
          lwline_eq, ParserM.bind_apply, hpa]
        by_cases hpts0 : pts = []
        · subst hpts0
          simp [lwline_tail_char, herr, hchk, ptarray_construct,
            PtArray.npoints]
        · have hne0 : pts.length ≠ 0 := fun hc =>
            hpts0 (List.length_eq_zero.1 hc)
          simp [lwline_tail_char, herr, hchk, ptarray_construct,
            PtArray.npoints, hne0, LW_PARSER_CHECK_MINPOINTS,
            LW_PARSER_CHECK_ODD]
      · simp [encGeom, lwtypeWkbCode, hblen]
        omega
    | circstring sr pa =>
      obtain ⟨hswf, hz, hm, hwfp, hn⟩ := hwf
      obtain ⟨hp2, hpv⟩ := hwfp
      rcases pa with ⟨paz, pam, pts⟩
      simp only [PtArray.npoints] at hn
      simp only at hswf' hz hm hp2 hpv hn
      subst hz
      subst hm
      have hw1 : w.drop s.offset =
          encHeader le (lwtypeWkbCode .circstring) false false sr ++
            (encPtArrayBody le ⟨false, false, pts⟩ ++ rest) := by
        simpa [encGeom, lwtypeWkbCode, List.append_assoc] using hw
      have hbody := header_decode (lwgeom_from_wkb_state F) .circstring false
        false sr le w _ s hw1 herr hswf'
      have hw2 : w.drop (s.offset +
          (encHeader le (lwtypeWkbCode .circstring) false false sr).length) =
          encPtArrayBody le ⟨false, false, pts⟩ ++ rest :=
        drop_app_drop w _ _ s.offset hw1
      have hpa := ptarray_2d_decode le w
        { s with
          srid := sr
          swap_bytes := !le
          lwtype := some .circstring
          has_z := false
          has_m := false
          has_srid := decide ¬(sr = SRID_UNKNOWN)
          offset := s.offset +
            (encHeader le (lwtypeWkbCode .circstring) false false sr).length }
        pts rest hw2 herr rfl rfl rfl hp2 hpv hn
      have hblen : (encPtArrayBody le ⟨false, false, pts⟩).length =
          4 + 16 * pts.length :=
        encPtArrayBody_length le ⟨false, false, pts⟩ hp2
      refine ⟨{ s with
          srid := sr
          swap_bytes := !le
          lwtype := some .circstring
          has_z := false
          has_m := false
          has_srid := decide ¬(sr = SRID_UNKNOWN)
          offset := s.offset +
            (encHeader le (lwtypeWkbCode .circstring) false false sr).length +
            (4 + 16 * pts.length) }, ?_, ?_, herr, hchk, rfl, rfl⟩
      · rw [lwgeom_succ_eq, hbody, geom_dispatch_circstring _ _ _ _ rfl,
          lwcirc_eq, ParserM.bind_apply, hpa]
        by_cases hpts0 : pts = []
        · subst hpts0
          simp [lwcirc_tail_char, herr, hchk, ptarray_construct,
            PtArray.npoints]
        · have hne0 : pts.length ≠ 0 := fun hc =>
            hpts0 (List.length_eq_zero.1 hc)
          simp [lwcirc_tail_char, herr, hchk, ptarray_construct,
            PtArray.npoints, hne0, LW_PARSER_CHECK_MINPOINTS,
            LW_PARSER_CHECK_ODD]
      · simp [encGeom, lwtypeWkbCode, hblen]
        omega
    | triangle sr pa =>
      obtain ⟨hswf, hz, hm, hwfp, hn⟩ := hwf
      obtain ⟨hp2, hpv⟩ := hwfp
      rcases pa with ⟨paz, pam, pts⟩
      simp only [PtArray.npoints] at hn
      simp only at hswf' hz hm hp2 hpv hn
      subst hz
      subst hm
      by_cases hpts0 : pts = []
      · subst hpts0
        have hw1 : w.drop s.offset =
            encHeader le (lwtypeWkbCode .triangle) false false sr ++
              (enc32 le 0 ++ rest) := by
          simpa [encGeom, lwtypeWkbCode, PtArray.npoints,
            List.append_assoc] using hw
        have hbody := header_decode (lwgeom_from_wkb_state F) .triangle
          false false sr le w _ s hw1 herr hswf'
        have hw2 : w.drop (s.offset +
            (encHeader le (lwtypeWkbCode .triangle) false false sr).length) =
            enc32 le 0 ++ rest :=
          drop_app_drop w _ _ s.offset hw1
        have hint := int_step w
          { s with
            srid := sr
            swap_bytes := !le
            lwtype := some .triangle
            has_z := false
            has_m := false
            has_srid := decide ¬(sr = SRID_UNKNOWN)
            offset := s.offset +
              (encHeader le (lwtypeWkbCode .triangle) false false sr).length }
          le 0 rest hw2 herr rfl
        refine ⟨{ s with
            srid := sr
            swap_bytes := !le
            lwtype := some .triangle
            has_z := false
            has_m := false
            has_srid := decide ¬(sr = SRID_UNKNOWN)
            offset := s.offset +
              (encHeader le (lwtypeWkbCode .triangle) false false sr).length +
              4 }, ?_, ?_, herr, hchk, rfl, rfl⟩
        · rw [lwgeom_succ_eq, hbody, geom_dispatch_triangle _ _ _ _ rfl,
            lwtriangle_eq, ParserM.bind_apply, hint]
          simp [tri_tail, ParserM.bind_apply, getS_apply,
            ParserM.pure_apply, perr_apply, herr, ptarray_construct]
        · simp [encGeom, lwtypeWkbCode, PtArray.npoints, enc32_length]
          omega
      · have hne0 : pts.length ≠ 0 := fun hc =>
          hpts0 (List.length_eq_zero.1 hc)
        have hw1 : w.drop s.offset =
            encHeader le (lwtypeWkbCode .triangle) false false sr ++
              (enc32 le 1 ++ (encPtArrayBody le ⟨false, false, pts⟩ ++
                rest)) := by
          simpa [encGeom, lwtypeWkbCode, PtArray.npoints, hne0,
            List.append_assoc] using hw
        have hbody := header_decode (lwgeom_from_wkb_state F) .triangle
          false false sr le w _ s hw1 herr hswf'
        have hw2 : w.drop (s.offset +
            (encHeader le (lwtypeWkbCode .triangle) false false sr).length) =
            enc32 le 1 ++ (encPtArrayBody le ⟨false, false, pts⟩ ++ rest) :=
          drop_app_drop w _ _ s.offset hw1
        have hint := int_step w
          { s with
            srid := sr
            swap_bytes := !le
            lwtype := some .triangle
            has_z := false
            has_m := false
            has_srid := decide ¬(sr = SRID_UNKNOWN)
            offset := s.offset +
              (encHeader le (lwtypeWkbCode .triangle) false false sr).length }
          le 1 (encPtArrayBody le ⟨false, false, pts⟩ ++ rest) hw2 herr rfl
        have hw3 : w.drop (s.offset +
            (encHeader le (lwtypeWkbCode .triangle) false false sr).length +
              4) =
            encPtArrayBody le ⟨false, false, pts⟩ ++ rest := by
          have := drop_app_drop w (enc32 le 1)
            (encPtArrayBody le ⟨false, false, pts⟩ ++ rest) _ hw2
          rwa [enc32_length] at this
        have hpa := ptarray_2d_decode le w
          { s with
            srid := sr
            swap_bytes := !le
            check := 0
            lwtype := some .triangle
            has_z := false
            has_m := false
            has_srid := !decide (sr = SRID_UNKNOWN)
            error := false
            offset := s.offset +
              (encHeader le (lwtypeWkbCode .triangle) false false sr).length +
              4 }
          pts rest hw3 rfl rfl rfl rfl hp2 hpv hn
        have hblen : (encPtArrayBody le ⟨false, false, pts⟩).length =
            4 + 16 * pts.length :=
          encPtArrayBody_length le ⟨false, false, pts⟩ hp2
        refine ⟨{ s with
            srid := sr
            swap_bytes := !le
            lwtype := some .triangle
            has_z := false
            has_m := false
            has_srid := decide ¬(sr = SRID_UNKNOWN)
            offset := s.offset +
              (encHeader le (lwtypeWkbCode .triangle) false false sr).length +
              4 + (4 + 16 * pts.length) }, ?_, ?_, herr, hchk, rfl, rfl⟩
        · rw [lwgeom_succ_eq, hbody, geom_dispatch_triangle _ _ _ _ rfl,
            lwtriangle_eq, ParserM.bind_apply, hint]
          simp [tri_tail, ParserM.bind_apply, getS_apply,
            ParserM.pure_apply, perr_apply, herr, hpa, tri_tail2_char,
            hchk, LW_PARSER_CHECK_MINPOINTS, LW_PARSER_CHECK_ZCLOSURE]
        · simp [encGeom, lwtypeWkbCode, PtArray.npoints, hne0,
            enc32_length, hblen]
          omega
    | poly sr z m rings =>
      obtain ⟨hswf, hzz, hmm, hlen32, hrings⟩ := hwf
      subst hzz
      subst hmm
      by_cases hr0 : rings = []
      · subst hr0
        have hw1 : w.drop s.offset =
            encHeader le (lwtypeWkbCode .polygon) false false sr ++
              (enc32 le 0 ++ rest) := by
          simpa [encGeom, lwtypeWkbCode, List.append_assoc] using hw
        have hbody := header_decode (lwgeom_from_wkb_state F) .polygon
          false false sr le w _ s hw1 herr hswf'
        have hw2 : w.drop (s.offset +
            (encHeader le (lwtypeWkbCode .polygon) false false sr).length) =
            enc32 le 0 ++ rest :=
          drop_app_drop w _ _ s.offset hw1
        have hint := int_step w
          { s with
            srid := sr
            swap_bytes := !le
            lwtype := some .polygon
            has_z := false
            has_m := false
            has_srid := decide ¬(sr = SRID_UNKNOWN)
            offset := s.offset +
              (encHeader le (lwtypeWkbCode .polygon) false false sr).length }
          le 0 rest hw2 herr rfl
        refine ⟨{ s with
            srid := sr
            swap_bytes := !le
            lwtype := some .polygon
            has_z := false
            has_m := false
            has_srid := decide ¬(sr = SRID_UNKNOWN)
            offset := s.offset +
              (encHeader le (lwtypeWkbCode .polygon) false false sr).length +
              4 }, ?_, ?_, herr, hchk, rfl, rfl⟩
        · rw [lwgeom_succ_eq, hbody, geom_dispatch_polygon _ _ _ _ rfl,
            lwpoly_eq, ParserM.bind_apply, hint]
          simp [lwpoly_tail, ParserM.bind_apply, getS_apply,
            ParserM.pure_apply, perr_apply, herr]
        · simp [encGeom, lwtypeWkbCode, enc32_length]
          omega
      · have hne0 : rings.length ≠ 0 := fun hc =>
          hr0 (List.length_eq_zero.1 hc)
        have hw1 : w.drop s.offset =
            encHeader le (lwtypeWkbCode .polygon) false false sr ++
              (enc32 le rings.length ++
                ((rings.map (encPtArrayBody le)).flatten ++ rest)) := by
          simpa [encGeom, lwtypeWkbCode, List.append_assoc] using hw
        have hbody := header_decode (lwgeom_from_wkb_state F) .polygon
          false false sr le w _ s hw1 herr hswf'
        have hw2 : w.drop (s.offset +
            (encHeader le (lwtypeWkbCode .polygon) false false sr).length) =
            enc32 le rings.length ++
              ((rings.map (encPtArrayBody le)).flatten ++ rest) :=
          drop_app_drop w _ _ s.offset hw1
        have hint := int_step w
          { s with
            srid := sr
            swap_bytes := !le
            lwtype := some .polygon
            has_z := false
            has_m := false
            has_srid := decide ¬(sr = SRID_UNKNOWN)
            offset := s.offset +
              (encHeader le (lwtypeWkbCode .polygon) false false sr).length }
          le rings.length ((rings.map (encPtArrayBody le)).flatten ++ rest)
          hw2 herr rfl
        rw [Nat.mod_eq_of_lt hlen32] at hint
        have hw3 : w.drop (s.offset +
            (encHeader le (lwtypeWkbCode .polygon) false false sr).length +
              4) =
            (rings.map (encPtArrayBody le)).flatten ++ rest := by
          have := drop_app_drop w (enc32 le rings.length)
            ((rings.map (encPtArrayBody le)).flatten ++ rest) _ hw2
          rwa [enc32_length] at this
        have hrloop := lwpoly_rings_decode le w rings [] rest
          { s with
            srid := sr
            swap_bytes := !le
            check := 0
            lwtype := some .polygon
            has_z := false
            has_m := false
            has_srid := !decide (sr = SRID_UNKNOWN)
            error := false
            offset := s.offset +
              (encHeader le (lwtypeWkbCode .polygon) false false sr).length +
              4 }
          hw3 rfl rfl rfl rfl rfl hrings
        refine ⟨{ s with
            srid := sr
            swap_bytes := !le
            lwtype := some .polygon
            has_z := false
            has_m := false
            has_srid := decide ¬(sr = SRID_UNKNOWN)
            offset := s.offset +
              (encHeader le (lwtypeWkbCode .polygon) false false sr).length +
              4 + ((rings.map (encPtArrayBody le)).flatten).length },
          ?_, ?_, herr, hchk, rfl, rfl⟩
        · rw [lwgeom_succ_eq, hbody, geom_dispatch_polygon _ _ _ _ rfl,
            lwpoly_eq, ParserM.bind_apply, hint]
          simp [lwpoly_tail, ParserM.bind_apply, getS_apply,
            ParserM.pure_apply, perr_apply, herr, hchk, hne0, hrloop,
            lwpoly_fin]
        · have heta : (List.map (List.length ∘ fun r =>
              encPtArrayBody le r) rings).sum =
              (List.map (List.length ∘ encPtArrayBody le) rings).sum := rfl
          simp [encGeom, lwtypeWkbCode, enc32_length]
          omega
    | curvepoly sr z m rings =>
      obtain ⟨hswf, hlen32, hrok, hwfl⟩ := hwf
      simp only [gSize] at hsz
      simp only [gHeight] at hht
      simp only [cDepth] at hdep
      by_cases hr0 : rings = []
      · subst hr0
        have hw1 : w.drop s.offset =
            encHeader le (lwtypeWkbCode .curvepoly) z m sr ++
              (enc32 le 0 ++ rest) := by
          simpa [encGeom, lwtypeWkbCode, encGeomList,
            List.append_assoc] using hw
        have hbody := header_decode (lwgeom_from_wkb_state F) .curvepoly
          z m sr le w _ s hw1 herr hswf'
        have hw2 : w.drop (s.offset +
            (encHeader le (lwtypeWkbCode .curvepoly) z m sr).length) =
            enc32 le 0 ++ rest :=
          drop_app_drop w _ _ s.offset hw1
        have hint := int_step w
          { s with
            srid := sr
            swap_bytes := !le
            lwtype := some .curvepoly
            has_z := z
            has_m := m
            has_srid := decide ¬(sr = SRID_UNKNOWN)
            offset := s.offset +
              (encHeader le (lwtypeWkbCode .curvepoly) z m sr).length }
          le 0 rest hw2 herr rfl
        refine ⟨{ s with
            srid := sr
            swap_bytes := !le
            lwtype := some .curvepoly
            has_z := z
            has_m := m
            has_srid := decide ¬(sr = SRID_UNKNOWN)
            offset := s.offset +
              (encHeader le (lwtypeWkbCode .curvepoly) z m sr).length +
              4 }, ?_, ?_, herr, hchk, rfl, rfl⟩
        · rw [lwgeom_succ_eq, hbody, geom_dispatch_curvepoly _ _ _ _ rfl,
            cp_eq, ParserM.bind_apply, hint]
          simp [cp_tail, ParserM.bind_apply, getS_apply,
            ParserM.pure_apply, perr_apply, herr]
        · simp [encGeom, lwtypeWkbCode, encGeomList, enc32_length]
          omega
      · have hne0 : rings.length ≠ 0 := fun hc =>
          hr0 (List.length_eq_zero.1 hc)
        have hw1 : w.drop s.offset =
            encHeader le (lwtypeWkbCode .curvepoly) z m sr ++
              (enc32 le rings.length ++ (encGeomList le rings ++ rest)) := by
          simpa [encGeom, lwtypeWkbCode, List.append_assoc] using hw
        have hbody := header_decode (lwgeom_from_wkb_state F) .curvepoly
          z m sr le w _ s hw1 herr hswf'
        have hw2 : w.drop (s.offset +
            (encHeader le (lwtypeWkbCode .curvepoly) z m sr).length) =
            enc32 le rings.length ++ (encGeomList le rings ++ rest) :=
          drop_app_drop w _ _ s.offset hw1
        have hint := int_step w
          { s with
            srid := sr
            swap_bytes := !le
            lwtype := some .curvepoly
            has_z := z
            has_m := m
            has_srid := decide ¬(sr = SRID_UNKNOWN)
            offset := s.offset +
              (encHeader le (lwtypeWkbCode .curvepoly) z m sr).length }
          le rings.length (encGeomList le rings ++ rest) hw2 herr rfl
        rw [Nat.mod_eq_of_lt hlen32] at hint
        have hw3 : w.drop (s.offset +
            (encHeader le (lwtypeWkbCode .curvepoly) z m sr).length + 4) =
            encGeomList le rings ++ rest := by
          have := drop_app_drop w (enc32 le rings.length)
            (encGeomList le rings ++ rest) _ hw2
          rwa [enc32_length] at this
        have hdec : ∀ g₀, g₀ ∈ rings → ∀ (cur₀ : Int) (rest₀ : List Nat)
            (s₀ : PState),
            WFGeom cur₀ g₀ →
            w.drop s₀.offset = encGeom le g₀ ++ rest₀ →
            s₀.error = false → s₀.check = 0 → s₀.srid = cur₀ →
            s₀.depth = s.depth →
            ∃ s₁, lwgeom_from_wkb_state F w w.length s₀ =
              .ok (some g₀, s₁) ∧
              s₁.offset = s₀.offset + (encGeom le g₀).length ∧
              s₁.error = false ∧ s₁.check = 0 ∧ s₁.srid = gFinSrid g₀ ∧
              s₁.depth = s₀.depth := by
          intro g₀ hg₀ cur₀ rest₀ s₀ hwf₀ hw₀ herr₀ hchk₀ hsr₀ hd₀
          refine ih g₀ cur₀ le F w rest₀ s₀ ?_ hwf₀ ?_ hw₀ herr₀ hchk₀
            hsr₀ ?_
          · have := gListSize_mem hg₀
            omega
          · have := gListHeight_mem hg₀
            omega
          · have := cListDepth_mem hg₀
            rw [hd₀]
            omega
        obtain ⟨s₂, hloop, hoff2, herr2, hchk2, hsr2, hd2⟩ :=
          cp_rings_decode_loop (lwgeom_from_wkb_state F) le w s.depth
            rings sr [] rest
            { s with
              srid := sr
              swap_bytes := !le
              check := 0
              lwtype := some .curvepoly
              has_z := z
              has_m := m
              has_srid := !decide (sr = SRID_UNKNOWN)
              error := false
              offset := s.offset +
                (encHeader le (lwtypeWkbCode .curvepoly) z m sr).length +
                4 }
            hdec hrok hwfl hw3 rfl rfl rfl rfl
        refine ⟨s₂, ?_, ?_, herr2, hchk2, hsr2, hd2⟩
        · rw [lwgeom_succ_eq, hbody, geom_dispatch_curvepoly _ _ _ _ rfl,
            cp_eq, ParserM.bind_apply, hint]
          simp [cp_tail, ParserM.bind_apply, getS_apply,
            ParserM.pure_apply, perr_apply, herr, hchk, hne0, hloop]
        · rw [hoff2]
          simp [encGeom, lwtypeWkbCode, enc32_length]
          omega
    | collection t sr z m gs =>
      obtain ⟨hswf, hlen32, hcoll, hnp, hwfl⟩ := hwf
      simp only [gSize] at hsz
      simp only [gHeight] at hht
      simp only [cDepth] at hdep
      by_cases hr0 : gs = []
      · subst hr0
        have hw1 : w.drop s.offset =
            encHeader le (lwtypeWkbCode t) z m sr ++
              (enc32 le 0 ++ rest) := by
          simpa [encGeom, encGeomList, List.append_assoc] using hw
        have hbody := header_decode (lwgeom_from_wkb_state F) t
          z m sr le w _ s hw1 herr hswf'
        have hw2 : w.drop (s.offset +
            (encHeader le (lwtypeWkbCode t) z m sr).length) =
            enc32 le 0 ++ rest :=
          drop_app_drop w _ _ s.offset hw1
        have hint := int_step w
          { s with
            srid := sr
            swap_bytes := !le
            lwtype := some t
            has_z := z
            has_m := m
            has_srid := decide ¬(sr = SRID_UNKNOWN)
            offset := s.offset +
              (encHeader le (lwtypeWkbCode t) z m sr).length }
          le 0 rest hw2 herr rfl
        refine ⟨{ s with
            srid := sr
            swap_bytes := !le
            lwtype := some t
            has_z := z
            has_m := m
            has_srid := decide ¬(sr = SRID_UNKNOWN)
            offset := s.offset +
              (encHeader le (lwtypeWkbCode t) z m sr).length +
              4 }, ?_, ?_, herr, hchk, rfl, rfl⟩
        · rw [lwgeom_succ_eq, hbody, geom_dispatch_coll _ _ _ _ t rfl hcoll,
            coll_eq, ParserM.bind_apply, hint]
          simp [coll_tail, ParserM.bind_apply, getS_apply,
            ParserM.pure_apply, perr_apply, modifyS_apply, herr]
        · simp [encGeom, encGeomList, enc32_length]
          omega
      · have hne0 : gs.length ≠ 0 := fun hc =>
          hr0 (List.length_eq_zero.1 hc)
        have hw1 : w.drop s.offset =
            encHeader le (lwtypeWkbCode t) z m sr ++
              (enc32 le gs.length ++ (encGeomList le gs ++ rest)) := by
          simpa [encGeom, List.append_assoc] using hw
        have hbody := header_decode (lwgeom_from_wkb_state F) t
          z m sr le w _ s hw1 herr hswf'
        have hw2 : w.drop (s.offset +
            (encHeader le (lwtypeWkbCode t) z m sr).length) =
            enc32 le gs.length ++ (encGeomList le gs ++ rest) :=
          drop_app_drop w _ _ s.offset hw1
        have hint := int_step w
          { s with
            srid := sr
            swap_bytes := !le
            lwtype := some t
            has_z := z
            has_m := m
            has_srid := decide ¬(sr = SRID_UNKNOWN)
            offset := s.offset +
              (encHeader le (lwtypeWkbCode t) z m sr).length }
          le gs.length (encGeomList le gs ++ rest) hw2 herr rfl
        rw [Nat.mod_eq_of_lt hlen32] at hint
        have hw3 : w.drop (s.offset +
            (encHeader le (lwtypeWkbCode t) z m sr).length + 4) =
            encGeomList le gs ++ rest := by
          have := drop_app_drop w (enc32 le gs.length)
            (encGeomList le gs ++ rest) _ hw2
          rwa [enc32_length] at this
        have hdec : ∀ g₀, g₀ ∈ gs → ∀ (cur₀ : Int) (rest₀ : List Nat)
            (s₀ : PState),
            WFGeom cur₀ g₀ →
            w.drop s₀.offset = encGeom le g₀ ++ rest₀ →
            s₀.error = false → s₀.check = 0 → s₀.srid = cur₀ →
            s₀.depth = s.depth + 1 →
            ∃ s₁, lwgeom_from_wkb_state F w w.length s₀ =
              .ok (some g₀, s₁) ∧
              s₁.offset = s₀.offset + (encGeom le g₀).length ∧
              s₁.error = false ∧ s₁.check = 0 ∧ s₁.srid = gFinSrid g₀ ∧
              s₁.depth = s₀.depth := by
          intro g₀ hg₀ cur₀ rest₀ s₀ hwf₀ hw₀ herr₀ hchk₀ hsr₀ hd₀
          refine ih g₀ cur₀ le F w rest₀ s₀ ?_ hwf₀ ?_ hw₀ herr₀ hchk₀
            hsr₀ ?_
          · have := gListSize_mem hg₀
            omega
          · have := gListHeight_mem hg₀
            omega
          · have := cListDepth_mem hg₀
            rw [hd₀]
            omega
        obtain ⟨s₂, hloop, hoff2, herr2, hchk2, hsr2, hd2⟩ :=
          coll_geoms_decode_loop (lwgeom_from_wkb_state F) le w
            (s.depth + 1) gs sr [] rest
            { s with
              srid := sr
              swap_bytes := !le
              check := 0
              lwtype := some t
              has_z := z
              has_m := m
              has_srid := !decide (sr = SRID_UNKNOWN)
              error := false
              depth := s.depth + 1
              offset := s.offset +
                (encHeader le (lwtypeWkbCode t) z m sr).length + 4 }
            hdec hwfl hw3 rfl rfl rfl rfl
        have hdg : (LW_PARSER_MAX_DEPTH ≤ s.depth + 1) = False := by
          simp only [LW_PARSER_MAX_DEPTH, eq_iff_iff, iff_false, not_le]
          omega
        refine ⟨{ s₂ with depth := s₂.depth - 1 }, ?_, ?_, herr2, hchk2,
          hsr2, by rw [hd2]; simp⟩
        · rw [lwgeom_succ_eq, hbody, geom_dispatch_coll _ _ _ _ t rfl hcoll,
            coll_eq, ParserM.bind_apply, hint]
          simp [coll_tail, ParserM.bind_apply, getS_apply,
            ParserM.pure_apply, perr_apply, modifyS_apply, herr, hchk,
            hne0, hnp, hdg, hloop]
        · rw [hoff2]
          simp [encGeom, enc32_length]
          omega

theorem encGeom_ne_nil (le : Bool) (g : Geom) : encGeom le g ≠ [] := by
  cases g <;> simp [encGeom, encHeader]

/-- **C4.**  Decoding the big-endian and the little-endian WKB
encodings of the same logical geometry yields structurally identical
results — both decodes succeed and return exactly the encoded
geometry, so the type tags, the SRIDs and every coordinate double bit
pattern agree.  `WFGeom` delimits the encodable 2-D geometries (counts
within the parser's bounds, SRIDs surviving the clamp, curve-polygon
rings and collection kinds the decoder accepts), `F` bounds the
recursion budget and `cDepth` the collection nesting. -/
theorem C4_endian_invariance (g : Geom) (F : Nat)
    (hwf : WFGeom SRID_UNKNOWN g) (hht : gHeight g ≤ F)
    (hdep : cDepth g ≤ 198) :
    lwgeom_from_wkb (encGeom false g) (encGeom false g).length 0 F =
      .ok (some g) ∧
    lwgeom_from_wkb (encGeom true g) (encGeom true g).length 0 F =
      .ok (some g) := by
  have hboth : ∀ le : Bool,
      lwgeom_from_wkb (encGeom le g) (encGeom le g).length 0 F =
        .ok (some g) := by
    intro le
    obtain ⟨s', hrun, _, _, _, _, _⟩ :=
      encGeom_decode (gSize g) g SRID_UNKNOWN le F (encGeom le g) []
        (initState 0) le_rfl hwf hht (by simp [initState]) rfl rfl rfl
        (by simp [initState]; omega)
    have hne : (encGeom le g).length ≠ 0 := by
      simpa using fun hc => encGeom_ne_nil le g (List.length_eq_zero.1 hc)
    rw [lwgeom_from_wkb, if_neg hne, hrun]
  exact ⟨hboth false, hboth true⟩

/-- C4 witness: the mixed SRID-4326 collection decodes identically
from its two encodings. -/
theorem C4_endian_invariance_witness :
    lwgeom_from_wkb (encGeom false c4geom) (encGeom false c4geom).length
        0 3 = .ok (some c4geom) ∧
    lwgeom_from_wkb (encGeom true c4geom) (encGeom true c4geom).length
        0 3 = .ok (some c4geom) :=
  C4_endian_invariance c4geom 3
    ⟨Or.inr ⟨by decide, by simp only [sridRT]; decide⟩, by decide, rfl,
      by decide,
      ⟨⟨Or.inr ⟨by decide, by simp only [sridRT]; decide⟩, rfl, rfl,
        Or.inr ⟨0, 0, rfl, by decide, by decide, by decide⟩⟩,
       ⟨⟨Or.inr ⟨by decide, by simp only [sridRT]; decide⟩, rfl, rfl,
         ⟨by decide, by decide⟩, by decide⟩, trivial⟩⟩⟩
    (by simp [c4geom, gHeight, gListHeight])
    (by simp [c4geom, cDepth, cListDepth])

end GeoSpec
